import Mathlib

/-!
# bulwarkauth: credential issuance and verification

A shallow embedding of the Go sources of `latebit-io/bulwarkauth`
(`internal/accounts`, `internal/authentication`, `internal/encryption`,
`internal/tokens`, `internal/utils`).

Conventions of the embedding.

* A Go `(value, error)` result is an `Except Error value`; a Go `error` result
  is an `Option Error` (`none` is `nil`).
* A Go slice is a `List`; the `nil` slice is `[]`.
* A `time.Time` is an `Int`: nanoseconds since the Unix epoch.  A Go `int` and
  a `time.Duration` are `Int`s; the one multiplication of the sources that can
  leave the 64-bit range is wrapped explicitly (`wrapInt64`).
* A MongoDB collection is the list of its documents in insertion order.  The
  storage calls are modelled without transport failures, except the deletion of
  a one-time code and the calls of the password reset (the password update,
  the deletion of the reset record and the calls on the session), whose
  outcomes are arguments.  An operation that writes returns the collection
  after the call.  A datetime is stored to the millisecond.
* A transaction holds back the writes of the storage calls that carry its
  session context until it commits; a storage call with any other context
  acts on the committed contents.
* Every reading of the environment (`time.Now()`, `uuid.New()`, the random
  source of `rsa.GenerateKey` and of `rand.Int`) is an explicit argument.
* The third-party libraries (`golang-jwt/jwt/v5`, `crypto/rsa`, `encoding/pem`,
  `crypto/x509`) are modelled symbolically: a PEM text, a signature and a token
  are terms, so encoding followed by decoding is the identity and a signature
  verifies exactly under the key pair that produced it for the text it signed.
  `bcrypt`, the email collaborator and the validators of the social providers
  are parameters of the definitions that call them.
-/

namespace Bulwark

/-! ## Time and machine integers -/

/-! A `time.Time` is an `Int`, the nanoseconds since the Unix epoch; a
`time.Duration` is an `Int`, in nanoseconds. -/

/-- Go constant `time.Second`, in nanoseconds. -/
def nanosPerSecond : Int := 1000000000

/-- Go constant `time.Millisecond`, in nanoseconds. -/
def nanosPerMillisecond : Int := 1000000

/-- Two's complement wrap-around of a signed 64-bit result (Go `int64` arithmetic). -/
def wrapInt64 (x : Int) : Int := (x + 2 ^ 63) % 2 ^ 64 - 2 ^ 63

/-- Go `t.Truncate(time.Second)`, which is what `jwt.NewNumericDate` applies
(`jwt.TimePrecision` is `time.Second`). -/
def truncateSecond (t : Int) : Int := t - t % nanosPerSecond

/-- The precision of a BSON datetime: a stored `time.Time` keeps milliseconds. -/
def truncateMillisecond (t : Int) : Int := t - t % nanosPerMillisecond

/-! ## Errors -/

/-- The sentinel errors of `golang-jwt/jwt/v5` that `ParseWithClaims` can return. -/
inductive JwtErrorKind
  | ErrTokenMalformed
  | ErrTokenUnverifiable
  | ErrTokenSignatureInvalid
  | ErrTokenExpired
  | ErrTokenNotValidYet
  deriving DecidableEq, Repr

/-- The error values of the program: the typed errors of `internal/accounts`
and `internal/authentication`, the untyped `errors.New` / `fmt.Errorf` values,
and the errors of the libraries. -/
inductive Error
  | AccountDuplicateError (Value : String)
  | AccountNotFoundError (Value : String)
  | VerificationError (Value : String)
  | AccountDeletedError (Value : String)
  | AccountNotVerifiedError (Value : String)
  | AccountDisabledError (Value : String)
  | AuthenticationError (Value : String)
  | errorString (msg : String)
  | ErrMismatchedHashAndPassword
  | bcryptError (msg : String)
  | x509Error (msg : String)
  | jwtError (kind : JwtErrorKind) (cause : Option String)
  deriving DecidableEq, Repr

/-! ## internal/accounts: the account model -/

/-- Go struct `accounts.SocialProvider`. -/
structure SocialProvider where
  Name : String
  SocialId : String
  deriving DecidableEq, Repr

/-- Go struct `accounts.Account`. -/
structure Account where
  Email : String
  IsVerified : Bool
  VerificationToken : String
  IsEnabled : Bool
  IsDeleted : Bool
  SocialProviders : List SocialProvider
  Roles : List String
  Created : Int
  Modified : Int
  deriving DecidableEq, Repr

/-- Go `DefaultAuthenticationService.accountHealth` (authenticate.go). -/
def accountHealth (account : Account) : Option Error :=
  if account.IsDeleted then
    some (Error.AccountDeletedError account.Email)
  else if !account.IsVerified then
    some (Error.AccountNotVerifiedError account.Email)
  else if !account.IsEnabled then
    some (Error.AccountDisabledError account.Email)
  else
    none

/-- A document of the `accounts` collection, with the fields that
`MongodbAccountRepository.Create` writes, the ones `Account` decodes, and the
array `socialProvider` that `MongodbAccountRepository.LinkSocial` pushes to
(absent, that is empty, until the first push). -/
structure AccountDocument where
  email : String
  password : String
  isVerified : Bool
  verificationToken : String
  isEnabled : Bool
  isDeleted : Bool
  socialProviders : List SocialProvider
  roles : List String
  created : Int
  modified : Int
  socialProvider : List SocialProvider := []
  deriving DecidableEq, Repr

/-- Go `result.Decode(&account)`: the BSON field tags of `accounts.Account`. -/
def AccountDocument.decode (doc : AccountDocument) : Account :=
  { Email := doc.email
    IsVerified := doc.isVerified
    VerificationToken := doc.verificationToken
    IsEnabled := doc.isEnabled
    IsDeleted := doc.isDeleted
    SocialProviders := doc.socialProviders
    Roles := doc.roles
    Created := doc.created
    Modified := doc.modified }

/-- Go `collection.FindOne` with the filter `email` on the `accounts`
collection: the first document with that email. -/
def findAccount (accounts : List AccountDocument) (email : String) : Option AccountDocument :=
  accounts.find? (fun doc => doc.email == email)

/-- Go `MongodbAccountRepository.Read` (account_repository.go). -/
def Read (accounts : List AccountDocument) (email : String) : Except Error Account :=
  match findAccount accounts email with
  | none => Except.error (Error.AccountNotFoundError email)
  | some doc => Except.ok doc.decode

/-- The two functions of `golang.org/x/crypto/bcrypt` that the sources call.
`CompareHashAndPassword hash password` is `none` when the password matches the
hash and an error otherwise; `GenerateFromPassword password cost salt` is the
hash made with the random `salt`. -/
structure Bcrypt where
  CompareHashAndPassword : String → String → Option Error
  GenerateFromPassword : String → Nat → Nat → Except Error String

/-- Go `MongodbAccountRepository.PasswordMatches` (account_repository.go): no
document gives `(false, nil)`, an error of the comparison is returned as it is. -/
def PasswordMatches (bcrypt : Bcrypt) (accounts : List AccountDocument)
    (email password : String) : Except Error Bool :=
  match findAccount accounts email with
  | none => Except.ok false
  | some r =>
    match bcrypt.CompareHashAndPassword r.password password with
    | some err => Except.error err
    | none => Except.ok true

/-! ## internal/tokens: signing keys -/

/-- The text of a key as `SigningKey` stores it.  `rsaPrivate n` is the PEM
block holding the PKCS#1 private key of the key pair `n`, `rsaPublic n` the PEM
block holding the PKIX public key of the same pair, and `text s` any string in
which `pem.Decode` finds no block (the empty string of a zero `SigningKey`
among them). -/
inductive KeyText
  | text (s : String)
  | rsaPrivate (n : Nat)
  | rsaPublic (n : Nat)
  deriving DecidableEq, Repr

/-- Go struct `tokens.SigningKey`. -/
structure SigningKey where
  KeyId : String
  Format : String
  Algorithm : String
  PrivateKey : KeyText
  PublicKey : KeyText
  Created : Int
  deriving DecidableEq, Repr

/-- The zero value of `SigningKey`. -/
def SigningKey.zero : SigningKey :=
  { KeyId := "", Format := "", Algorithm := "", PrivateKey := KeyText.text "",
    PublicKey := KeyText.text "", Created := 0 }

/-- Go `NewSigningKey` (signing_key.go): `seed` is the key pair that
`rsa.GenerateKey(rand.Reader, byteSize * 8)` draws, `keyId` the `uuid.New()`
and `now` the `time.Now()` of the call. -/
def NewSigningKey (byteSize : Nat) (seed : Nat) (keyId : String) (now : Int) : SigningKey :=
  { KeyId := keyId
    Algorithm := "RS" ++ toString byteSize
    PrivateKey := KeyText.rsaPrivate seed
    PublicKey := KeyText.rsaPublic seed
    Format := "PKCS#1"
    Created := now }

/-- Go `DefaultSigningKeyRepository.Add` (signing_key_repository.go): the document
gets its own `uuid.New()` and `time.Now()`, kept to the millisecond by BSON. -/
def SigningKeyRepository.Add (signingKeys : List SigningKey)
    (privateKey publicKey : KeyText) (algorithm : String) (keyId : String) (now : Int) :
    List SigningKey :=
  signingKeys ++ [{ KeyId := keyId, Format := "PKCS#1", PrivateKey := privateKey,
                    PublicKey := publicKey, Algorithm := algorithm,
                    Created := truncateMillisecond now }]

/-- Go `DefaultSigningKeyRepository.GetLatestKey`: `FindOne` sorted by `created`
descending; no document gives the zero `SigningKey` and a `nil` error.  Among
documents with equal `created` the earliest inserted is returned. -/
def GetLatestKey : List SigningKey → SigningKey
  | [] => SigningKey.zero
  | k :: ks => ks.foldl (fun best x => if best.Created < x.Created then x else best) k

/-- Go `DefaultSigningKeyRepository.GetAllKeys` and `DefaultSigningKeyService.GetAllKeys`. -/
def GetAllKeys (signingKeys : List SigningKey) : Except Error (List SigningKey) :=
  Except.ok signingKeys

/-- The readings of the environment that one key generation consumes:
the random key pair, `uuid.New()` and `time.Now()` inside `NewSigningKey`, then
`uuid.New()` and `time.Now()` inside `Add`. -/
structure KeyGenEnv where
  seed : Nat
  newKeyId : String
  newKeyNow : Int
  keyId : String
  now : Int
  deriving DecidableEq, Repr

/-- Go `DefaultSigningKeyService.GenerateKey` (signing_key_service.go), as the new
contents of the `signingKeys` collection. -/
def GenerateKey (signingKeys : List SigningKey) (env : KeyGenEnv) : List SigningKey :=
  let key := NewSigningKey 256 env.seed env.newKeyId env.newKeyNow
  SigningKeyRepository.Add signingKeys key.PrivateKey key.PublicKey key.Algorithm env.keyId env.now

/-- Go `DefaultSigningKeyService.Initialize` (signing_key_service.go). -/
def Initialize (signingKeys : List SigningKey) (env : KeyGenEnv) : List SigningKey :=
  let latest := GetLatestKey signingKeys
  if latest.Algorithm != "" then
    signingKeys
  else
    let key := NewSigningKey 256 env.seed env.newKeyId env.newKeyNow
    SigningKeyRepository.Add signingKeys key.PrivateKey key.PublicKey key.Algorithm env.keyId env.now

/-- Go `DefaultSigningKeyService.LatestKey` (signing_key_service.go). -/
def LatestKey (signingKeys : List SigningKey) : Except Error SigningKey :=
  Except.ok (GetLatestKey signingKeys)

/-! ## golang-jwt/jwt/v5: tokens as terms -/

/-- The JOSE header of a token: `alg` and `typ` as `jwt.NewWithClaims` sets
them, and the two entries the tokenizer adds.  An absent entry is `none`. -/
structure Header where
  alg : String
  typ : String
  use : Option String
  kid : Option String
  deriving DecidableEq, Repr

/-- Go struct `jwt.RegisteredClaims`; a date is kept in nanoseconds. -/
structure RegisteredClaims where
  Issuer : String
  Subject : String
  Audience : List String
  ExpiresAt : Option Int
  NotBefore : Option Int
  IssuedAt : Option Int
  ID : String
  deriving DecidableEq, Repr

/-- Go struct `tokens.AccessTokenClaims` (tokenizer.go). -/
structure AccessTokenClaims extends RegisteredClaims where
  Roles : List String
  deriving DecidableEq, Repr

/-- Go struct `tokens.RefreshTokenClaims` (tokenizer.go). -/
structure RefreshTokenClaims extends RegisteredClaims where
  deriving DecidableEq, Repr

/-- The JSON object of the second segment: the registered claims and the
`roles` member (absent or `null` is the `nil` slice). -/
structure Payload where
  roles : List String
  registered : RegisteredClaims
  deriving DecidableEq, Repr

/-- Go `json.Marshal` of `AccessTokenClaims`. -/
def AccessTokenClaims.marshal (c : AccessTokenClaims) : Payload :=
  { roles := c.Roles, registered := c.toRegisteredClaims }

/-- Go `json.Marshal` of `RefreshTokenClaims`: there is no `roles` member. -/
def RefreshTokenClaims.marshal (c : RefreshTokenClaims) : Payload :=
  { roles := [], registered := c.toRegisteredClaims }

/-- Go `json.Unmarshal` into an empty `AccessTokenClaims`. -/
def AccessTokenClaims.unmarshal (p : Payload) : AccessTokenClaims :=
  { toRegisteredClaims := p.registered, Roles := p.roles }

/-- Go `json.Unmarshal` into an empty `RefreshTokenClaims`: a `roles` member is ignored. -/
def RefreshTokenClaims.unmarshal (p : Payload) : RefreshTokenClaims :=
  { toRegisteredClaims := p.registered }

/-- The bytes of the third segment.  `rsa alg n header payload` is the
RSASSA-PKCS1-v1_5 signature that the private key of the key pair `n` makes,
with the hash of `alg`, over the signing string of `header` and `payload`;
`bytes s` is any other byte string. -/
inductive Signature
  | rsa (alg : String) (n : Nat) (header : Header) (payload : Payload)
  | bytes (s : String)
  deriving DecidableEq, Repr

/-- One dot-separated segment of a token string: the base64url text of a JSON
header, of a JSON claims object or of a signature, or any other text. -/
inductive Segment
  | header (h : Header)
  | payload (p : Payload)
  | signature (s : Signature)
  | raw (s : String)
  deriving DecidableEq, Repr

/-- A token string, as the list of its segments: `strings.Split(token, ".")`. -/
abbrev TokenString := List Segment

/-- The signing methods that `golang-jwt/jwt/v5` registers, by Go type. -/
inductive SigningMethod
  | SigningMethodRSA (name : String)
  | SigningMethodRSAPSS (name : String)
  | SigningMethodHMAC (name : String)
  | SigningMethodECDSA (name : String)
  | SigningMethodEd25519
  | signingMethodNone
  deriving DecidableEq, Repr

/-- Go `jwt.GetSigningMethod`: the method registered under an `alg` value. -/
def GetSigningMethod (alg : String) : Option SigningMethod :=
  if alg = "RS256" ∨ alg = "RS384" ∨ alg = "RS512" then some (SigningMethod.SigningMethodRSA alg)
  else if alg = "PS256" ∨ alg = "PS384" ∨ alg = "PS512" then
    some (SigningMethod.SigningMethodRSAPSS alg)
  else if alg = "HS256" ∨ alg = "HS384" ∨ alg = "HS512" then
    some (SigningMethod.SigningMethodHMAC alg)
  else if alg = "ES256" ∨ alg = "ES384" ∨ alg = "ES512" then
    some (SigningMethod.SigningMethodECDSA alg)
  else if alg = "EdDSA" then some SigningMethod.SigningMethodEd25519
  else if alg = "none" then some SigningMethod.signingMethodNone
  else none

/-- The Go type assertion `token.Method.(*jwt.SigningMethodRSA)`. -/
def SigningMethod.isSigningMethodRSA : SigningMethod → Bool
  | SigningMethod.SigningMethodRSA _ => true
  | _ => false

/-- Go struct `jwt.Token` as the key function sees it. -/
structure Token where
  Method : SigningMethod
  Header : Header
  Claims : Payload
  deriving DecidableEq, Repr

set_option linter.dupNamespace false in
/-- The `Error()` text of an error value (account_errors.go,
authentication_errors.go, and the texts of the library errors). -/
def Error.Error : Error → String
  | Error.AccountDuplicateError v => "duplicate account: '" ++ v ++ "' already exists"
  | Error.AccountNotFoundError v => "not found: " ++ v
  | Error.VerificationError v => "verification error: " ++ v
  | Error.AccountDeletedError v => "account: '" ++ v ++ "' is deleted"
  | Error.AccountNotVerifiedError v => "account: '" ++ v ++ "' is not verified"
  | Error.AccountDisabledError v => "account: '" ++ v ++ "' is disabled"
  | Error.AuthenticationError v => "cannot authenticate account: " ++ v
  | Error.errorString msg => msg
  | Error.ErrMismatchedHashAndPassword =>
      "crypto/bcrypt: hashedPassword is not the hash of the given password"
  | Error.bcryptError msg => msg
  | Error.x509Error msg => msg
  | Error.jwtError kind cause =>
      (match kind with
        | JwtErrorKind.ErrTokenMalformed => "token is malformed"
        | JwtErrorKind.ErrTokenUnverifiable => "token is unverifiable"
        | JwtErrorKind.ErrTokenSignatureInvalid => "token signature is invalid"
        | JwtErrorKind.ErrTokenExpired => "token is expired"
        | JwtErrorKind.ErrTokenNotValidYet => "token is not valid yet") ++
      (match cause with
        | some c => ": " ++ c
        | none => "")

/-- Go `SigningMethodRSA.Verify` with an `*rsa.PublicKey` of the key pair `n`. -/
def rsaVerify (alg : String) (n : Nat) (header : Header) (payload : Payload)
    (sig : Signature) : Bool :=
  sig == Signature.rsa alg n header payload

/-- Go `token.Method.Verify(text, token.Signature, key)` for a key that is an
`*rsa.PublicKey`, the only kind of key that the key functions of this program
return: the two RSA families verify the signature, every other method refuses
the key type. -/
def SigningMethod.Verify (method : SigningMethod) (n : Nat) (header : Header)
    (payload : Payload) (sig : Signature) : Bool :=
  match method with
  | SigningMethod.SigningMethodRSA alg => rsaVerify alg n header payload sig
  | SigningMethod.SigningMethodRSAPSS alg => rsaVerify alg n header payload sig
  | _ => false

/-- Go `Validator.Validate` of `jwt/v5` with no parser option: `exp` and `nbf`
are checked when present, with no leeway; `iat` is not checked. -/
def validateClaims (claims : RegisteredClaims) (now : Int) : Option Error :=
  let expired := match claims.ExpiresAt with
    | some exp => !(decide (now < exp))
    | none => false
  let early := match claims.NotBefore with
    | some nbf => decide (now < nbf)
    | none => false
  if expired then some (Error.jwtError JwtErrorKind.ErrTokenExpired none)
  else if early then some (Error.jwtError JwtErrorKind.ErrTokenNotValidYet none)
  else none

/-- Go `jwt.ParseWithClaims(tokenString, claims, keyFunc)` read at time `now`:
split and decode the three segments, look the method up, decode the signature,
call the key function, verify the signature, validate the claims.  The result
is the claims object of a token whose `Valid` is true. -/
def ParseWithClaims (tokenString : TokenString) (keyFunc : Token → Except Error Nat)
    (now : Int) : Except Error Payload :=
  match tokenString with
  | [Segment.header h, Segment.payload p, sigSegment] =>
    match GetSigningMethod h.alg with
    | none =>
      Except.error (Error.jwtError JwtErrorKind.ErrTokenUnverifiable
        (some "signing method (alg) is unavailable"))
    | some method =>
      match sigSegment with
      | Segment.signature sig =>
        match keyFunc { Method := method, Header := h, Claims := p } with
        | Except.error err =>
          Except.error (Error.jwtError JwtErrorKind.ErrTokenUnverifiable (some err.Error))
        | Except.ok key =>
          if method.Verify key h p sig then
            match validateClaims p.registered now with
            | some err => Except.error err
            | none => Except.ok p
          else
            Except.error (Error.jwtError JwtErrorKind.ErrTokenSignatureInvalid none)
      | _ => Except.error (Error.jwtError JwtErrorKind.ErrTokenMalformed none)
  | _ => Except.error (Error.jwtError JwtErrorKind.ErrTokenMalformed none)

/-! ## internal/tokens: the tokenizer -/

/-- Go struct `tokens.DefaultTokenizer`.  `keys` is the Go map, newest entry
first; the `signingKeyService` field is the handle to the `signingKeys`
collection, whose current contents the operations below take as an argument. -/
structure DefaultTokenizer where
  Name : String
  Issuer : String
  Audience : String
  keys : List (String × SigningKey)
  refreshTokenExpInSec : Int
  accessTokenExpInSec : Int
  deriving DecidableEq, Repr

/-- The Go map read `d.keys[kid]`: a missing entry gives the zero `SigningKey`. -/
def DefaultTokenizer.keyAt (d : DefaultTokenizer) (kid : String) : SigningKey :=
  (d.keys.lookup kid).getD SigningKey.zero

/-- Go `NewDefaultTokenizer` (tokenizer.go): the key map is filled once, from the
keys that the store holds when the tokenizer is made. -/
def NewDefaultTokenizer (name issuer audience : String) (refreshTokenExpInSec : Int)
    (accessTokenExpInSec : Int) (signingKeys : List SigningKey) : DefaultTokenizer :=
  let keyMap := signingKeys.foldl (fun m k => (k.KeyId, k) :: m) []
  { Name := name
    Issuer := issuer
    Audience := audience
    keys := keyMap
    accessTokenExpInSec := accessTokenExpInSec
    refreshTokenExpInSec := refreshTokenExpInSec }

/-- Go `DefaultTokenizer.loadPrivateKey`: `pem.Decode`, then `x509.ParsePKCS1PrivateKey`. -/
def loadPrivateKey (key : KeyText) : Except Error Nat :=
  match key with
  | KeyText.text _ => Except.error (Error.errorString "failed to decode PEM block")
  | KeyText.rsaPrivate n => Except.ok n
  | KeyText.rsaPublic _ => Except.error (Error.x509Error "x509: failed to parse private key")
  
/-- Go `DefaultTokenizer.loadPublicKey`: `pem.Decode`, then `x509.ParsePKIXPublicKey`. -/
def loadPublicKey (key : KeyText) : Except Error Nat :=
  match key with
  | KeyText.text _ => Except.error (Error.errorString "")
  | KeyText.rsaPublic n => Except.ok n
  | KeyText.rsaPrivate _ => Except.error (Error.x509Error "x509: failed to parse public key")

/-- The readings of the environment that one token creation consumes, in
source order: `uuid.New()`, then the `time.Now()` of `ExpiresAt`, of
`IssuedAt` and of `NotBefore`. -/
structure MintEnv where
  id : String
  nowExpiresAt : Int
  nowIssuedAt : Int
  nowNotBefore : Int
  deriving DecidableEq, Repr

/-- Go `time.Second * time.Duration(sec)`: an `int64` product. -/
def secondsToDuration (sec : Int) : Int := wrapInt64 (nanosPerSecond * sec)

/-- Go `jwt.NewWithClaims(jwt.SigningMethodRS256, claims)` with the `use` and
`kid` header entries set, then `j.SignedString(privateKey)`. -/
def SignedString (use kid : String) (claims : Payload) (privateKey : Nat) : TokenString :=
  let header : Header := { alg := "RS256", typ := "JWT", use := some use, kid := some kid }
  [Segment.header header, Segment.payload claims,
   Segment.signature (Signature.rsa "RS256" privateKey header claims)]

/-- Go `DefaultTokenizer.CreateAccessToken` (tokenizer.go). -/
def CreateAccessToken (d : DefaultTokenizer) (signingKeys : List SigningKey) (env : MintEnv)
    (email : String) (rbac : List String) : Except Error TokenString :=
  match LatestKey signingKeys with
  | Except.error err => Except.error err
  | Except.ok key =>
    let claims : AccessTokenClaims :=
      { Roles := rbac
        ID := env.id
        ExpiresAt := some (truncateSecond
          (env.nowExpiresAt + secondsToDuration d.accessTokenExpInSec))
        IssuedAt := some (truncateSecond env.nowIssuedAt)
        NotBefore := some (truncateSecond env.nowNotBefore)
        Issuer := d.Issuer
        Subject := email
        Audience := [d.Audience] }
    match loadPrivateKey key.PrivateKey with
    | Except.error err => Except.error err
    | Except.ok privateKey => Except.ok (SignedString "access" key.KeyId claims.marshal privateKey)

/-- Go `DefaultTokenizer.CreateRefreshToken` (tokenizer.go). -/
def CreateRefreshToken (d : DefaultTokenizer) (signingKeys : List SigningKey) (env : MintEnv)
    (email : String) : Except Error TokenString :=
  match LatestKey signingKeys with
  | Except.error err => Except.error err
  | Except.ok key =>
    let claims : RefreshTokenClaims :=
      { ID := env.id
        ExpiresAt := some (truncateSecond
          (env.nowExpiresAt + secondsToDuration d.refreshTokenExpInSec))
        IssuedAt := some (truncateSecond env.nowIssuedAt)
        NotBefore := some (truncateSecond env.nowNotBefore)
        Issuer := d.Issuer
        Subject := email
        Audience := [d.Audience] }
    match loadPrivateKey key.PrivateKey with
    | Except.error err => Except.error err
    | Except.ok privateKey => Except.ok (SignedString "refresh" key.KeyId claims.marshal privateKey)

/-- Go `fmt.Sprintf("%v", token.Header["kid"])`: an absent entry prints as `<nil>`. -/
def sprintKid (kid : Option String) : String := kid.getD "<nil>"

/-- The key function that `ValidateRefreshToken` and `ValidateAccessToken`
both pass to `jwt.ParseWithClaims` (tokenizer.go; the two closures are the
same): the method must be an `*jwt.SigningMethodRSA`, then the subject must be
`email`, then the key is read from `d.keys` under the `kid` of the header. -/
def keyFunc (d : DefaultTokenizer) (email : String) (token : Token) : Except Error Nat :=
  if !token.Method.isSigningMethodRSA then
    Except.error (Error.errorString "signing method not supported")
  else
    let tokenEmail := token.Claims.registered.Subject
    if tokenEmail != email then
      Except.error (Error.errorString "invalid token")
    else
      let kid := sprintKid token.Header.kid
      let key := d.keyAt kid
      loadPublicKey key.PublicKey

/-- Go `DefaultTokenizer.ValidateRefreshToken` (tokenizer.go), read at time `now`. -/
def ValidateRefreshToken (d : DefaultTokenizer) (now : Int) (email : String)
    (tokenString : TokenString) : Except Error RefreshTokenClaims :=
  match ParseWithClaims tokenString (keyFunc d email) now with
  | Except.error err => Except.error err
  | Except.ok claims => Except.ok (RefreshTokenClaims.unmarshal claims)

/-- Go `DefaultTokenizer.ValidateAccessToken` (tokenizer.go), read at time `now`. -/
def ValidateAccessToken (d : DefaultTokenizer) (now : Int) (email : String)
    (tokenString : TokenString) : Except Error AccessTokenClaims :=
  match ParseWithClaims tokenString (keyFunc d email) now with
  | Except.error err => Except.error err
  | Except.ok claims => Except.ok (AccessTokenClaims.unmarshal claims)

/-! ## internal/authentication: the authentication service -/

/-- Go struct `authentication.Authenticated`. -/
structure Authenticated where
  AccessToken : TokenString
  RefreshToken : TokenString
  deriving DecidableEq, Repr

/-- A call of the authentication service on one of its collaborators
(`a.accounts`, `a.tokens`), with the arguments it passes. -/
inductive Call
  | Read (email : String)
  | PasswordMatches (email password : String)
  | ValidateRefreshToken (email : String) (tokenString : TokenString)
  | CreateAccessToken (email : String) (rbac : List String)
  | CreateRefreshToken (email : String)
  deriving DecidableEq, Repr

/-- Whether a call is one of the two that create a token. -/
def Call.createsToken : Call → Bool
  | Call.CreateAccessToken _ _ => true
  | Call.CreateRefreshToken _ => true
  | _ => false

/-- Go `DefaultAuthenticationService.Authenticate` (authenticate.go): the calls
made on the collaborators, in order, and the result.  `accounts` and
`signingKeys` are the contents of the two collections during the call,
`envAccess` and `envRefresh` the environment readings of the two token
creations.  The access token is created with the `nil` role slice. -/
def Authenticate (bcrypt : Bcrypt) (tokens : DefaultTokenizer)
    (accounts : List AccountDocument) (signingKeys : List SigningKey)
    (envAccess envRefresh : MintEnv) (email password : String) :
    List Call × Except Error Authenticated :=
  match Read accounts email with
  | Except.error err => ([Call.Read email], Except.error err)
  | Except.ok account =>
    match accountHealth account with
    | some err => ([Call.Read email], Except.error err)
    | none =>
      match PasswordMatches bcrypt accounts email password with
      | Except.error err =>
        ([Call.Read email, Call.PasswordMatches email password], Except.error err)
      | Except.ok authenticated =>
        if !authenticated then
          ([Call.Read email, Call.PasswordMatches email password],
            Except.error (Error.AuthenticationError email))
        else
          match CreateAccessToken tokens signingKeys envAccess email [] with
          | Except.error err =>
            ([Call.Read email, Call.PasswordMatches email password,
              Call.CreateAccessToken email []], Except.error err)
          | Except.ok accessToken =>
            match CreateRefreshToken tokens signingKeys envRefresh email with
            | Except.error err =>
              ([Call.Read email, Call.PasswordMatches email password,
                Call.CreateAccessToken email [], Call.CreateRefreshToken email],
                Except.error err)
            | Except.ok refreshToken =>
              ([Call.Read email, Call.PasswordMatches email password,
                Call.CreateAccessToken email [], Call.CreateRefreshToken email],
                Except.ok { AccessToken := accessToken, RefreshToken := refreshToken })

/-- Go `DefaultAuthenticationService.Renew` (authenticate.go), read at time `now`:
the calls made on the collaborators, in order, and the result. -/
def Renew (tokens : DefaultTokenizer) (accounts : List AccountDocument)
    (signingKeys : List SigningKey) (now : Int) (envAccess envRefresh : MintEnv)
    (refreshToken : TokenString) (email : String) :
    List Call × Except Error Authenticated :=
  match ValidateRefreshToken tokens now email refreshToken with
  | Except.error err => ([Call.ValidateRefreshToken email refreshToken], Except.error err)
  | Except.ok token =>
    match Read accounts token.Subject with
    | Except.error err =>
      ([Call.ValidateRefreshToken email refreshToken, Call.Read token.Subject],
        Except.error err)
    | Except.ok account =>
      match CreateAccessToken tokens signingKeys envAccess token.Subject account.Roles with
      | Except.error err =>
        ([Call.ValidateRefreshToken email refreshToken, Call.Read token.Subject,
          Call.CreateAccessToken token.Subject account.Roles], Except.error err)
      | Except.ok accessToken =>
        match CreateRefreshToken tokens signingKeys envRefresh token.Subject with
        | Except.error err =>
          ([Call.ValidateRefreshToken email refreshToken, Call.Read token.Subject,
            Call.CreateAccessToken token.Subject account.Roles,
            Call.CreateRefreshToken token.Subject], Except.error err)
        | Except.ok refreshToken2 =>
          ([Call.ValidateRefreshToken email refreshToken, Call.Read token.Subject,
            Call.CreateAccessToken token.Subject account.Roles,
            Call.CreateRefreshToken token.Subject],
            Except.ok { AccessToken := accessToken, RefreshToken := refreshToken2 })

/-! ## internal/encryption -/

/-- Go constant `bcrypt.MinCost`. -/
def bcryptMinCost : Nat := 4

/-- Go `DefaultEncryption.Encrypt` (encryption.go); `salt` is the random salt
that `bcrypt.GenerateFromPassword` draws. -/
def DefaultEncryption.Encrypt (bcrypt : Bcrypt) (password : String) (salt : Nat) :
    Except Error String :=
  bcrypt.GenerateFromPassword password bcryptMinCost salt

/-- Go `DefaultEncryption.Verify` (encryption.go): an error of the comparison,
the mismatch among them, is returned with `false`; there is no `(false, nil)`
result. -/
def DefaultEncryption.Verify (bcrypt : Bcrypt) (password verifyPassword : String) :
    Except Error Bool :=
  match bcrypt.CompareHashAndPassword password verifyPassword with
  | some err => Except.error err
  | none => Except.ok true

/-! ## internal/authentication: one-time codes -/

/-- Go variable `mongo.ErrNoDocuments`, an `errors.New` value. -/
def ErrNoDocuments : Error := Error.errorString "mongo: no documents in result"

/-- Go struct `authentication.LogonCode` (logon_code_repository.go), which is
also the document of the `logonCodes` collection: `Code` is the hash. -/
structure LogonCode where
  Email : String
  Code : String
  Expires : Int
  Created : Int
  deriving DecidableEq, Repr

/-- Go `DefaultLogonCodeRepository.Read` (logon_code_repository.go): the first
document with the email; the error of `FindOne` is returned as it is. -/
def DefaultLogonCodeRepository.Read (logonCodes : List LogonCode) (email : String) :
    Except Error LogonCode :=
  match logonCodes.find? (fun c => c.Email == email) with
  | none => Except.error ErrNoDocuments
  | some c => Except.ok c

/-- Go `DefaultLogonCodeRepository.Delete` (logon_code_repository.go):
`DeleteOne` removes the first document with the email and the code.  `failure`
is the error of the storage call when the call fails; the collection is then
unchanged. -/
def DefaultLogonCodeRepository.Delete (logonCodes : List LogonCode) (failure : Option Error)
    (email code : String) : List LogonCode × Option Error :=
  match failure with
  | some err => (logonCodes, some err)
  | none => (logonCodes.eraseP (fun c => c.Email == email && c.Code == code), none)

/-- Go `DefaultLogonCodeService.Authenticate` (logon_code.go): the contents of
the `logonCodes` collection after the call, and the result.  `deleteFailure` is
the outcome of the storage call of `Delete`; its error is logged and dropped.
The `Expires` field of the record is not read. -/
def DefaultLogonCodeService.Authenticate (bcrypt : Bcrypt) (tokens : DefaultTokenizer)
    (logonCodes : List LogonCode) (accounts : List AccountDocument)
    (signingKeys : List SigningKey) (envAccess envRefresh : MintEnv)
    (deleteFailure : Option Error) (email code : String) :
    List LogonCode × Except Error Authenticated :=
  match DefaultLogonCodeRepository.Read logonCodes email with
  | Except.error err => (logonCodes, Except.error err)
  | Except.ok compareCode =>
    match DefaultEncryption.Verify bcrypt compareCode.Code code with
    | Except.error err => (logonCodes, Except.error err)
    | Except.ok verified =>
      if verified then
        match Read accounts email with
        | Except.error err => (logonCodes, Except.error err)
        | Except.ok account =>
          match CreateAccessToken tokens signingKeys envAccess email account.Roles with
          | Except.error err => (logonCodes, Except.error err)
          | Except.ok accessToken =>
            match CreateRefreshToken tokens signingKeys envRefresh email with
            | Except.error err => (logonCodes, Except.error err)
            | Except.ok refreshToken =>
              ((DefaultLogonCodeRepository.Delete logonCodes deleteFailure email
                  compareCode.Code).1,
                Except.ok { AccessToken := accessToken, RefreshToken := refreshToken })
      else
        (logonCodes, Except.error (Error.AuthenticationError email))

/-! ## internal/authentication: the session ledger -/

/-- Go struct `authentication.Token` (token_repository.go), which is also the
document of the `tokens` collection. -/
structure SessionToken where
  Email : String
  ClientId : String
  AccessToken : TokenString
  RefreshToken : TokenString
  CreatedAt : Int
  ModifiedAt : Int
  deriving DecidableEq, Repr

/-- The update of `DefaultTokenRepository.Create` applied to the first document
with the email and the client id. -/
def updateSession (email clientId : String) (accessToken refreshToken : TokenString)
    (nowModified : Int) : List SessionToken → List SessionToken
  | [] => []
  | t :: ts =>
    if t.Email == email && t.ClientId == clientId then
      { t with AccessToken := accessToken, RefreshToken := refreshToken,
               ModifiedAt := truncateMillisecond nowModified } :: ts
    else t :: updateSession email clientId accessToken refreshToken nowModified ts

/-- Go `DefaultTokenRepository.Create` (token_repository.go): an upsert under
the filter email and client id; `nowModified` and `nowCreated` are the two
`time.Now()` readings, in source order. -/
def DefaultTokenRepository.Create (sessions : List SessionToken) (email clientId : String)
    (accessToken refreshToken : TokenString) (nowModified nowCreated : Int) :
    List SessionToken :=
  if sessions.any (fun t => t.Email == email && t.ClientId == clientId) then
    updateSession email clientId accessToken refreshToken nowModified sessions
  else
    sessions ++ [{ Email := email, ClientId := clientId, AccessToken := accessToken,
                   RefreshToken := refreshToken,
                   ModifiedAt := truncateMillisecond nowModified,
                   CreatedAt := truncateMillisecond nowCreated }]

/-- Go `DefaultTokenRepository.Delete` (token_repository.go): `DeleteOne` under
the filter email and client id. -/
def DefaultTokenRepository.Delete (sessions : List SessionToken) (email clientId : String) :
    List SessionToken × Option Error :=
  (sessions.eraseP (fun t => t.Email == email && t.ClientId == clientId), none)

/-- Go `DefaultTokenRepository.Read` (token_repository.go): `FindOne` under the
filter email alone; the `clientId` argument is not used. -/
def DefaultTokenRepository.Read (sessions : List SessionToken) (email _clientId : String) :
    Except Error SessionToken :=
  match sessions.find? (fun t => t.Email == email) with
  | none => Except.error ErrNoDocuments
  | some t => Except.ok t

/-- Go `DefaultAuthenticationService.Acknowledge` (authenticate.go). -/
def Acknowledge (sessions : List SessionToken) (authenticated : Authenticated)
    (email clientId : String) (nowModified nowCreated : Int) : List SessionToken :=
  DefaultTokenRepository.Create sessions email clientId authenticated.AccessToken
    authenticated.RefreshToken nowModified nowCreated

/-- Go `DefaultAuthenticationService.Revoke` (authenticate.go): the ledger after
the call, and the error returned; the access token argument is not used. -/
def Revoke (sessions : List SessionToken) (clientId email : String) (_accessToken : TokenString) :
    List SessionToken × Option Error :=
  DefaultTokenRepository.Delete sessions email clientId

/-! ## internal/accounts: creating accounts and linking providers -/

/-- The update of `MongodbAccountRepository.LinkSocial` applied to the first
document with the email: `$push` appends to the array `socialProvider`. -/
def pushSocialProvider (email : String) (provider : SocialProvider) :
    List AccountDocument → List AccountDocument
  | [] => []
  | doc :: docs =>
    if doc.email == email then
      { doc with socialProvider := doc.socialProvider ++ [provider] } :: docs
    else doc :: pushSocialProvider email provider docs

/-- Go `MongodbAccountRepository.LinkSocial` (account_repository.go): the
collection after the call, and the error returned. -/
def LinkSocial (accounts : List AccountDocument) (email : String) (provider : SocialProvider) :
    List AccountDocument × Option Error :=
  if accounts.any (fun doc => doc.email == email) then
    (pushSocialProvider email provider accounts, none)
  else
    (accounts, some (Error.AccountNotFoundError email))

/-- The readings of the environment that one account creation consumes, in
source order: `uuid.NewUUID()` for the verification token, the salt of the
password hash, the `time.Now()` of `created` and the one of `modified`. -/
structure CreateEnv where
  verificationToken : String
  salt : Nat
  nowCreated : Int
  nowModified : Int
  deriving DecidableEq, Repr

/-- Go `strings.Join(errorMessages, ",")` for the two checks of
`MongodbAccountRepository.Create`. -/
def createErrorMessages (email password : String) : List String :=
  (if email == "" then ["email is required"] else []) ++
  (if password == "" then ["password is required"] else [])

/-- Go `MongodbAccountRepository.Create` (account_repository.go): the collection
after the call, and the error returned.  The unique index on `email` makes
`InsertOne` fail with a duplicate key error when the email is stored. -/
def MongodbAccountRepository.Create (bcrypt : Bcrypt) (accounts : List AccountDocument)
    (env : CreateEnv) (email password : String) : List AccountDocument × Option Error :=
  let errorMessages := createErrorMessages email password
  if errorMessages.length > 0 then
    (accounts, some (Error.errorString (",".intercalate errorMessages)))
  else
    match DefaultEncryption.Encrypt bcrypt password env.salt with
    | Except.error err => (accounts, some err)
    | Except.ok hashed =>
      if accounts.any (fun doc => doc.email == email) then
        (accounts, some (Error.AccountDuplicateError email))
      else
        (accounts ++ [{ email := email, password := hashed, isVerified := false,
                        verificationToken := env.verificationToken, isEnabled := false,
                        isDeleted := false, socialProviders := [], roles := [],
                        created := truncateMillisecond env.nowCreated,
                        modified := truncateMillisecond env.nowModified }], none)

/-- Go interface `accounts.EmailService`: the three sending functions of the
email collaborator, each with the error it returns. -/
structure EmailService where
  SendVerificationEmail : String → String → Option Error
  SendForgotPasswordEmail : String → String → Option Error
  SendMagicLinkEmail : String → String → Option Error

/-- Go `DefaultAccountService.Create` (accounts.go): the collection after the
call, and the error returned. -/
def DefaultAccountService.Create (bcrypt : Bcrypt) (emailService : EmailService)
    (accounts : List AccountDocument) (env : CreateEnv) (email password : String) :
    List AccountDocument × Option Error :=
  match MongodbAccountRepository.Create bcrypt accounts env email password with
  | (accounts1, some err) => (accounts1, some err)
  | (accounts1, none) =>
    match Read accounts1 email with
    | Except.error err => (accounts1, some err)
    | Except.ok account =>
      (accounts1, emailService.SendVerificationEmail email account.VerificationToken)

/-! ## internal/authentication/social -/

/-- Go struct `social.Social` (social-validator.go). -/
structure Social where
  ID : String
  Email : String
  Provider : String
  deriving DecidableEq, Repr

/-- Go interface `social.Validator`: the name of the provider and the check of
an identity assertion, which is the work of the provider's library. -/
structure Validator where
  Name : String
  ValidateToken : String → Except Error Social

/-- Go `DefaultSocialService.AddValidator`: the map write
`s.validators[validator.Name()] = validator`, newest entry first. -/
def AddValidator (validators : List (String × Validator)) (validator : Validator) :
    List (String × Validator) :=
  (validator.Name, validator) :: validators

/-- A call of the social service on one of its collaborators (the validator,
`s.accountRepo`, `s.accountService`, `s.token`), with the arguments it passes. -/
inductive SocialCall
  | ValidateToken (provider idToken : String)
  | Read (email : String)
  | Create (email password : String)
  | LinkSocial (email : String) (provider : SocialProvider)
  | CreateAccessToken (email : String) (rbac : List String)
  | CreateRefreshToken (email : String)
  deriving DecidableEq, Repr

/-- Go `DefaultSocialService.Authenticate` (social-validator.go): the calls made
on the collaborators, in order, the `accounts` collection after the call, and
the result.  `randomPassword` is the `uuid.New().String()` of the first
sign-in, `createEnv` the environment readings of the account creation. -/
def DefaultSocialService.Authenticate (bcrypt : Bcrypt) (emailService : EmailService)
    (validators : List (String × Validator)) (token : DefaultTokenizer)
    (accounts : List AccountDocument) (signingKeys : List SigningKey)
    (randomPassword : String) (createEnv : CreateEnv) (envAccess envRefresh : MintEnv)
    (idToken provider : String) :
    List SocialCall × List AccountDocument × Except Error Authenticated :=
  match validators.lookup provider with
  | none =>
    ([], accounts,
      Except.error (Error.errorString ("no validator found for provider " ++ provider)))
  | some validator =>
    match validator.ValidateToken idToken with
    | Except.error err => ([SocialCall.ValidateToken provider idToken], accounts, Except.error err)
    | Except.ok social =>
      if social.Email == "" then
        ([SocialCall.ValidateToken provider idToken], accounts,
          Except.error (Error.errorString ("no email found in ID token " ++ provider)))
      else
        match Read accounts social.Email with
        | Except.error (Error.AccountNotFoundError _) =>
          match DefaultAccountService.Create bcrypt emailService accounts createEnv social.Email
              randomPassword with
          | (accounts1, some err) =>
            ([SocialCall.ValidateToken provider idToken, SocialCall.Read social.Email,
              SocialCall.Create social.Email randomPassword], accounts1, Except.error err)
          | (accounts1, none) =>
            ([SocialCall.ValidateToken provider idToken, SocialCall.Read social.Email,
              SocialCall.Create social.Email randomPassword], accounts1,
              Except.error (Error.AccountNotVerifiedError social.Email))
        | Except.error err =>
          ([SocialCall.ValidateToken provider idToken, SocialCall.Read social.Email], accounts,
            Except.error err)
        | Except.ok account =>
          let link : SocialProvider := { Name := social.Provider, SocialId := social.ID }
          match LinkSocial accounts social.Email link with
          | (accounts1, some err) =>
            ([SocialCall.ValidateToken provider idToken, SocialCall.Read social.Email,
              SocialCall.LinkSocial social.Email link], accounts1, Except.error err)
          | (accounts1, none) =>
            match CreateAccessToken token signingKeys envAccess account.Email account.Roles with
            | Except.error err =>
              ([SocialCall.ValidateToken provider idToken, SocialCall.Read social.Email,
                SocialCall.LinkSocial social.Email link,
                SocialCall.CreateAccessToken account.Email account.Roles], accounts1,
                Except.error err)
            | Except.ok accessToken =>
              match CreateRefreshToken token signingKeys envRefresh account.Email with
              | Except.error err =>
                ([SocialCall.ValidateToken provider idToken, SocialCall.Read social.Email,
                  SocialCall.LinkSocial social.Email link,
                  SocialCall.CreateAccessToken account.Email account.Roles,
                  SocialCall.CreateRefreshToken account.Email], accounts1, Except.error err)
              | Except.ok refreshToken =>
                ([SocialCall.ValidateToken provider idToken, SocialCall.Read social.Email,
                  SocialCall.LinkSocial social.Email link,
                  SocialCall.CreateAccessToken account.Email account.Roles,
                  SocialCall.CreateRefreshToken account.Email], accounts1,
                  Except.ok { AccessToken := accessToken, RefreshToken := refreshToken })

/-! ## internal/accounts: verification, email change and password reset -/

/-- Go `UpdateOne` without upsert on a collection: the update `set` is applied
to the first document that the filter `p` matches. -/
def updateFirst {α : Type} (p : α → Bool) (set : α → α) : List α → List α
  | [] => []
  | x :: xs => if p x then set x :: xs else x :: updateFirst p set xs

/-- Go `MongodbAccountRepository.Verify` (account_repository.go): the collection
after the call, and the error returned; `nowModified` is the `time.Now()` of
the update. -/
def MongodbAccountRepository.Verify (accounts : List AccountDocument) (nowModified : Int)
    (email : String) : List AccountDocument × Option Error :=
  if accounts.any (fun doc => doc.email == email) then
    (updateFirst (fun doc => doc.email == email)
      (fun doc => { doc with verificationToken := "", isVerified := true, isEnabled := true,
                             modified := truncateMillisecond nowModified }) accounts, none)
  else
    (accounts, some (Error.AccountNotFoundError email))

/-- Go `DefaultAccountService.Verify` (accounts.go): the collection after the
call, and the error returned. -/
def DefaultAccountService.Verify (accounts : List AccountDocument) (nowModified : Int)
    (email verificationCode : String) : List AccountDocument × Option Error :=
  match Read accounts email with
  | Except.error err => (accounts, some err)
  | Except.ok account =>
    if account.VerificationToken != verificationCode then
      (accounts, some (Error.VerificationError "cannot verify account"))
    else
      MongodbAccountRepository.Verify accounts nowModified email

/-- Go struct `accounts.Verification`. -/
structure Verification where
  Email : String
  Token : String
  deriving DecidableEq, Repr

/-- The readings of the environment that one `UpdateEmail` of the repository
consumes, in source order: `uuid.New()`, then `time.Now()`. -/
structure UpdateEmailEnv where
  verificationToken : String
  nowModified : Int
  deriving DecidableEq, Repr

/-- The write error of the server when an update would store a second document
with an email that the unique index on `email` already holds. -/
def ErrDuplicateKey : Error := Error.errorString "E11000 duplicate key error"

/-- Go `MongodbAccountRepository.UpdateEmail` (account_repository.go): the
collection after the call, and the result.  The error of `UpdateOne` is
returned before the matched count is looked at. -/
def MongodbAccountRepository.UpdateEmail (accounts : List AccountDocument)
    (env : UpdateEmailEnv) (email newEmail : String) :
    List AccountDocument × Except Error Verification :=
  if accounts.any (fun doc => doc.email == email) then
    if newEmail != email && accounts.any (fun doc => doc.email == newEmail) then
      (accounts, Except.error ErrDuplicateKey)
    else
      (updateFirst (fun doc => doc.email == email)
        (fun doc => { doc with email := newEmail, verificationToken := env.verificationToken,
                               isVerified := false,
                               modified := truncateMillisecond env.nowModified }) accounts,
       Except.ok { Email := newEmail, Token := env.verificationToken })
  else
    (accounts, Except.error (Error.AccountNotFoundError email))

/-- A call of a sending function of the email collaborator, with the address
and the token or code handed over. -/
inductive Mail
  | verification (email token : String)
  | forgotPassword (email token : String)
  | magicLink (email code : String)
  deriving DecidableEq, Repr

/-- Go `DefaultAccountService.UpdateEmail` (accounts.go), called at time `now`:
the collection after the call, the calls made on the email collaborator, and
the error returned. -/
def DefaultAccountService.UpdateEmail (emailService : EmailService)
    (tokenizer : DefaultTokenizer) (accounts : List AccountDocument) (now : Int)
    (env : UpdateEmailEnv) (email : String) (accessToken : TokenString) :
    List AccountDocument × List Mail × Option Error :=
  match ValidateAccessToken tokenizer now email accessToken with
  | Except.error err => (accounts, [], some err)
  | Except.ok token =>
    match MongodbAccountRepository.UpdateEmail accounts env token.Subject email with
    | (accounts1, Except.error err) => (accounts1, [], some err)
    | (accounts1, Except.ok newVerification) =>
      (accounts1, [Mail.verification email newVerification.Token],
        emailService.SendVerificationEmail email newVerification.Token)

/-- Go `MongodbAccountRepository.UpdatePassword` (account_repository.go): the
collection after the call, and the error returned.  `failure` is the error of
the storage call when the call fails; the collection is then unchanged. -/
def MongodbAccountRepository.UpdatePassword (bcrypt : Bcrypt)
    (accounts : List AccountDocument) (failure : Option Error) (salt : Nat)
    (nowModified : Int) (email newPassword : String) : List AccountDocument × Option Error :=
  match DefaultEncryption.Encrypt bcrypt newPassword salt with
  | Except.error err => (accounts, some err)
  | Except.ok hashed =>
    match failure with
    | some err => (accounts, some err)
    | none =>
      if accounts.any (fun doc => doc.email == email) then
        (updateFirst (fun doc => doc.email == email)
          (fun doc => { doc with password := hashed,
                                 modified := truncateMillisecond nowModified }) accounts, none)
      else
        (accounts, some (Error.AccountNotFoundError email))

/-- Go struct `accounts.Forgot` (forgot_repository.go), which is also the
document of the `forgots` collection. -/
structure Forgot where
  Token : String
  Email : String
  Created : Int
  deriving DecidableEq, Repr

/-- The readings of the environment that `MongoDbForgotRepository.Create`
consumes, in source order: `uuid.New()`, then `time.Now()`. -/
structure ForgotEnv where
  token : String
  nowCreated : Int
  deriving DecidableEq, Repr

/-- Go `MongoDbForgotRepository.Create` (forgot_repository.go): an upsert under
the filter `email`. -/
def MongoDbForgotRepository.Create (forgots : List Forgot) (env : ForgotEnv)
    (email : String) : List Forgot :=
  if forgots.any (fun f => f.Email == email) then
    updateFirst (fun f => f.Email == email)
      (fun f => { f with Email := email, Created := truncateMillisecond env.nowCreated,
                         Token := env.token }) forgots
  else
    forgots ++ [{ Email := email, Created := truncateMillisecond env.nowCreated,
                  Token := env.token }]

/-- Go `MongoDbForgotRepository.Read` (forgot_repository.go): no document gives
`AccountNotFoundError` with the email. -/
def MongoDbForgotRepository.Read (forgots : List Forgot) (email : String) :
    Except Error Forgot :=
  match forgots.find? (fun f => f.Email == email) with
  | none => Except.error (Error.AccountNotFoundError email)
  | some f => Except.ok f

/-- Go `MongoDbForgotRepository.Delete` (forgot_repository.go): `DeleteOne`
removes the first document with the email.  `failure` is the error of the
storage call when the call fails; the collection is then unchanged. -/
def MongoDbForgotRepository.Delete (forgots : List Forgot) (failure : Option Error)
    (email : String) : List Forgot × Option Error :=
  match failure with
  | some err => (forgots, some err)
  | none => (forgots.eraseP (fun f => f.Email == email), none)

/-- Go `DefaultAccountService.Forgot` (accounts.go): the `forgots` collection
after the call, the calls made on the email collaborator, and the error
returned.  The account store is not read. -/
def DefaultAccountService.Forgot (emailService : EmailService) (forgots : List Forgot)
    (env : ForgotEnv) (email : String) : List Forgot × List Mail × Option Error :=
  let forgots1 := MongoDbForgotRepository.Create forgots env email
  match MongoDbForgotRepository.Read forgots1 email with
  | Except.error err => (forgots1, [], some err)
  | Except.ok forgot =>
    (forgots1, [Mail.forgotPassword email forgot.Token],
      emailService.SendForgotPasswordEmail email forgot.Token)

/-! ## internal/utils: the transaction manager -/

/-- The two collections that the password reset writes. -/
structure Database where
  accounts : List AccountDocument
  forgots : List Forgot
  deriving DecidableEq, Repr

/-- A Go `context.Context` as the driver reads it at a storage call: `session`
is a `mongo.SessionContext` of the open transaction, `plain` any context that
carries no session. -/
inductive Context
  | plain
  | session
  deriving DecidableEq, Repr

/-- The database while a transaction is open: the committed contents, and the
writes that the transaction holds back until it commits, oldest first. -/
structure OpenTransaction where
  committed : Database
  pending : List (Database → Database)

/-- The contents that a storage call reads under a context: inside the
transaction the held-back writes are seen, outside only the committed
contents. -/
def OpenTransaction.view (tx : OpenTransaction) (ctx : Context) : Database :=
  match ctx with
  | Context.plain => tx.committed
  | Context.session => tx.pending.foldl (fun db write => write db) tx.committed

/-- A storage call `op` made under the context `ctx` while the transaction is
open.  The driver takes the session from the context of the call: with the
session context the write is held back in the transaction, with any other
context it is applied to the committed contents at once. -/
def OpenTransaction.call (tx : OpenTransaction) (ctx : Context)
    (op : Database → Database × Option Error) : OpenTransaction × Option Error :=
  match ctx with
  | Context.plain =>
    ({ tx with committed := (op tx.committed).1 }, (op tx.committed).2)
  | Context.session =>
    ({ tx with pending := tx.pending ++ [fun db => (op db).1] },
      (op (tx.view Context.session)).2)

/-- The outcomes of the three calls of `WithTransaction` on the session:
`StartSession`, `StartTransaction` and `CommitTransaction`, each with the error
it returns. -/
structure TxEnv where
  startSession : Option Error
  startTransaction : Option Error
  commitTransaction : Option Error
  deriving Repr

/-- Go `MongoTxManager.WithTransaction` (tx_manager.go): the database after the
call, and the error returned.  `fn` receives the session context.  When `fn`
returns an error `AbortTransaction` drops the held-back writes; otherwise
`CommitTransaction` applies them. -/
def MongoTxManager.WithTransaction (env : TxEnv) (db : Database)
    (fn : Context → OpenTransaction → OpenTransaction × Option Error) :
    Database × Option Error :=
  match env.startSession with
  | some err => (db, some err)
  | none =>
    match env.startTransaction with
    | some err => (db, some err)
    | none =>
      match fn Context.session { committed := db, pending := [] } with
      | (tx, some err) => (tx.committed, some err)
      | (tx, none) =>
        match env.commitTransaction with
        | some err => (tx.committed, some err)
        | none => (tx.view Context.session, none)

/-- The readings of the environment that one `ForgotPassword` consumes: the
salt of the password hash, the `time.Now()` of the password update, the
outcomes of the storage calls of `UpdatePassword` and of `Delete`, and the
outcomes of the calls on the session. -/
structure ForgotPasswordEnv where
  salt : Nat
  nowModified : Int
  updateFailure : Option Error
  deleteFailure : Option Error
  tx : TxEnv

/-- Go `DefaultAccountService.ForgotPassword` (accounts.go): the database after
the call, and the error returned.  The function handed to `WithTransaction`
receives the session context `txCtx` and passes the context `ctx` of the
request, which carries no session, to both repository calls. -/
def DefaultAccountService.ForgotPassword (bcrypt : Bcrypt) (db : Database)
    (env : ForgotPasswordEnv) (email newPassword forgotToken : String) :
    Database × Option Error :=
  let ctx := Context.plain
  match MongoDbForgotRepository.Read db.forgots email with
  | Except.error err => (db, some err)
  | Except.ok forgot =>
    if forgot.Token != forgotToken then
      (db, some (Error.errorString "cannot change password"))
    else
      MongoTxManager.WithTransaction env.tx db (fun _txCtx tx =>
        match tx.call ctx (fun d =>
            let r := MongodbAccountRepository.UpdatePassword bcrypt d.accounts
              env.updateFailure env.salt env.nowModified email newPassword
            ({ d with accounts := r.1 }, r.2)) with
        | (tx1, some err) => (tx1, some err)
        | (tx1, none) =>
          tx1.call ctx (fun d =>
            let r := MongoDbForgotRepository.Delete d.forgots env.deleteFailure email
            ({ d with forgots := r.1 }, r.2)))

/-! ## internal/authentication: requesting a one-time code -/

/-- Go constant `codeSize` (logon_code.go). -/
def codeSize : Nat := 6

/-- Go constant `expires` (logon_code.go): `10 * time.Minute`, in nanoseconds. -/
def expires : Int := 10 * (60 * nanosPerSecond)

/-- Go constant `charSet` (logon_code.go). -/
def charSet : String := "1234567890"

/-- Go constant `bcrypt.DefaultCost`. -/
def bcryptDefaultCost : Nat := 10

/-- Go `rand.Int(rand.Reader, max)` when the reader delivers: the library
returns a value in `[0, max)`; `draw` stands for the random bytes that decide
which one. -/
def randInt (max : Nat) (draw : Nat) : Nat := draw % max

/-- The error value that stands for the run-time panic of an index expression
out of range. -/
def indexOutOfRange : Error := Error.errorString "panic: runtime error: index out of range"

/-- The loop of `GetUniqueKey` from index `i` on, with `remaining` bytes still
to fill: `source i` is the outcome of the read of the random source in round
`i`, and `charSet[num.Int64()]` is an index expression, which panics out of
range. -/
def getUniqueKeyFrom (source : Nat → Except Error Nat) (i : Nat) :
    Nat → Except Error (List Char)
  | 0 => Except.ok []
  | remaining + 1 =>
    match source i with
    | Except.error err => Except.error err
    | Except.ok draw =>
      match charSet.toList[randInt charSet.length draw]? with
      | none => Except.error indexOutOfRange
      | some c =>
        match getUniqueKeyFrom source (i + 1) remaining with
        | Except.error err => Except.error err
        | Except.ok cs => Except.ok (c :: cs)

/-- Go `GetUniqueKey` (logon_code.go). -/
def GetUniqueKey (size : Nat) (source : Nat → Except Error Nat) : Except Error String :=
  match getUniqueKeyFrom source 0 size with
  | Except.error err => Except.error err
  | Except.ok cs => Except.ok (String.mk cs)

/-- Go `DefaultLogonCodeRepository.Create` (logon_code_repository.go): an upsert
under the filter `email`; `nowCreated` is its `time.Now()`. -/
def DefaultLogonCodeRepository.Create (logonCodes : List LogonCode) (email code : String)
    (expires : Int) (nowCreated : Int) : List LogonCode :=
  if logonCodes.any (fun c => c.Email == email) then
    updateFirst (fun c => c.Email == email)
      (fun c => { c with Code := code, Expires := truncateMillisecond expires,
                         Created := truncateMillisecond nowCreated }) logonCodes
  else
    logonCodes ++ [{ Email := email, Code := code, Expires := truncateMillisecond expires,
                     Created := truncateMillisecond nowCreated }]

/-- The readings of the environment that one `Request` consumes, in source
order: the random source of the code, the salt of the hash, the `time.Now()`
of the expiry, and the `time.Now()` of the record. -/
structure RequestEnv where
  source : Nat → Except Error Nat
  salt : Nat
  now : Int
  nowCreated : Int

/-- Go `DefaultLogonCodeService.Request` (logon_code.go): the `logonCodes`
collection after the call, the calls made on the email collaborator, and the
error returned. -/
def DefaultLogonCodeService.Request (bcrypt : Bcrypt) (emailService : EmailService)
    (accounts : List AccountDocument) (logonCodes : List LogonCode) (env : RequestEnv)
    (email : String) : List LogonCode × List Mail × Option Error :=
  match Read accounts email with
  | Except.error err => (logonCodes, [], some err)
  | Except.ok _ =>
    match GetUniqueKey codeSize env.source with
    | Except.error err => (logonCodes, [], some err)
    | Except.ok code =>
      match bcrypt.GenerateFromPassword code bcryptDefaultCost env.salt with
      | Except.error err => (logonCodes, [], some err)
      | Except.ok hashedCode =>
        let logonCodes1 := DefaultLogonCodeRepository.Create logonCodes email hashedCode
          (env.now + expires) env.nowCreated
        (logonCodes1, [Mail.magicLink email code], emailService.SendMagicLinkEmail email code)

/-! ## The state of the signing-key store -/

/-- Whether the two texts of a key are the two halves of one generated key
pair, as `NewSigningKey` makes them. -/
def SigningKey.isGeneratedPair (k : SigningKey) : Bool :=
  match k.PrivateKey, k.PublicKey with
  | KeyText.rsaPrivate n, KeyText.rsaPublic m => n == m
  | _, _ => false

/-- The state of a store that `Initialize` and `GenerateKey` have filled: it
is not empty, every key is a generated pair, and the key ids (`uuid.New()`)
are pairwise distinct. -/
def KeyStoreOk (signingKeys : List SigningKey) : Prop :=
  signingKeys ≠ [] ∧ (∀ k ∈ signingKeys, k.isGeneratedPair = true) ∧
    (signingKeys.map (fun k => k.KeyId)).Nodup

instance (signingKeys : List SigningKey) : Decidable (KeyStoreOk signingKeys) := by
  unfold KeyStoreOk; infer_instance

/-- The stores that the signing-key service itself produces: the empty
collection, and what `Initialize` and `GenerateKey` make of such a store. -/
inductive StoreGenerated : List SigningKey → Prop
  | empty : StoreGenerated []
  | bootstrap (signingKeys : List SigningKey) (env : KeyGenEnv) :
      StoreGenerated signingKeys → StoreGenerated (Initialize signingKeys env)
  | generate (signingKeys : List SigningKey) (env : KeyGenEnv) :
      StoreGenerated signingKeys → StoreGenerated (GenerateKey signingKeys env)

/-! ## The state of the one-time-code store -/

/-- The contents of the `logonCodes` collection that calls of `Request` produce:
the empty collection, and what a `Request` makes of such contents, whatever
its arguments, its environment and its outcome. -/
inductive CodesRequested : List LogonCode → Prop
  | empty : CodesRequested []
  | request (bcrypt : Bcrypt) (emailService : EmailService) (accounts : List AccountDocument)
      (logonCodes : List LogonCode) (env : RequestEnv) (email : String) :
      CodesRequested logonCodes →
      CodesRequested
        (DefaultLogonCodeService.Request bcrypt emailService accounts logonCodes env email).1

/-! ## Fixtures for the concrete instances -/

/-- A stand-in for `bcrypt` in the concrete instances: the hash of a password
is the password behind a fixed prefix. -/
def plainBcrypt : Bcrypt :=
  { CompareHashAndPassword := fun hash password =>
      if hash = "$2a$04$" ++ password then none else some Error.ErrMismatchedHashAndPassword
    GenerateFromPassword := fun password _ _ => Except.ok ("$2a$04$" ++ password) }

/-- A verified, enabled account with one role, whose password is `pw1`. -/
def healthyDoc : AccountDocument :=
  { email := "a@x.com", password := "$2a$04$pw1", isVerified := true,
    verificationToken := "", isEnabled := true, isDeleted := false,
    socialProviders := [], roles := ["admin"], created := 0, modified := 0 }

/-- The environment readings of a key generation at time 1 s. -/
def keyEnvA : KeyGenEnv :=
  { seed := 11, newKeyId := "id-a0", newKeyNow := 1000000000, keyId := "kid-a",
    now := 1000000000 }

/-- The environment readings of a later key generation, at time 50 s. -/
def keyEnvB : KeyGenEnv :=
  { seed := 22, newKeyId := "id-b0", newKeyNow := 50000000000, keyId := "kid-b",
    now := 50000000000 }

/-- The store after `Initialize` on an empty collection. -/
def storeA : List SigningKey := Initialize [] keyEnvA

/-- The tokenizer of the tests (tokenizer_test.go), made over `storeA`. -/
def tokenizerA : DefaultTokenizer := NewDefaultTokenizer "test" "test" "test" 3600 9600 storeA

/-- Environment readings of a token creation at time 100 s. -/
def mintEnv1 : MintEnv :=
  { id := "jti-1", nowExpiresAt := 100000000000, nowIssuedAt := 100000000000,
    nowNotBefore := 100000000000 }

/-- Environment readings of a second token creation at time 100 s. -/
def mintEnv2 : MintEnv :=
  { id := "jti-2", nowExpiresAt := 100000000000, nowIssuedAt := 100000000000,
    nowNotBefore := 100000000000 }

/-- A deleted account, otherwise verified and enabled. -/
def deletedDoc : AccountDocument :=
  { email := "deleted@x.com", password := "$2a$04$pw1", isVerified := true,
    verificationToken := "", isEnabled := true, isDeleted := true,
    socialProviders := [], roles := [], created := 0, modified := 0 }

/-- An account that was never verified. -/
def unverifiedDoc : AccountDocument :=
  { email := "new@x.com", password := "$2a$04$pw1", isVerified := false,
    verificationToken := "vt-1", isEnabled := false, isDeleted := false,
    socialProviders := [], roles := [], created := 0, modified := 0 }

/-- A verified account that has been disabled. -/
def disabledDoc : AccountDocument :=
  { email := "off@x.com", password := "$2a$04$pw1", isVerified := true,
    verificationToken := "", isEnabled := false, isDeleted := false,
    socialProviders := [], roles := [], created := 0, modified := 0 }

/-- The `accounts` collection of the concrete instances. -/
def accountsA : List AccountDocument := [healthyDoc, deletedDoc, unverifiedDoc, disabledDoc]

/-- The store after a `GenerateKey` that follows `Initialize`. -/
def storeAB : List SigningKey := GenerateKey storeA keyEnvB

/-- A token with a well-formed payload whose header names the algorithm
`HS256`, with the signature bytes `mac`. -/
def hs256Token : TokenString :=
  [Segment.header { alg := "HS256", typ := "JWT", use := some "access", kid := some "kid-a" },
   Segment.payload
     { roles := ["admin"],
       registered := { Issuer := "test", Subject := "a@x.com", Audience := ["test"],
                       ExpiresAt := none, NotBefore := none, IssuedAt := none, ID := "x" } },
   Segment.signature (Signature.bytes "mac")]

/-- An unsecured token: the header names the algorithm `none` and the
signature segment is empty. -/
def noneToken : TokenString :=
  [Segment.header { alg := "none", typ := "JWT", use := none, kid := none },
   Segment.payload
     { roles := ["admin"],
       registered := { Issuer := "test", Subject := "a@x.com", Audience := ["test"],
                       ExpiresAt := none, NotBefore := none, IssuedAt := none, ID := "x" } },
   Segment.signature (Signature.bytes "")]

/-- A code record of `a@x.com` for the code `123456` that expired at time 10 s. -/
def expiredCode : LogonCode :=
  { Email := "a@x.com", Code := "$2a$04$123456", Expires := 10000000000, Created := 0 }

/-- An error of the storage call of a deletion. -/
def storageDown : Error := Error.errorString "server selection error"

/-- A token pair made for `a@x.com` at time 100 s. -/
def pairA : Authenticated :=
  { AccessToken := SignedString "access" "kid-a"
      { roles := [],
        registered := { Issuer := "test", Subject := "a@x.com", Audience := ["test"],
                        ExpiresAt := some 9700000000000, NotBefore := some 100000000000,
                        IssuedAt := some 100000000000, ID := "jti-1" } } 11
    RefreshToken := SignedString "refresh" "kid-a"
      { roles := [],
        registered := { Issuer := "test", Subject := "a@x.com", Audience := ["test"],
                        ExpiresAt := some 3700000000000, NotBefore := some 100000000000,
                        IssuedAt := some 100000000000, ID := "jti-2" } } 11 }

/-- The session ledger after `a@x.com` acknowledged a session under the client
id `phone` and then one under the client id `laptop`. -/
def sessionsA : List SessionToken :=
  Acknowledge (Acknowledge [] pairA "a@x.com" "phone" 101000000000 101000000000)
    pairA "a@x.com" "laptop" 102000000000 102000000000

/-- An email collaborator whose sending functions succeed. -/
def mailOk : EmailService :=
  { SendVerificationEmail := fun _ _ => none
    SendForgotPasswordEmail := fun _ _ => none
    SendMagicLinkEmail := fun _ _ => none }

/-- A validator named `google` that accepts the assertion `idtok-a` for the
stored `a@x.com` and the assertion `idtok-first` for `first@x.com`. -/
def googleValidator : Validator :=
  { Name := "google"
    ValidateToken := fun idToken =>
      if idToken = "idtok-a" then
        Except.ok { ID := "g-1", Email := "a@x.com", Provider := "google" }
      else if idToken = "idtok-first" then
        Except.ok { ID := "g-2", Email := "first@x.com", Provider := "google" }
      else Except.error (Error.errorString "oidc: malformed jwt") }

/-- The registry of the program: `AddValidator` of the one validator. -/
def validatorsA : List (String × Validator) := AddValidator [] googleValidator

/-- The environment readings of an account creation at time 90 s. -/
def createEnv1 : CreateEnv :=
  { verificationToken := "vt-first", salt := 7, nowCreated := 90000000000,
    nowModified := 90000000000 }

/-- Environment readings of a token creation that starts 10 ns before the
second 101 begins and ends when it begins. -/
def mintEnvEdge : MintEnv :=
  { id := "jti-3", nowExpiresAt := 100999999990, nowIssuedAt := 100999999995,
    nowNotBefore := 101000000000 }

/-- A code record of `a@x.com` for the code `123456` that expires at time 700 s. -/
def validCode : LogonCode :=
  { Email := "a@x.com", Code := "$2a$04$123456", Expires := 700000000000,
    Created := 100000000000 }

/-- The environment readings of a `Forgot` at time 95 s that draws the reset
token `R-1`. -/
def forgotEnv1 : ForgotEnv := { token := "R-1", nowCreated := 95000000000 }

/-- The database after `Forgot` for `a@x.com`: the accounts of `accountsA` and
the one reset record with the token `R-1`. -/
def dbA : Database :=
  { accounts := accountsA
    forgots := (DefaultAccountService.Forgot mailOk [] forgotEnv1 "a@x.com").1 }

/-- A session on which every call succeeds. -/
def txOk : TxEnv := { startSession := none, startTransaction := none, commitTransaction := none }

/-- The environment readings of a `ForgotPassword` at time 96 s in which every
storage call succeeds. -/
def resetEnvOk : ForgotPasswordEnv :=
  { salt := 9, nowModified := 96000000000, updateFailure := none, deleteFailure := none,
    tx := txOk }

/-- The environment readings of a `ForgotPassword` at time 96 s in which the
storage call of the deletion of the reset record fails. -/
def resetEnvDeleteFails : ForgotPasswordEnv :=
  { salt := 9, nowModified := 96000000000, updateFailure := none,
    deleteFailure := some storageDown, tx := txOk }

/-- The environment readings of a `Request` at time 100 s: the random source
delivers in every round, and the draws of the six rounds select the code
`418529`. -/
def requestEnv1 : RequestEnv :=
  { source := fun i => Except.ok (7 * i + 3), salt := 5, now := 100000000000,
    nowCreated := 100000000000 }

/-- The environment readings of an `UpdateEmail` at time 100 s that draws the
verification token `vt-2`. -/
def updateEmailEnv1 : UpdateEmailEnv :=
  { verificationToken := "vt-2", nowModified := 100000000000 }

/-- The environment readings of a key generation whose clock reads 0.5 s: the
wall clock was set back after the generation of `keyEnvA` at time 1 s. -/
def keyEnvBack : KeyGenEnv :=
  { seed := 33, newKeyId := "id-c0", newKeyNow := 500000000, keyId := "kid-c",
    now := 500000000 }

/-- The environment readings of a key generation 0.4 ms after the one of
`keyEnvA`, in the same millisecond. -/
def keyEnvSame : KeyGenEnv :=
  { seed := 44, newKeyId := "id-d0", newKeyNow := 1000400000, keyId := "kid-d",
    now := 1000400000 }

/-- An email collaborator whose sending functions fail. -/
def mailDown : EmailService :=
  { SendVerificationEmail := fun _ _ => some (Error.errorString "smtp: connection refused")
    SendForgotPasswordEmail := fun _ _ => some (Error.errorString "smtp: connection refused")
    SendMagicLinkEmail := fun _ _ => some (Error.errorString "smtp: connection refused") }

/-! # Theorems -/

/-! ## C1 -/

/-- C1: `accountHealth` checks the flags in the order deleted, not verified,
disabled: it returns `AccountDeletedError` if `IsDeleted`, whatever the other
flags; otherwise `AccountNotVerifiedError` if not `IsVerified`; otherwise
`AccountDisabledError` if not `IsEnabled`; otherwise no error.  In particular a
deleted and unverified account yields `AccountDeletedError` and not
`AccountNotVerifiedError`. -/
theorem accountHealth_order (account : Account) :
    accountHealth { account with IsDeleted := true } =
        some (Error.AccountDeletedError account.Email) ∧
    accountHealth { account with IsDeleted := false, IsVerified := false } =
        some (Error.AccountNotVerifiedError account.Email) ∧
    accountHealth { account with IsDeleted := false, IsVerified := true, IsEnabled := false } =
        some (Error.AccountDisabledError account.Email) ∧
    accountHealth { account with IsDeleted := false, IsVerified := true, IsEnabled := true } =
        none ∧
    accountHealth { account with IsDeleted := true, IsVerified := false } =
        some (Error.AccountDeletedError account.Email) ∧
    accountHealth { account with IsDeleted := true, IsVerified := false } ≠
        some (Error.AccountNotVerifiedError account.Email) := by
  simp [accountHealth]

/-! ## C2 -/

/-- A found document carries the email it was looked up under. -/
theorem findAccount_email {accounts : List AccountDocument} {email : String}
    {doc : AccountDocument} (h : findAccount accounts email = some doc) : doc.email = email := by
  have := List.find?_some h
  simpa using this

/-- When the latest key of the store holds a private key that loads, both
token creations succeed. -/
theorem CreateAccessToken_ok (d : DefaultTokenizer) (signingKeys : List SigningKey)
    (env : MintEnv) (email : String) (rbac : List String) (n : Nat)
    (hkey : loadPrivateKey (GetLatestKey signingKeys).PrivateKey = Except.ok n) :
    ∃ t, CreateAccessToken d signingKeys env email rbac = Except.ok t := by
  simp [CreateAccessToken, LatestKey, hkey]

/-- The refresh-token counterpart of `CreateAccessToken_ok`. -/
theorem CreateRefreshToken_ok (d : DefaultTokenizer) (signingKeys : List SigningKey)
    (env : MintEnv) (email : String) (n : Nat)
    (hkey : loadPrivateKey (GetLatestKey signingKeys).PrivateKey = Except.ok n) :
    ∃ t, CreateRefreshToken d signingKeys env email = Except.ok t := by
  simp [CreateRefreshToken, LatestKey, hkey]

/-- C2: for a stored account (`findAccount` finds `doc` under `email`) and any
password, with a latest signing key whose private key loads, `Authenticate`
returns a token pair if and only if the account is not deleted, is verified, is
enabled and `bcrypt` accepts the password for the stored hash.  When a
lifecycle check fails the only call made is `Read`, so the outcome is decided
before the password is compared, and it is the lifecycle error.  On every
failing path no token-creating call is made. -/
theorem Authenticate_succeeds_iff (bcrypt : Bcrypt) (tokens : DefaultTokenizer)
    (accounts : List AccountDocument) (signingKeys : List SigningKey)
    (envAccess envRefresh : MintEnv) (email password : String) (doc : AccountDocument) (n : Nat)
    (hdoc : findAccount accounts email = some doc)
    (hkey : loadPrivateKey (GetLatestKey signingKeys).PrivateKey = Except.ok n) :
    ((∃ pair, (Authenticate bcrypt tokens accounts signingKeys envAccess envRefresh
          email password).2 = Except.ok pair) ↔
      (doc.isDeleted = false ∧ doc.isVerified = true ∧ doc.isEnabled = true ∧
        bcrypt.CompareHashAndPassword doc.password password = none)) ∧
    (∀ err, accountHealth doc.decode = some err →
      Authenticate bcrypt tokens accounts signingKeys envAccess envRefresh email password =
        ([Call.Read email], Except.error err)) ∧
    (∀ err, (Authenticate bcrypt tokens accounts signingKeys envAccess envRefresh
          email password).2 = Except.error err →
      ∀ c ∈ (Authenticate bcrypt tokens accounts signingKeys envAccess envRefresh
          email password).1, c.createsToken = false) := by
  obtain ⟨ta, hta⟩ := CreateAccessToken_ok tokens signingKeys envAccess email [] n hkey
  obtain ⟨tr, htr⟩ := CreateRefreshToken_ok tokens signingKeys envRefresh email n hkey
  rcases hd : doc.isDeleted with _ | _ <;> rcases hv : doc.isVerified with _ | _ <;>
    rcases he : doc.isEnabled with _ | _ <;>
    rcases hc : bcrypt.CompareHashAndPassword doc.password password with _ | e <;>
    simp [Authenticate, Read, PasswordMatches, accountHealth, AccountDocument.decode, hdoc, hd,
      hv, he, hc, hta, htr, Call.createsToken]

/-- C2, a concrete instance: the account `a@x.com` is stored, healthy, and its
password is `pw1`; `Authenticate` returns a token pair. -/
theorem Authenticate_succeeds_iff_witness :
    findAccount [healthyDoc] "a@x.com" = some healthyDoc ∧
    loadPrivateKey (GetLatestKey storeA).PrivateKey = Except.ok 11 ∧
    ∃ pair, (Authenticate plainBcrypt tokenizerA [healthyDoc] storeA mintEnv1 mintEnv2
      "a@x.com" "pw1").2 = Except.ok pair :=
  ⟨by rfl, by rfl,
    (Authenticate_succeeds_iff plainBcrypt tokenizerA [healthyDoc] storeA mintEnv1 mintEnv2
      "a@x.com" "pw1" healthyDoc 11 (by rfl) (by rfl)).1.mpr ⟨by rfl, by rfl, by rfl, by rfl⟩⟩

/-! ## C3 -/

/-- For a stored healthy account, an error of the password comparison is what
`Authenticate` returns, and for an email without a document `Authenticate`
returns the `AccountNotFoundError` of `Read`; for a stored account the branch
that builds `AuthenticationError` is not reached. -/
theorem Authenticate_failure_kinds (bcrypt : Bcrypt) (tokens : DefaultTokenizer)
    (accounts : List AccountDocument) (signingKeys : List SigningKey)
    (envAccess envRefresh : MintEnv) (email password : String) :
    (∀ doc err, findAccount accounts email = some doc → accountHealth doc.decode = none →
      bcrypt.CompareHashAndPassword doc.password password = some err →
      (Authenticate bcrypt tokens accounts signingKeys envAccess envRefresh email password).2 =
        Except.error err) ∧
    (findAccount accounts email = none →
      (Authenticate bcrypt tokens accounts signingKeys envAccess envRefresh email password).2 =
        Except.error (Error.AccountNotFoundError email)) := by
  constructor
  · intro doc err hdoc hh hc
    simp [Authenticate, Read, PasswordMatches, hdoc, hh, hc]
  · intro hnone
    simp [Authenticate, Read, hnone]

/-- C3, the code at the failing input: for the healthy account `a@x.com` with
password `pw1`, `Authenticate` with the wrong password `bad` returns the error
of `bcrypt` (not `AuthenticationError`), and for the unknown email `b@x.com` it
returns `AccountNotFoundError`; the two failures differ in kind. -/
theorem Authenticate_wrong_password_and_unknown_email :
    (Authenticate plainBcrypt tokenizerA [healthyDoc] storeA mintEnv1 mintEnv2
      "a@x.com" "bad").2 = Except.error Error.ErrMismatchedHashAndPassword ∧
    (Authenticate plainBcrypt tokenizerA [healthyDoc] storeA mintEnv1 mintEnv2
      "b@x.com" "bad").2 = Except.error (Error.AccountNotFoundError "b@x.com") ∧
    (Authenticate plainBcrypt tokenizerA [healthyDoc] storeA mintEnv1 mintEnv2
      "a@x.com" "bad").2 ≠ Except.error (Error.AuthenticationError "a@x.com") :=
  ⟨by rfl, by rfl, by simp [show (Authenticate plainBcrypt tokenizerA [healthyDoc] storeA mintEnv1
      mintEnv2 "a@x.com" "bad").2 = Except.error Error.ErrMismatchedHashAndPassword from rfl]⟩

/-! ## C4 -/

/-- The key function refuses a token whose subject is not the expected one,
whatever the keys of the tokenizer. -/
theorem keyFunc_subject_mismatch (d : DefaultTokenizer) (email : String) (token : Token)
    (hrsa : token.Method.isSigningMethodRSA = true)
    (hsub : token.Claims.registered.Subject ≠ email) :
    keyFunc d email token = Except.error (Error.errorString "invalid token") := by
  simp [keyFunc, hrsa, hsub]

/-- A token made by `SignedString` whose subject differs from the expected one
is refused by `ParseWithClaims` under the tokenizer's key function. -/
theorem ParseWithClaims_subject_mismatch (d : DefaultTokenizer) (now : Int) (email : String)
    (use kid : String) (claims : Payload) (privateKey : Nat)
    (hsub : claims.registered.Subject ≠ email) :
    ParseWithClaims (SignedString use kid claims privateKey) (keyFunc d email) now =
      Except.error (Error.jwtError JwtErrorKind.ErrTokenUnverifiable (some "invalid token")) := by
  simp [ParseWithClaims, SignedString, GetSigningMethod, keyFunc,
    SigningMethod.isSigningMethodRSA, hsub, Error.Error]

/-- C4: for distinct emails `X` and `Y`, a token that `CreateAccessToken` made
for the subject `X` is refused by `ValidateAccessToken` with the expected
subject `Y` (an error, no claims), on every tokenizer and at every time; and a
token that `CreateRefreshToken` made for `X` is refused in the same way by
`ValidateRefreshToken` with the expected subject `Y`. -/
theorem Validate_rejects_other_subject (d validator : DefaultTokenizer)
    (signingKeys : List SigningKey) (env : MintEnv) (now : Int) (X Y : String)
    (rbac : List String) (hXY : X ≠ Y) :
    (∀ tok, CreateAccessToken d signingKeys env X rbac = Except.ok tok →
      ValidateAccessToken validator now Y tok =
        Except.error (Error.jwtError JwtErrorKind.ErrTokenUnverifiable (some "invalid token"))) ∧
    (∀ tok, CreateRefreshToken d signingKeys env X = Except.ok tok →
      ValidateRefreshToken validator now Y tok =
        Except.error (Error.jwtError JwtErrorKind.ErrTokenUnverifiable (some "invalid token"))) := by
  constructor
  · intro tok h
    unfold CreateAccessToken at h
    simp only [LatestKey] at h
    split at h
    · cases h
    · cases h
      simp [ValidateAccessToken, ParseWithClaims_subject_mismatch, AccessTokenClaims.marshal, hXY]
  · intro tok h
    unfold CreateRefreshToken at h
    simp only [LatestKey] at h
    split at h
    · cases h
    · cases h
      simp [ValidateRefreshToken, ParseWithClaims_subject_mismatch, RefreshTokenClaims.marshal,
        hXY]

/-- C4, a concrete instance: the access and refresh tokens made for `a@x.com`
validate for `a@x.com`, so their signatures are good, and are refused for
`b@x.com`. -/
theorem Validate_rejects_other_subject_witness :
    "a@x.com" ≠ "b@x.com" ∧
    (∃ tok claims, CreateAccessToken tokenizerA storeA mintEnv1 "a@x.com" ["r"] = Except.ok tok ∧
      ValidateAccessToken tokenizerA 100000000000 "a@x.com" tok = Except.ok claims ∧
      ValidateAccessToken tokenizerA 100000000000 "b@x.com" tok =
        Except.error (Error.jwtError JwtErrorKind.ErrTokenUnverifiable (some "invalid token"))) ∧
    (∃ tok claims, CreateRefreshToken tokenizerA storeA mintEnv1 "a@x.com" = Except.ok tok ∧
      ValidateRefreshToken tokenizerA 100000000000 "a@x.com" tok = Except.ok claims ∧
      ValidateRefreshToken tokenizerA 100000000000 "b@x.com" tok =
        Except.error (Error.jwtError JwtErrorKind.ErrTokenUnverifiable (some "invalid token"))) :=
  ⟨by decide,
   ⟨_, _, rfl, rfl,
    (Validate_rejects_other_subject tokenizerA tokenizerA storeA mintEnv1 100000000000
      "a@x.com" "b@x.com" ["r"] (by decide)).1 _ rfl⟩,
   ⟨_, _, rfl, rfl,
    (Validate_rejects_other_subject tokenizerA tokenizerA storeA mintEnv1 100000000000
      "a@x.com" "b@x.com" ["r"] (by decide)).2 _ rfl⟩⟩

/-! ## Lemmas on the key store and on time -/

/-- The fold of `GetLatestKey` returns its start value or an element of the list. -/
theorem latest_fold_mem (ks : List SigningKey) (k : SigningKey) :
    ks.foldl (fun best x => if best.Created < x.Created then x else best) k = k ∨
    ks.foldl (fun best x => if best.Created < x.Created then x else best) k ∈ ks := by
  induction ks generalizing k with
  | nil => simp
  | cons x xs ih =>
    simp only [List.foldl_cons, List.mem_cons]
    rcases ih (if k.Created < x.Created then x else k) with h | h
    · by_cases hx : k.Created < x.Created
      · simp only [hx, if_true] at h ⊢
        right; left; exact h
      · simp only [hx, if_false] at h ⊢
        left; exact h
    · right; right; exact h

/-- The latest key of a non-empty store is a key of the store. -/
theorem GetLatestKey_mem (signingKeys : List SigningKey) (h : signingKeys ≠ []) :
    GetLatestKey signingKeys ∈ signingKeys := by
  cases signingKeys with
  | nil => exact absurd rfl h
  | cons k ks =>
    simp only [GetLatestKey, List.mem_cons]
    rcases latest_fold_mem ks k with h1 | h1
    · left; exact h1
    · right; exact h1

/-- The key map of `NewDefaultTokenizer`, as a list: the keys in reverse order. -/
theorem keyMap_eq (signingKeys : List SigningKey) (acc : List (String × SigningKey)) :
    signingKeys.foldl (fun m k => (k.KeyId, k) :: m) acc =
      (signingKeys.reverse.map (fun k => (k.KeyId, k))) ++ acc := by
  induction signingKeys generalizing acc with
  | nil => simp
  | cons x xs ih => simp [ih]

/-- In a list of keys with distinct ids, the lookup of a key's id finds that key. -/
theorem lookup_of_mem_nodup (l : List SigningKey) (k : SigningKey) (hk : k ∈ l)
    (hnd : (l.map (fun k => k.KeyId)).Nodup) :
    (l.map (fun k => (k.KeyId, k))).lookup k.KeyId = some k := by
  induction l with
  | nil => simp at hk
  | cons x xs ih =>
    simp only [List.map_cons, List.nodup_cons, List.mem_map, not_exists, not_and] at hnd
    rcases List.mem_cons.mp hk with h | h
    · subst h
      simp [List.lookup]
    · have hne : k.KeyId ≠ x.KeyId := fun e => hnd.1 k h e
      have hb : (k.KeyId == x.KeyId) = false := by simpa using hne
      simp only [List.map_cons, List.lookup, hb]
      exact ih h hnd.2

/-- A tokenizer made over a store with distinct key ids finds every key of the
store under its id. -/
theorem keyAt_of_mem (name issuer audience : String) (rExp aExp : Int)
    (signingKeys : List SigningKey) (k : SigningKey) (hk : k ∈ signingKeys)
    (hnd : (signingKeys.map (fun k => k.KeyId)).Nodup) :
    (NewDefaultTokenizer name issuer audience rExp aExp signingKeys).keyAt k.KeyId = k := by
  have h1 : k ∈ signingKeys.reverse := List.mem_reverse.mpr hk
  have h2 : (signingKeys.reverse.map (fun k => k.KeyId)).Nodup := by
    rw [List.map_reverse]; exact List.nodup_reverse.mpr hnd
  unfold DefaultTokenizer.keyAt NewDefaultTokenizer
  simp only [keyMap_eq, List.append_nil]
  rw [lookup_of_mem_nodup _ _ h1 h2]
  rfl

/-- A lifetime between 1 and 9223372036 seconds is the same number of
nanoseconds as a `time.Duration`: the product does not wrap. -/
theorem secondsToDuration_eq (sec : Int) (h1 : 1 ≤ sec) (h2 : sec ≤ 9223372036) :
    secondsToDuration sec = nanosPerSecond * sec := by
  unfold secondsToDuration wrapInt64 nanosPerSecond
  norm_num
  omega

/-- The claims of a token pass the time checks from the reading of `NotBefore`
until `sec - 1` seconds after the reading of `ExpiresAt`. -/
theorem validateClaims_fresh (claims : RegisteredClaims) (tExp tNbf now : Int) (sec : Int)
    (h1 : 1 ≤ sec) (h2 : sec ≤ 9223372036) (hnbf : tNbf ≤ now)
    (hsoon : now ≤ tExp + nanosPerSecond * (sec - 1))
    (hexp : claims.ExpiresAt = some (truncateSecond (tExp + secondsToDuration sec)))
    (hnb : claims.NotBefore = some (truncateSecond tNbf)) :
    validateClaims claims now = none := by
  have e1 : now < truncateSecond (tExp + secondsToDuration sec) := by
    rw [secondsToDuration_eq sec h1 h2]
    unfold truncateSecond nanosPerSecond at *
    omega
  have e2 : ¬ now < truncateSecond tNbf := by
    unfold truncateSecond nanosPerSecond
    omega
  simp [validateClaims, hexp, hnb, e1, e2]

/-- A token made by `SignedString` under a key that the tokenizer holds, for
the expected subject and with claims that pass the time checks, is accepted by
`ParseWithClaims` under the tokenizer's key function. -/
theorem ParseWithClaims_SignedString (d : DefaultTokenizer) (now : Int) (email use : String)
    (key : SigningKey) (claims : Payload) (n : Nat)
    (hkey : d.keyAt key.KeyId = key) (hpub : key.PublicKey = KeyText.rsaPublic n)
    (hsub : claims.registered.Subject = email)
    (htime : validateClaims claims.registered now = none) :
    ParseWithClaims (SignedString use key.KeyId claims n) (keyFunc d email) now =
      Except.ok claims := by
  simp [ParseWithClaims, SignedString, GetSigningMethod, keyFunc,
    SigningMethod.isSigningMethodRSA, hsub, sprintKid, hkey, hpub, loadPublicKey, rsaVerify,
    SigningMethod.Verify, htime]

/-- The two texts of a generated pair name the same key pair. -/
theorem isGeneratedPair_iff (k : SigningKey) (h : k.isGeneratedPair = true) :
    ∃ n, k.PrivateKey = KeyText.rsaPrivate n ∧ k.PublicKey = KeyText.rsaPublic n := by
  unfold SigningKey.isGeneratedPair at h
  split at h
  · rename_i n m hp hq
    exact ⟨n, hp, by simpa [hq] using (beq_iff_eq.mp h).symm⟩
  · cases h

/-- The token that `CreateAccessToken` returns when the private key of the
latest key loads. -/
theorem CreateAccessToken_eq (d : DefaultTokenizer) (signingKeys : List SigningKey)
    (env : MintEnv) (email : String) (rbac : List String) (n : Nat)
    (hpriv : (GetLatestKey signingKeys).PrivateKey = KeyText.rsaPrivate n) :
    CreateAccessToken d signingKeys env email rbac =
      Except.ok (SignedString "access" (GetLatestKey signingKeys).KeyId
        (AccessTokenClaims.marshal
          { Roles := rbac
            ID := env.id
            ExpiresAt := some (truncateSecond
              (env.nowExpiresAt + secondsToDuration d.accessTokenExpInSec))
            IssuedAt := some (truncateSecond env.nowIssuedAt)
            NotBefore := some (truncateSecond env.nowNotBefore)
            Issuer := d.Issuer
            Subject := email
            Audience := [d.Audience] }) n) := by
  simp only [CreateAccessToken, LatestKey, hpriv, loadPrivateKey]

/-- The token that `CreateRefreshToken` returns when the private key of the
latest key loads. -/
theorem CreateRefreshToken_eq (d : DefaultTokenizer) (signingKeys : List SigningKey)
    (env : MintEnv) (email : String) (n : Nat)
    (hpriv : (GetLatestKey signingKeys).PrivateKey = KeyText.rsaPrivate n) :
    CreateRefreshToken d signingKeys env email =
      Except.ok (SignedString "refresh" (GetLatestKey signingKeys).KeyId
        (RefreshTokenClaims.marshal
          { ID := env.id
            ExpiresAt := some (truncateSecond
              (env.nowExpiresAt + secondsToDuration d.refreshTokenExpInSec))
            IssuedAt := some (truncateSecond env.nowIssuedAt)
            NotBefore := some (truncateSecond env.nowNotBefore)
            Issuer := d.Issuer
            Subject := email
            Audience := [d.Audience] }) n) := by
  simp only [CreateRefreshToken, LatestKey, hpriv, loadPrivateKey]

/-- What `ValidateAccessToken` returns when `ParseWithClaims` accepts the token. -/
theorem ValidateAccessToken_of_parse (d : DefaultTokenizer) (now : Int) (email : String)
    (tok : TokenString) (p : Payload)
    (h : ParseWithClaims tok (keyFunc d email) now = Except.ok p) :
    ValidateAccessToken d now email tok = Except.ok (AccessTokenClaims.unmarshal p) := by
  simp only [ValidateAccessToken, h]

/-- What `ValidateRefreshToken` returns when `ParseWithClaims` accepts the token. -/
theorem ValidateRefreshToken_of_parse (d : DefaultTokenizer) (now : Int) (email : String)
    (tok : TokenString) (p : Payload)
    (h : ParseWithClaims tok (keyFunc d email) now = Except.ok p) :
    ValidateRefreshToken d now email tok = Except.ok (RefreshTokenClaims.unmarshal p) := by
  simp only [ValidateRefreshToken, h]

/-! ## C5 -/

/-- The claims of a token pass the time checks at every time from `nbf` until
before `exp`. -/
theorem validateClaims_window (claims : RegisteredClaims) (exp nbf now : Int)
    (hexp : claims.ExpiresAt = some exp) (hnb : claims.NotBefore = some nbf)
    (h1 : nbf ≤ now) (h2 : now < exp) :
    validateClaims claims now = none := by
  have e2 : ¬ now < nbf := by omega
  simp [validateClaims, hexp, hnb, h2, e2]

/-- C5, as amended: for every subject and role list, on a tokenizer made over
a store in the state `KeyStoreOk`.  With an access lifetime between 1 and
9223372036 seconds the token that `CreateAccessToken` returns has three
segments, and `ValidateAccessToken` accepts it for the same subject, returning
claims with that subject and those roles, at every time from the `NotBefore`
of the token (its clock reading cut to the second) until before the
`ExpiresAt` of the token (its clock reading plus the lifetime, cut to the
second).  The same holds for `CreateRefreshToken` and `ValidateRefreshToken`
with the refresh lifetime, each token kind under the condition on its own
lifetime only.  For every lifetime that window contains the times from the
last clock reading of the creation until `lifetime - 1` seconds after the
first one. -/
theorem token_round_trip (name issuer audience : String) (rExp aExp : Int)
    (signingKeys : List SigningKey) (env : MintEnv) (subject : String)
    (rbac : List String)
    (hstore : KeyStoreOk signingKeys) :
    (1 ≤ aExp → aExp ≤ 9223372036 →
      ∃ tok,
        CreateAccessToken (NewDefaultTokenizer name issuer audience rExp aExp signingKeys)
          signingKeys env subject rbac = Except.ok tok ∧
        tok.length = 3 ∧
        ∀ now : Int, truncateSecond env.nowNotBefore ≤ now →
          now < truncateSecond (env.nowExpiresAt + nanosPerSecond * aExp) →
          ∃ claims,
            ValidateAccessToken
              (NewDefaultTokenizer name issuer audience rExp aExp signingKeys)
              now subject tok = Except.ok claims ∧
            claims.Subject = subject ∧ claims.Roles = rbac) ∧
    (1 ≤ rExp → rExp ≤ 9223372036 →
      ∃ tok,
        CreateRefreshToken (NewDefaultTokenizer name issuer audience rExp aExp signingKeys)
          signingKeys env subject = Except.ok tok ∧
        tok.length = 3 ∧
        ∀ now : Int, truncateSecond env.nowNotBefore ≤ now →
          now < truncateSecond (env.nowExpiresAt + nanosPerSecond * rExp) →
          ∃ claims,
            ValidateRefreshToken
              (NewDefaultTokenizer name issuer audience rExp aExp signingKeys)
              now subject tok = Except.ok claims ∧
            claims.Subject = subject) ∧
    (∀ now lifetime : Int, env.nowNotBefore ≤ now →
      now ≤ env.nowExpiresAt + nanosPerSecond * (lifetime - 1) →
      truncateSecond env.nowNotBefore ≤ now ∧
      now < truncateSecond (env.nowExpiresAt + nanosPerSecond * lifetime)) := by
  obtain ⟨hne, hgen, hnd⟩ := hstore
  have hmem := GetLatestKey_mem signingKeys hne
  obtain ⟨n, hpriv, hpub⟩ := isGeneratedPair_iff _ (hgen _ hmem)
  have hkey := keyAt_of_mem name issuer audience rExp aExp signingKeys _ hmem hnd
  refine ⟨?_, ?_, ?_⟩
  · intro h1 h2
    refine ⟨_, CreateAccessToken_eq _ signingKeys env subject rbac n hpriv, rfl, ?_⟩
    intro now hn1 hn2
    have hexp : now < truncateSecond (env.nowExpiresAt + secondsToDuration aExp) := by
      rw [secondsToDuration_eq aExp h1 h2]
      exact hn2
    exact ⟨_, ValidateAccessToken_of_parse _ now subject _ _
      (ParseWithClaims_SignedString _ now subject "access" _ _ n hkey hpub rfl
        (validateClaims_window _ (truncateSecond (env.nowExpiresAt + secondsToDuration aExp))
          (truncateSecond env.nowNotBefore) now rfl rfl hn1 hexp)), rfl, rfl⟩
  · intro h1 h2
    refine ⟨_, CreateRefreshToken_eq _ signingKeys env subject n hpriv, rfl, ?_⟩
    intro now hn1 hn2
    have hexp : now < truncateSecond (env.nowExpiresAt + secondsToDuration rExp) := by
      rw [secondsToDuration_eq rExp h1 h2]
      exact hn2
    exact ⟨_, ValidateRefreshToken_of_parse _ now subject _ _
      (ParseWithClaims_SignedString _ now subject "refresh" _ _ n hkey hpub rfl
        (validateClaims_window _ (truncateSecond (env.nowExpiresAt + secondsToDuration rExp))
          (truncateSecond env.nowNotBefore) now rfl rfl hn1 hexp)), rfl⟩
  · intro now lifetime h1 h2
    unfold truncateSecond nanosPerSecond at *
    omega

/-- C5, a concrete instance: the tokenizer of the tests (lifetimes 3600 and
9600 seconds) over the store that `Initialize` filled; the access token made
at time 100 s is accepted at that instant and also at time 5100 s, after the
refresh lifetime has passed. -/
theorem token_round_trip_witness :
    KeyStoreOk storeA ∧
    ∃ tok,
      CreateAccessToken tokenizerA storeA mintEnv1 "test@latebit.io" ["test:read-write"] =
        Except.ok tok ∧
      tok.length = 3 ∧
      (∃ claims,
        ValidateAccessToken tokenizerA 100000000000 "test@latebit.io" tok = Except.ok claims ∧
        claims.Subject = "test@latebit.io" ∧ claims.Roles = ["test:read-write"]) ∧
      (∃ claims,
        ValidateAccessToken tokenizerA 5100000000000 "test@latebit.io" tok = Except.ok claims ∧
        claims.Subject = "test@latebit.io" ∧ claims.Roles = ["test:read-write"]) :=
  match (token_round_trip "test" "test" "test" 3600 9600 storeA mintEnv1 "test@latebit.io"
      ["test:read-write"] (by decide)).1 (by decide) (by decide) with
  | ⟨tok, hcreate, hlen, hvalid⟩ =>
    ⟨by decide, tok, hcreate, hlen, hvalid 100000000000 (by decide) (by decide),
      hvalid 5100000000000 (by decide) (by decide)⟩

/-- C5 as stated fails, in two ways.  The lifetime 9223372037 seconds is
positive, but as a `time.Duration` it wraps to a negative number of
nanoseconds, so the access token made at time 100 s over the initialized store
is already expired when it is validated at that same instant.  And with the
positive lifetime 1 second, a token whose creation starts 10 ns before the
second 101 begins and ends when it begins has the `ExpiresAt` 101 s, so it is
expired when it is validated at the last clock reading of its own creation. -/
theorem token_round_trip_fails_at_issuance :
    ((0 : Int) < 9223372037 ∧
      KeyStoreOk storeA ∧
      ∃ tok,
        CreateAccessToken (NewDefaultTokenizer "test" "test" "test" 3600 9223372037 storeA)
          storeA mintEnv1 "test@latebit.io" ["test:read-write"] = Except.ok tok ∧
        tok.length = 3 ∧
        ValidateAccessToken (NewDefaultTokenizer "test" "test" "test" 3600 9223372037 storeA)
          100000000000 "test@latebit.io" tok =
          Except.error (Error.jwtError JwtErrorKind.ErrTokenExpired none)) ∧
    ((0 : Int) < 1 ∧
      mintEnvEdge.nowExpiresAt ≤ mintEnvEdge.nowIssuedAt ∧
      mintEnvEdge.nowIssuedAt ≤ mintEnvEdge.nowNotBefore ∧
      mintEnvEdge.nowNotBefore = 101000000000 ∧
      ∃ tok,
        CreateAccessToken (NewDefaultTokenizer "test" "test" "test" 3600 1 storeA)
          storeA mintEnvEdge "test@latebit.io" ["test:read-write"] = Except.ok tok ∧
        tok.length = 3 ∧
        ValidateAccessToken (NewDefaultTokenizer "test" "test" "test" 3600 1 storeA)
          101000000000 "test@latebit.io" tok =
          Except.error (Error.jwtError JwtErrorKind.ErrTokenExpired none)) :=
  ⟨⟨by decide, by decide, _, rfl, rfl, rfl⟩,
   ⟨by decide, by decide, by decide, rfl, _, rfl, rfl, rfl⟩⟩

/-! ## C6 -/

/-- The fold of `GetLatestKey` over a list followed by a strictly newer key
returns that key. -/
theorem latest_fold_append (ks : List SigningKey) (k b : SigningKey)
    (hk : k.Created < b.Created) (hks : ∀ x ∈ ks, x.Created < b.Created) :
    (ks ++ [b]).foldl (fun best x => if best.Created < x.Created then x else best) k = b := by
  rw [List.foldl_append]
  simp only [List.foldl_cons, List.foldl_nil]
  have hlt : (ks.foldl (fun best x => if best.Created < x.Created then x else best) k).Created <
      b.Created := by
    rcases latest_fold_mem ks k with h | h
    · rw [h]; exact hk
    · exact hks _ h
  simp [hlt]

/-- After a key strictly newer than every stored key is added, it is the latest key. -/
theorem GetLatestKey_append (signingKeys : List SigningKey) (b : SigningKey)
    (h : ∀ x ∈ signingKeys, x.Created < b.Created) :
    GetLatestKey (signingKeys ++ [b]) = b := by
  cases signingKeys with
  | nil => rfl
  | cons k ks =>
    simp only [List.cons_append, GetLatestKey]
    exact latest_fold_append ks k b (h k (List.mem_cons_self _ _))
      (fun x hx => h x (List.mem_cons_of_mem _ hx))

/-- An id that no key of the list carries is not found by the lookup. -/
theorem lookup_of_not_mem (l : List SigningKey) (kid : String)
    (h : kid ∉ l.map (fun k => k.KeyId)) :
    (l.map (fun k => (k.KeyId, k))).lookup kid = none := by
  induction l with
  | nil => rfl
  | cons x xs ih =>
    simp only [List.map_cons, List.mem_cons, not_or] at h
    have hb : (kid == x.KeyId) = false := by simpa using h.1
    simp only [List.map_cons, List.lookup, hb]
    exact ih h.2

/-- A tokenizer does not find an id that no key of its store carried. -/
theorem keyAt_of_not_mem (name issuer audience : String) (rExp aExp : Int)
    (signingKeys : List SigningKey) (kid : String)
    (h : kid ∉ signingKeys.map (fun k => k.KeyId)) :
    (NewDefaultTokenizer name issuer audience rExp aExp signingKeys).keyAt kid =
      SigningKey.zero := by
  have h2 : kid ∉ signingKeys.reverse.map (fun k => k.KeyId) := by
    rw [List.map_reverse]; simpa using h
  unfold DefaultTokenizer.keyAt NewDefaultTokenizer
  simp only [keyMap_eq, List.append_nil]
  rw [lookup_of_not_mem _ _ h2]
  rfl

/-- The key map of a tokenizer made after a key was appended to the store:
the new key under its id, the old map under every other id. -/
theorem keyAt_append (name issuer audience : String) (rExp aExp : Int)
    (signingKeys : List SigningKey) (b : SigningKey) (kid : String) :
    (NewDefaultTokenizer name issuer audience rExp aExp (signingKeys ++ [b])).keyAt kid =
      if kid = b.KeyId then b
      else (NewDefaultTokenizer name issuer audience rExp aExp signingKeys).keyAt kid := by
  unfold DefaultTokenizer.keyAt NewDefaultTokenizer
  simp only [List.foldl_append, List.foldl_cons, List.foldl_nil, List.lookup]
  by_cases hk : kid = b.KeyId
  · simp [hk]
  · have hb : (kid == b.KeyId) = false := by simpa using hk
    simp [hk, hb]

/-- A key that the key function found before a key with a fresh id was added
is found after it. -/
theorem keyFunc_append (name issuer audience : String) (rExp aExp : Int)
    (signingKeys : List SigningKey) (b : SigningKey) (email : String) (token : Token) (n : Nat)
    (hfresh : b.KeyId ∉ signingKeys.map (fun k => k.KeyId))
    (h : keyFunc (NewDefaultTokenizer name issuer audience rExp aExp signingKeys) email token =
      Except.ok n) :
    keyFunc (NewDefaultTokenizer name issuer audience rExp aExp (signingKeys ++ [b])) email token =
      Except.ok n := by
  unfold keyFunc at h ⊢
  by_cases hm : token.Method.isSigningMethodRSA = true
  · by_cases hs : token.Claims.registered.Subject = email
    · simp only [hm, hs, Bool.not_true, bne_self_eq_false, if_false] at h ⊢
      rw [keyAt_append]
      by_cases hk : sprintKid token.Header.kid = b.KeyId
      · rw [hk, keyAt_of_not_mem _ _ _ _ _ _ _ hfresh] at h
        simp [SigningKey.zero, loadPublicKey] at h
      · simp only [hk, if_false]
        exact h
    · simp [hm, hs] at h
  · simp [hm] at h

/-- Go `ParseWithClaims` accepts a token under a second key function when it
accepted it under a first one and the second finds every key the first found. -/
theorem ParseWithClaims_mono (tok : TokenString) (kf1 kf2 : Token → Except Error Nat)
    (now : Int) (p : Payload)
    (hk : ∀ t n, kf1 t = Except.ok n → kf2 t = Except.ok n)
    (h : ParseWithClaims tok kf1 now = Except.ok p) :
    ParseWithClaims tok kf2 now = Except.ok p := by
  unfold ParseWithClaims at h ⊢
  split at h
  · rename_i hh pp sigSegment
    split at h
    · cases h
    · split at h
      · split at h
        · cases h
        · rename_i key hkey
          simp only [hk _ _ hkey]
          exact h
      · cases h
  · cases h

/-- C6: rotation does not invalidate outstanding tokens.  Let `GenerateKey`
add to the store a key `B` whose id is fresh and whose creation time is later
than that of every stored key.  Then `LatestKey` returns `B`, and every token
that a tokenizer made over the old store accepted for a subject (a token
signed under a key `A` of that store, with the id of `A` as `kid`) is accepted
with the same claims by a tokenizer made over the new store; the tokenizer
made before the rotation keeps its key map, so its own answer is unchanged.
This holds for `ValidateAccessToken` and for `ValidateRefreshToken`. -/
theorem rotation_keeps_tokens_valid (name issuer audience : String) (rExp aExp : Int)
    (signingKeys : List SigningKey) (envB : KeyGenEnv) (now : Int) (subject : String)
    (tok : TokenString)
    (hfresh : envB.keyId ∉ signingKeys.map (fun k => k.KeyId))
    (hnewer : ∀ k ∈ signingKeys, k.Created < truncateMillisecond envB.now) :
    ((GetLatestKey (GenerateKey signingKeys envB)).KeyId = envB.keyId ∧
      (GetLatestKey (GenerateKey signingKeys envB)).PrivateKey = KeyText.rsaPrivate envB.seed) ∧
    (∀ claims,
      ValidateAccessToken (NewDefaultTokenizer name issuer audience rExp aExp signingKeys)
        now subject tok = Except.ok claims →
      ValidateAccessToken
        (NewDefaultTokenizer name issuer audience rExp aExp (GenerateKey signingKeys envB))
        now subject tok = Except.ok claims) ∧
    (∀ claims,
      ValidateRefreshToken (NewDefaultTokenizer name issuer audience rExp aExp signingKeys)
        now subject tok = Except.ok claims →
      ValidateRefreshToken
        (NewDefaultTokenizer name issuer audience rExp aExp (GenerateKey signingKeys envB))
        now subject tok = Except.ok claims) := by
  have hmono : ∀ p,
      ParseWithClaims tok
        (keyFunc (NewDefaultTokenizer name issuer audience rExp aExp signingKeys) subject) now =
        Except.ok p →
      ParseWithClaims tok
        (keyFunc (NewDefaultTokenizer name issuer audience rExp aExp
          (GenerateKey signingKeys envB)) subject) now = Except.ok p := by
    intro p hp
    refine ParseWithClaims_mono tok _ _ now p ?_ hp
    intro t n ht
    exact keyFunc_append name issuer audience rExp aExp signingKeys _ subject t n hfresh ht
  refine ⟨?_, ?_, ?_⟩
  · unfold GenerateKey SigningKeyRepository.Add
    rw [GetLatestKey_append _ _ hnewer]
    exact ⟨rfl, rfl⟩
  · intro claims h
    unfold ValidateAccessToken at h ⊢
    split at h
    · cases h
    · rename_i p hp
      rw [hmono p hp]
      exact h
  · intro claims h
    unfold ValidateRefreshToken at h ⊢
    split at h
    · cases h
    · rename_i p hp
      rw [hmono p hp]
      exact h

/-- C6, a concrete instance: a token signed at time 100 s under the key
`kid-a` of the initialized store is accepted by the tokenizer made after
`GenerateKey` added `kid-b`, which `LatestKey` then returns. -/
theorem rotation_keeps_tokens_valid_witness :
    keyEnvB.keyId ∉ storeA.map (fun k => k.KeyId) ∧
    (∀ k ∈ storeA, k.Created < truncateMillisecond keyEnvB.now) ∧
    (GetLatestKey storeAB).KeyId = "kid-b" ∧
    ∃ tok claims,
      CreateAccessToken tokenizerA storeA mintEnv1 "a@x.com" ["r"] = Except.ok tok ∧
      ValidateAccessToken (NewDefaultTokenizer "test" "test" "test" 3600 9600 storeAB)
        100000000000 "a@x.com" tok = Except.ok claims :=
  ⟨by decide, by decide, rfl, _, _, rfl,
    (rotation_keeps_tokens_valid "test" "test" "test" 3600 9600 storeA keyEnvB 100000000000
      "a@x.com" _ (by decide) (by decide)).2.1 _ rfl⟩

/-! ## C7 -/

/-- A token made by `SignedString` whose `kid` the tokenizer does not hold is
refused: the map read gives the zero key, whose public key text has no PEM
block. -/
theorem ParseWithClaims_unknown_kid (d : DefaultTokenizer) (now : Int) (email use kid : String)
    (claims : Payload) (n : Nat)
    (hkey : d.keyAt kid = SigningKey.zero) (hsub : claims.registered.Subject = email) :
    ParseWithClaims (SignedString use kid claims n) (keyFunc d email) now =
      Except.error (Error.jwtError JwtErrorKind.ErrTokenUnverifiable (some "")) := by
  simp [ParseWithClaims, SignedString, GetSigningMethod, keyFunc,
    SigningMethod.isSigningMethodRSA, hsub, sprintKid, hkey, SigningKey.zero, loadPublicKey,
    Error.Error]

/-- Go `Initialize` on an empty collection leaves a store in the state `KeyStoreOk`. -/
theorem KeyStoreOk_Initialize_nil (env : KeyGenEnv) : KeyStoreOk (Initialize [] env) := by
  refine ⟨by simp [Initialize, GetLatestKey, SigningKey.zero, SigningKeyRepository.Add], ?_, ?_⟩
  · intro k hk
    simp [Initialize, GetLatestKey, SigningKey.zero, SigningKeyRepository.Add,
      NewSigningKey] at hk
    subst hk
    simp [SigningKey.isGeneratedPair]
  · simp [Initialize, GetLatestKey, SigningKey.zero, SigningKeyRepository.Add]

/-- Go `GenerateKey` with a fresh key id keeps the state `KeyStoreOk`. -/
theorem KeyStoreOk_GenerateKey (signingKeys : List SigningKey) (env : KeyGenEnv)
    (h : KeyStoreOk signingKeys) (hfresh : env.keyId ∉ signingKeys.map (fun k => k.KeyId)) :
    KeyStoreOk (GenerateKey signingKeys env) := by
  obtain ⟨_, hgen, hnd⟩ := h
  refine ⟨by simp [GenerateKey, SigningKeyRepository.Add], ?_, ?_⟩
  · intro k hk
    simp only [GenerateKey, SigningKeyRepository.Add, NewSigningKey, List.mem_append,
      List.mem_singleton] at hk
    rcases hk with hk | hk
    · exact hgen k hk
    · subst hk
      simp [SigningKey.isGeneratedPair]
  · simp only [GenerateKey, SigningKeyRepository.Add, List.map_append, List.map_cons,
      List.map_nil]
    refine List.Nodup.append hnd (List.nodup_singleton _) ?_
    intro a ha hb
    simp only [List.mem_singleton] at hb
    subst hb
    exact hfresh ha

/-- C7 as stated fails: `tokenizerA` was made over the initialized store;
`GenerateKey` then adds `kid-b`, which becomes the latest key.
`CreateAccessToken` on `tokenizerA` signs with `kid-b`, the key map of
`tokenizerA` has no entry for `kid-b`, and `ValidateAccessToken` on
`tokenizerA` refuses the token at the instant of its creation. -/
theorem token_of_new_key_rejected_by_same_tokenizer :
    (GetLatestKey storeAB).KeyId = "kid-b" ∧
    tokenizerA.keys.lookup "kid-b" = none ∧
    ∃ tok,
      CreateAccessToken tokenizerA storeAB mintEnv1 "a@x.com" ["r"] = Except.ok tok ∧
      ValidateAccessToken tokenizerA 100000000000 "a@x.com" tok =
        Except.error (Error.jwtError JwtErrorKind.ErrTokenUnverifiable (some "")) :=
  ⟨rfl, rfl, _, rfl, rfl⟩

/-- C7, as amended: a tokenizer holds the keys that were in the store when it
was made.  (1) A token signed under any key of that store, not only the latest,
for the expected subject and inside its time window, is accepted.  (2) After
`GenerateKey` adds a key with a fresh id that is newer than every stored key,
the token that `CreateAccessToken` makes on the tokenizer is signed with the new
key; the tokenizer made before the generation does not hold that key and
refuses the token, and a tokenizer made over the store after the generation
accepts it for its subject. -/
theorem new_key_known_to_later_tokenizer_only (name issuer audience : String) (rExp aExp : Int)
    (signingKeys : List SigningKey) (envB : KeyGenEnv) (env : MintEnv) (now : Int)
    (subject : String) (rbac : List String)
    (hstore : KeyStoreOk signingKeys)
    (hfresh : envB.keyId ∉ signingKeys.map (fun k => k.KeyId))
    (hnewer : ∀ k ∈ signingKeys, k.Created < truncateMillisecond envB.now)
    (haExp : 1 ≤ aExp ∧ aExp ≤ 9223372036)
    (hafter : env.nowNotBefore ≤ now)
    (hsoon : now ≤ env.nowExpiresAt + nanosPerSecond * (aExp - 1)) :
    (∀ k ∈ signingKeys, ∀ (n : Nat) (use : String) (claims : Payload),
      k.PrivateKey = KeyText.rsaPrivate n →
      claims.registered.Subject = subject →
      validateClaims claims.registered now = none →
      ValidateAccessToken (NewDefaultTokenizer name issuer audience rExp aExp signingKeys)
        now subject (SignedString use k.KeyId claims n) =
        Except.ok (AccessTokenClaims.unmarshal claims)) ∧
    (∃ tok,
      CreateAccessToken (NewDefaultTokenizer name issuer audience rExp aExp signingKeys)
        (GenerateKey signingKeys envB) env subject rbac = Except.ok tok ∧
      ValidateAccessToken (NewDefaultTokenizer name issuer audience rExp aExp signingKeys)
        now subject tok =
        Except.error (Error.jwtError JwtErrorKind.ErrTokenUnverifiable (some "")) ∧
      ∃ claims,
        ValidateAccessToken
          (NewDefaultTokenizer name issuer audience rExp aExp (GenerateKey signingKeys envB))
          now subject tok = Except.ok claims ∧
        claims.Subject = subject ∧ claims.Roles = rbac) := by
  constructor
  · intro k hk n use claims hpriv hsub htime
    obtain ⟨m, hp, hq⟩ := isGeneratedPair_iff k (hstore.2.1 k hk)
    have hmn : m = n := by rw [hp] at hpriv; exact KeyText.rsaPrivate.inj hpriv
    subst hmn
    exact ValidateAccessToken_of_parse _ now subject _ _
      (ParseWithClaims_SignedString _ now subject use k claims m
        (keyAt_of_mem name issuer audience rExp aExp signingKeys k hk hstore.2.2) hq hsub htime)
  · have hlatest : GetLatestKey (GenerateKey signingKeys envB) =
        { KeyId := envB.keyId, Format := "PKCS#1",
          PrivateKey := KeyText.rsaPrivate envB.seed, PublicKey := KeyText.rsaPublic envB.seed,
          Algorithm := (NewSigningKey 256 envB.seed envB.newKeyId envB.newKeyNow).Algorithm,
          Created := truncateMillisecond envB.now } := by
      unfold GenerateKey SigningKeyRepository.Add
      exact GetLatestKey_append _ _ hnewer
    have hpriv : (GetLatestKey (GenerateKey signingKeys envB)).PrivateKey =
        KeyText.rsaPrivate envB.seed := by rw [hlatest]
    have hpub : (GetLatestKey (GenerateKey signingKeys envB)).PublicKey =
        KeyText.rsaPublic envB.seed := by rw [hlatest]
    have hkid : (GetLatestKey (GenerateKey signingKeys envB)).KeyId = envB.keyId := by
      rw [hlatest]
    have hold : (NewDefaultTokenizer name issuer audience rExp aExp signingKeys).keyAt
        (GetLatestKey (GenerateKey signingKeys envB)).KeyId = SigningKey.zero := by
      rw [hkid]; exact keyAt_of_not_mem _ _ _ _ _ _ _ hfresh
    have hnew : (NewDefaultTokenizer name issuer audience rExp aExp
        (GenerateKey signingKeys envB)).keyAt (GetLatestKey (GenerateKey signingKeys envB)).KeyId =
        GetLatestKey (GenerateKey signingKeys envB) :=
      keyAt_of_mem _ _ _ _ _ _ _
        (GetLatestKey_mem _ (KeyStoreOk_GenerateKey _ _ hstore hfresh).1)
        (KeyStoreOk_GenerateKey _ _ hstore hfresh).2.2
    refine ⟨_, CreateAccessToken_eq _ _ env subject rbac envB.seed hpriv, ?_, ?_⟩
    · simp only [ValidateAccessToken]
      rw [ParseWithClaims_unknown_kid _ now subject "access" _ _ _ hold rfl]
    · apply Exists.intro
      refine ⟨ValidateAccessToken_of_parse _ now subject _ _
        (ParseWithClaims_SignedString _ now subject "access" _ _ envB.seed hnew hpub ?_ ?_),
        ?_, ?_⟩
      · rfl
      · exact validateClaims_fresh _ env.nowExpiresAt env.nowNotBefore now aExp haExp.1 haExp.2
          hafter hsoon rfl rfl
      · rfl
      · rfl

/-- C7 as amended, a concrete instance: after `GenerateKey` on the initialized
store, the token made at time 100 s is refused by the tokenizer made before and
accepted by the tokenizer made after. -/
theorem new_key_known_to_later_tokenizer_only_witness :
    KeyStoreOk storeA ∧
    ∃ tok claims,
      CreateAccessToken tokenizerA storeAB mintEnv1 "a@x.com" ["r"] = Except.ok tok ∧
      ValidateAccessToken tokenizerA 100000000000 "a@x.com" tok =
        Except.error (Error.jwtError JwtErrorKind.ErrTokenUnverifiable (some "")) ∧
      ValidateAccessToken (NewDefaultTokenizer "test" "test" "test" 3600 9600 storeAB)
        100000000000 "a@x.com" tok = Except.ok claims :=
  ⟨by decide,
   match (new_key_known_to_later_tokenizer_only "test" "test" "test" 3600 9600 storeA keyEnvB
      mintEnv1 100000000000 "a@x.com" ["r"] (by decide) (by decide) (by decide) (by decide)
      (by decide) (by decide)).2 with
   | ⟨tok, hmint, hold, claims, hnew, _, _⟩ => ⟨tok, claims, hmint, hold, hnew⟩⟩

/-! ## C8 -/

/-- The key function refuses every method that is not an `*jwt.SigningMethodRSA`
with the same error, whatever the tokenizer and the expected subject. -/
theorem keyFunc_not_RSA (d : DefaultTokenizer) (email : String) (token : Token)
    (h : token.Method.isSigningMethodRSA = false) :
    keyFunc d email token = Except.error (Error.errorString "signing method not supported") := by
  simp [keyFunc, h]

/-- A method registered under a name outside RS256, RS384 and RS512 is not an
`*jwt.SigningMethodRSA`. -/
theorem GetSigningMethod_not_RSA (alg : String) (method : SigningMethod)
    (halg : alg ≠ "RS256" ∧ alg ≠ "RS384" ∧ alg ≠ "RS512")
    (h : GetSigningMethod alg = some method) : method.isSigningMethodRSA = false := by
  unfold GetSigningMethod at h
  simp only [halg.1, halg.2.1, halg.2.2, or_self, if_false] at h
  split_ifs at h <;> cases h <;> rfl

/-- C8: a token whose header names an algorithm outside RS256, RS384 and
RS512 is refused by `ValidateAccessToken` and by `ValidateRefreshToken` (an
error, no claims), and the error is one and the same for every tokenizer (every
key map), every expected subject and every time: the refusal is decided before
the subject is compared or a key is looked up. -/
theorem non_RSA_algorithm_rejected (h : Header) (rest : List Segment)
    (halg : h.alg ≠ "RS256" ∧ h.alg ≠ "RS384" ∧ h.alg ≠ "RS512") :
    ∃ err, ∀ (d : DefaultTokenizer) (now : Int) (email : String),
      ValidateAccessToken d now email (Segment.header h :: rest) = Except.error err ∧
      ValidateRefreshToken d now email (Segment.header h :: rest) = Except.error err := by
  have hkf : ∀ (d : DefaultTokenizer) (email : String) (method : SigningMethod) (p : Payload),
      GetSigningMethod h.alg = some method →
      keyFunc d email { Method := method, Header := h, Claims := p } =
        Except.error (Error.errorString "signing method not supported") := by
    intro d email method p hm
    exact keyFunc_not_RSA d email _ (GetSigningMethod_not_RSA h.alg method halg hm)
  rcases rest with _ | ⟨x, _ | ⟨y, _ | ⟨z, w⟩⟩⟩
  · exact ⟨Error.jwtError JwtErrorKind.ErrTokenMalformed none, fun d now email =>
      ⟨by simp [ValidateAccessToken, ParseWithClaims],
       by simp [ValidateRefreshToken, ParseWithClaims]⟩⟩
  · exact ⟨Error.jwtError JwtErrorKind.ErrTokenMalformed none, fun d now email =>
      ⟨by simp [ValidateAccessToken, ParseWithClaims],
       by simp [ValidateRefreshToken, ParseWithClaims]⟩⟩
  · cases x with
    | payload p =>
      rcases hm : GetSigningMethod h.alg with _ | method
      · exact ⟨Error.jwtError JwtErrorKind.ErrTokenUnverifiable
            (some "signing method (alg) is unavailable"), fun d now email =>
          ⟨by simp [ValidateAccessToken, ParseWithClaims, hm],
           by simp [ValidateRefreshToken, ParseWithClaims, hm]⟩⟩
      · cases y with
        | signature sig =>
          exact ⟨Error.jwtError JwtErrorKind.ErrTokenUnverifiable
              (some "signing method not supported"), fun d now email =>
            ⟨by simp [ValidateAccessToken, ParseWithClaims, hm, hkf d email method p hm,
                Error.Error],
             by simp [ValidateRefreshToken, ParseWithClaims, hm, hkf d email method p hm,
                Error.Error]⟩⟩
        | header _ | payload _ | raw _ =>
          exact ⟨Error.jwtError JwtErrorKind.ErrTokenMalformed none, fun d now email =>
            ⟨by simp [ValidateAccessToken, ParseWithClaims, hm],
             by simp [ValidateRefreshToken, ParseWithClaims, hm]⟩⟩
    | header _ | signature _ | raw _ =>
      exact ⟨Error.jwtError JwtErrorKind.ErrTokenMalformed none, fun d now email =>
        ⟨by simp [ValidateAccessToken, ParseWithClaims],
         by simp [ValidateRefreshToken, ParseWithClaims]⟩⟩
  · exact ⟨Error.jwtError JwtErrorKind.ErrTokenMalformed none, fun d now email =>
      ⟨by simp [ValidateAccessToken, ParseWithClaims],
       by simp [ValidateRefreshToken, ParseWithClaims]⟩⟩

/-- C8, two concrete instances: a token whose header names `HS256` and an
unsecured token (`none`) are each refused with one error by every tokenizer,
for every expected subject, at every time. -/
theorem non_RSA_algorithm_rejected_witness :
    ("HS256" ≠ "RS256" ∧ "HS256" ≠ "RS384" ∧ "HS256" ≠ "RS512") ∧
    (∃ err, ∀ (d : DefaultTokenizer) (now : Int) (email : String),
      ValidateAccessToken d now email hs256Token = Except.error err ∧
      ValidateRefreshToken d now email hs256Token = Except.error err) ∧
    (∃ err, ∀ (d : DefaultTokenizer) (now : Int) (email : String),
      ValidateAccessToken d now email noneToken = Except.error err ∧
      ValidateRefreshToken d now email noneToken = Except.error err) :=
  ⟨by decide,
   non_RSA_algorithm_rejected
     { alg := "HS256", typ := "JWT", use := some "access", kid := some "kid-a" }
     [Segment.payload
        { roles := ["admin"],
          registered := { Issuer := "test", Subject := "a@x.com", Audience := ["test"],
                          ExpiresAt := none, NotBefore := none, IssuedAt := none, ID := "x" } },
      Segment.signature (Signature.bytes "mac")]
     (by decide),
   non_RSA_algorithm_rejected
     { alg := "none", typ := "JWT", use := none, kid := none }
     [Segment.payload
        { roles := ["admin"],
          registered := { Issuer := "test", Subject := "a@x.com", Audience := ["test"],
                          ExpiresAt := none, NotBefore := none, IssuedAt := none, ID := "x" } },
      Segment.signature (Signature.bytes "")]
     (by decide)⟩

/-! ## C9 -/

/-- Every `CreateAccessToken` call that `Authenticate` makes passes the empty
role list, whatever the roles of the account. -/
theorem Authenticate_rbac_nil (bcrypt : Bcrypt) (tokens : DefaultTokenizer)
    (accounts : List AccountDocument) (signingKeys : List SigningKey)
    (envAccess envRefresh : MintEnv) (email password : String) (e : String)
    (rbac : List String)
    (h : Call.CreateAccessToken e rbac ∈
      (Authenticate bcrypt tokens accounts signingKeys envAccess envRefresh email password).1) :
    rbac = [] := by
  unfold Authenticate at h
  split at h
  · simp at h
  · split at h
    · simp at h
    · split at h
      · simp at h
      · split at h
        · simp at h
        · split at h
          · simp at h; exact h.2
          · split at h
            · simp at h; exact h.2
            · simp at h; exact h.2

/-- C9, the code at the failing input: the stored account `a@x.com` has the
role `admin`; a successful `Authenticate` passes the empty (`nil`) role list to
`CreateAccessToken`, and the access token it returns validates with an empty
`Roles` claim. -/
theorem Authenticate_passes_no_roles :
    (Read accountsA "a@x.com").map (fun account => account.Roles) = Except.ok ["admin"] ∧
    ∃ pair claims,
      Authenticate plainBcrypt tokenizerA accountsA storeA mintEnv1 mintEnv2 "a@x.com" "pw1" =
        ([Call.Read "a@x.com", Call.PasswordMatches "a@x.com" "pw1",
          Call.CreateAccessToken "a@x.com" [], Call.CreateRefreshToken "a@x.com"],
         Except.ok pair) ∧
      ValidateAccessToken tokenizerA 100000000000 "a@x.com" pair.AccessToken =
        Except.ok claims ∧
      claims.Roles = [] :=
  ⟨rfl, _, _, rfl, rfl, rfl⟩

/-! ## C10 -/

/-- For a refresh token that validates and a stored account of its subject,
whatever the flags of the account, `Renew` returns a token pair when the
private key of the latest signing key loads. -/
theorem Renew_ok_of_valid_token (tokens : DefaultTokenizer) (accounts : List AccountDocument)
    (signingKeys : List SigningKey) (now : Int) (envAccess envRefresh : MintEnv)
    (refreshToken : TokenString) (email : String) (claims : RefreshTokenClaims)
    (doc : AccountDocument) (n : Nat)
    (hvalid : ValidateRefreshToken tokens now email refreshToken = Except.ok claims)
    (hdoc : findAccount accounts claims.Subject = some doc)
    (hkey : loadPrivateKey (GetLatestKey signingKeys).PrivateKey = Except.ok n) :
    ∃ pair, (Renew tokens accounts signingKeys now envAccess envRefresh refreshToken email).2 =
      Except.ok pair := by
  obtain ⟨ta, hta⟩ := CreateAccessToken_ok tokens signingKeys envAccess claims.Subject
    doc.decode.Roles n hkey
  obtain ⟨tr, htr⟩ := CreateRefreshToken_ok tokens signingKeys envRefresh claims.Subject n hkey
  simp [Renew, hvalid, Read, hdoc, hta, htr]

/-- C10, the code at the failing inputs: for an account that is deleted, one
that is unverified and one that is disabled at renewal time, `Renew` with a
valid refresh token of the account does not fail with the lifecycle error that
`accountHealth` gives for the account: it returns a new token pair. -/
theorem Renew_ignores_account_status :
    (accountHealth deletedDoc.decode = some (Error.AccountDeletedError "deleted@x.com") ∧
      ∃ tok pair,
        CreateRefreshToken tokenizerA storeA mintEnv1 "deleted@x.com" = Except.ok tok ∧
        (Renew tokenizerA accountsA storeA 100000000000 mintEnv1 mintEnv2 tok
          "deleted@x.com").2 = Except.ok pair) ∧
    (accountHealth unverifiedDoc.decode = some (Error.AccountNotVerifiedError "new@x.com") ∧
      ∃ tok pair,
        CreateRefreshToken tokenizerA storeA mintEnv1 "new@x.com" = Except.ok tok ∧
        (Renew tokenizerA accountsA storeA 100000000000 mintEnv1 mintEnv2 tok
          "new@x.com").2 = Except.ok pair) ∧
    (accountHealth disabledDoc.decode = some (Error.AccountDisabledError "off@x.com") ∧
      ∃ tok pair,
        CreateRefreshToken tokenizerA storeA mintEnv1 "off@x.com" = Except.ok tok ∧
        (Renew tokenizerA accountsA storeA 100000000000 mintEnv1 mintEnv2 tok
          "off@x.com").2 = Except.ok pair) :=
  ⟨⟨rfl, _, _, rfl, rfl⟩, ⟨rfl, _, _, rfl, rfl⟩, ⟨rfl, _, _, rfl, rfl⟩⟩

/-! ## C11 -/

/-- With a code record whose hash accepts the code, a stored account and a
latest signing key whose private key loads, the one-time-code `Authenticate`
returns a token pair: for every `Expires` of the record, every clock reading,
every flag of the account and every outcome of the deletion. -/
theorem logon_Authenticate_ok (bcrypt : Bcrypt) (tokens : DefaultTokenizer)
    (logonCodes : List LogonCode) (accounts : List AccountDocument)
    (signingKeys : List SigningKey) (envAccess envRefresh : MintEnv)
    (deleteFailure : Option Error) (email code : String) (c : LogonCode)
    (doc : AccountDocument) (n : Nat)
    (hc : logonCodes.find? (fun c => c.Email == email) = some c)
    (hv : bcrypt.CompareHashAndPassword c.Code code = none)
    (hdoc : findAccount accounts email = some doc)
    (hkey : loadPrivateKey (GetLatestKey signingKeys).PrivateKey = Except.ok n) :
    ∃ pair, (DefaultLogonCodeService.Authenticate bcrypt tokens logonCodes accounts signingKeys
      envAccess envRefresh deleteFailure email code).2 = Except.ok pair := by
  obtain ⟨ta, hta⟩ := CreateAccessToken_ok tokens signingKeys envAccess email doc.decode.Roles n
    hkey
  obtain ⟨tr, htr⟩ := CreateRefreshToken_ok tokens signingKeys envRefresh email n hkey
  simp [DefaultLogonCodeService.Authenticate, DefaultLogonCodeRepository.Read, hc,
    DefaultEncryption.Verify, hv, Read, hdoc, hta, htr]

/-- C11, the code at the failing input: the record of `a@x.com` expired at time
10 s and is still stored; at time 100 s the one-time-code `Authenticate` with
the matching code `123456` returns a token pair. -/
theorem logon_Authenticate_accepts_expired_code :
    DefaultLogonCodeRepository.Read [expiredCode] "a@x.com" = Except.ok expiredCode ∧
    expiredCode.Expires < mintEnv1.nowExpiresAt ∧
    ∃ pair, (DefaultLogonCodeService.Authenticate plainBcrypt tokenizerA [expiredCode] accountsA
      storeA mintEnv1 mintEnv2 none "a@x.com" "123456").2 = Except.ok pair :=
  ⟨rfl, by decide, _, rfl⟩

/-! ## C12 -/

/-- With at most one record per email, deleting the record found for an email
leaves no record for that email. -/
theorem find_eraseP_none (l : List LogonCode) (email : String) (c : LogonCode)
    (hnd : (l.map (fun c => c.Email)).Nodup)
    (hf : l.find? (fun x => x.Email == email) = some c) :
    (l.eraseP (fun x => x.Email == email && x.Code == c.Code)).find?
      (fun x => x.Email == email) = none := by
  induction l with
  | nil => simp at hf
  | cons x xs ih =>
    simp only [List.map_cons, List.nodup_cons] at hnd
    by_cases hx : x.Email = email
    · have hxc : x = c := by simpa [List.find?, hx] using hf
      subst hxc
      have hp : (x.Email == email && x.Code == x.Code) = true := by simp [hx]
      simp only [List.eraseP_cons, hp, cond_true]
      rw [List.find?_eq_none]
      intro y hy hye
      have hye2 : y.Email = email := by simpa using hye
      exact hnd.1 (List.mem_map.mpr ⟨y, hy, by rw [hye2, hx]⟩)
    · have hb : (x.Email == email) = false := by simpa using hx
      have hf2 : xs.find? (fun x => x.Email == email) = some c := by
        simpa [List.find?, hb] using hf
      have hp : (x.Email == email && x.Code == c.Code) = false := by simp [hb]
      simp only [List.eraseP_cons, hp, cond_false, List.find?, hb]
      exact ih hnd.2 hf2

/-- C12, as amended: with at most one code record per email, when a call of the
one-time-code `Authenticate` succeeds and the deletion of the code record
succeeds, the record of the email is gone and the next call with the same email
and code fails with the not-found error of the store, whatever the other state
and the environment of that call. -/
theorem logon_code_single_use_when_deleted (bcrypt : Bcrypt) (tokens tokens2 : DefaultTokenizer)
    (logonCodes : List LogonCode) (accounts accounts2 : List AccountDocument)
    (signingKeys signingKeys2 : List SigningKey)
    (envAccess envRefresh envAccess2 envRefresh2 : MintEnv)
    (deleteFailure2 : Option Error) (email code : String) (pair : Authenticated)
    (hone : (logonCodes.map (fun c => c.Email)).Nodup)
    (hfirst : (DefaultLogonCodeService.Authenticate bcrypt tokens logonCodes accounts signingKeys
      envAccess envRefresh none email code).2 = Except.ok pair) :
    DefaultLogonCodeRepository.Read
      (DefaultLogonCodeService.Authenticate bcrypt tokens logonCodes accounts signingKeys
        envAccess envRefresh none email code).1 email = Except.error ErrNoDocuments ∧
    DefaultLogonCodeService.Authenticate bcrypt tokens2
      (DefaultLogonCodeService.Authenticate bcrypt tokens logonCodes accounts signingKeys
        envAccess envRefresh none email code).1
      accounts2 signingKeys2 envAccess2 envRefresh2 deleteFailure2 email code =
      ((DefaultLogonCodeService.Authenticate bcrypt tokens logonCodes accounts signingKeys
        envAccess envRefresh none email code).1, Except.error ErrNoDocuments) := by
  have key : DefaultLogonCodeRepository.Read
      (DefaultLogonCodeService.Authenticate bcrypt tokens logonCodes accounts signingKeys
        envAccess envRefresh none email code).1 email = Except.error ErrNoDocuments := by
    unfold DefaultLogonCodeService.Authenticate at hfirst ⊢
    unfold DefaultLogonCodeRepository.Read at hfirst ⊢
    rcases hf : logonCodes.find? (fun c => c.Email == email) with _ | c
    · simp [hf] at hfirst
    · have hE := find_eraseP_none logonCodes email c hone hf
      simp only [hf] at hfirst ⊢
      split at hfirst
      · simp at hfirst
      · split at hfirst
        · split at hfirst
          · simp at hfirst
          · split at hfirst
            · simp at hfirst
            · split at hfirst
              · simp at hfirst
              · simp_all [DefaultLogonCodeRepository.Delete]
                rw [List.find?_eq_none.mpr (fun x hx => by simpa using hE x hx)]
        · simp at hfirst
  refine ⟨key, ?_⟩
  generalize (DefaultLogonCodeService.Authenticate bcrypt tokens logonCodes accounts signingKeys
        envAccess envRefresh none email code).1 = remaining at key ⊢
  simp only [DefaultLogonCodeService.Authenticate, key]

/-- C12 as amended, a concrete instance: the first call for `a@x.com` with the
code `123456` succeeds and deletes the record; the second call fails. -/
theorem logon_code_single_use_when_deleted_witness :
    ([validCode].map (fun c => c.Email)).Nodup ∧
    (∃ pair, (DefaultLogonCodeService.Authenticate plainBcrypt tokenizerA [validCode] accountsA
      storeA mintEnv1 mintEnv2 none "a@x.com" "123456").2 = Except.ok pair) ∧
    DefaultLogonCodeService.Authenticate plainBcrypt tokenizerA
      (DefaultLogonCodeService.Authenticate plainBcrypt tokenizerA [validCode] accountsA
        storeA mintEnv1 mintEnv2 none "a@x.com" "123456").1
      accountsA storeA mintEnv1 mintEnv2 none "a@x.com" "123456" =
      ((DefaultLogonCodeService.Authenticate plainBcrypt tokenizerA [validCode] accountsA
        storeA mintEnv1 mintEnv2 none "a@x.com" "123456").1, Except.error ErrNoDocuments) :=
  ⟨by decide, ⟨_, rfl⟩,
    (logon_code_single_use_when_deleted plainBcrypt tokenizerA tokenizerA [validCode] accountsA
      accountsA storeA storeA mintEnv1 mintEnv2 mintEnv1 mintEnv2 none "a@x.com" "123456" _
      (by decide) rfl).2⟩

/-- C12 as stated fails: when the deletion after the first success fails, the
error is dropped, the record stays, and the second call with the same email and
code succeeds as well. -/
theorem logon_code_reused_when_delete_fails :
    (DefaultLogonCodeService.Authenticate plainBcrypt tokenizerA [validCode] accountsA
      storeA mintEnv1 mintEnv2 (some storageDown) "a@x.com" "123456").1 = [validCode] ∧
    (∃ pair, (DefaultLogonCodeService.Authenticate plainBcrypt tokenizerA [validCode] accountsA
      storeA mintEnv1 mintEnv2 (some storageDown) "a@x.com" "123456").2 = Except.ok pair) ∧
    (∃ pair, (DefaultLogonCodeService.Authenticate plainBcrypt tokenizerA
      (DefaultLogonCodeService.Authenticate plainBcrypt tokenizerA [validCode] accountsA
        storeA mintEnv1 mintEnv2 (some storageDown) "a@x.com" "123456").1
      accountsA storeA mintEnv1 mintEnv2 none "a@x.com" "123456").2 = Except.ok pair) :=
  ⟨rfl, ⟨_, rfl⟩, ⟨_, rfl⟩⟩

/-! ## C13 -/

/-- When the comparison of the supplied code with the stored hash returns an
error, the mismatch among them, the one-time-code `Authenticate` returns that
error and leaves the collection as it is. -/
theorem logon_Authenticate_verify_error (bcrypt : Bcrypt) (tokens : DefaultTokenizer)
    (logonCodes : List LogonCode) (accounts : List AccountDocument)
    (signingKeys : List SigningKey) (envAccess envRefresh : MintEnv)
    (deleteFailure : Option Error) (email code : String) (c : LogonCode) (err : Error)
    (hc : logonCodes.find? (fun c => c.Email == email) = some c)
    (hv : bcrypt.CompareHashAndPassword c.Code code = some err) :
    DefaultLogonCodeService.Authenticate bcrypt tokens logonCodes accounts signingKeys
      envAccess envRefresh deleteFailure email code = (logonCodes, Except.error err) := by
  simp [DefaultLogonCodeService.Authenticate, DefaultLogonCodeRepository.Read, hc,
    DefaultEncryption.Verify, hv]

/-- C13, the code at the failing input: a record exists for `a@x.com` with the
hash of `123456`; with the code `000000` the one-time-code `Authenticate`
returns the mismatch error of `bcrypt`, not `AuthenticationError`. -/
theorem logon_Authenticate_wrong_code :
    DefaultLogonCodeRepository.Read [validCode] "a@x.com" = Except.ok validCode ∧
    DefaultEncryption.Verify plainBcrypt validCode.Code "000000" =
      Except.error Error.ErrMismatchedHashAndPassword ∧
    DefaultLogonCodeService.Authenticate plainBcrypt tokenizerA [validCode] accountsA
      storeA mintEnv1 mintEnv2 none "a@x.com" "000000" =
      ([validCode], Except.error Error.ErrMismatchedHashAndPassword) ∧
    Error.ErrMismatchedHashAndPassword ≠ Error.AuthenticationError "a@x.com" :=
  ⟨rfl, rfl, rfl, by decide⟩

/-! ## C14 -/

/-- C14 as stated fails: for the empty store `LatestKey` returns no error; it
returns the zero key. -/
theorem LatestKey_empty_store_no_error :
    LatestKey [] = Except.ok SigningKey.zero ∧ ¬ ∃ err, LatestKey [] = Except.error err :=
  ⟨rfl, fun ⟨_, h⟩ => by simp [LatestKey] at h⟩

/-- C14, as amended: for the empty store `GetLatestKey` and `LatestKey` return
the zero `SigningKey` and no error; `CreateAccessToken` and `CreateRefreshToken`
go on with that key and fail when they load its private key, with the error
`failed to decode PEM block`, for every tokenizer, subject and role list. -/
theorem empty_store_fails_at_private_key (d : DefaultTokenizer) (env : MintEnv)
    (email : String) (rbac : List String) :
    GetLatestKey [] = SigningKey.zero ∧
    LatestKey [] = Except.ok SigningKey.zero ∧
    CreateAccessToken d [] env email rbac =
      Except.error (Error.errorString "failed to decode PEM block") ∧
    CreateRefreshToken d [] env email =
      Except.error (Error.errorString "failed to decode PEM block") :=
  ⟨rfl, rfl, rfl, rfl⟩

/-! ## C15 -/

/-- The algorithm name that `NewSigningKey 256` writes is `RS256`. -/
theorem NewSigningKey_Algorithm (seed : Nat) (keyId : String) (now : Int) :
    (NewSigningKey 256 seed keyId now).Algorithm = "RS256" := by
  simp only [NewSigningKey]
  decide

/-- Every key of a store that the service produced carries the algorithm name
`RS256`. -/
theorem StoreGenerated_Algorithm (signingKeys : List SigningKey)
    (h : StoreGenerated signingKeys) : ∀ k ∈ signingKeys, k.Algorithm = "RS256" := by
  induction h with
  | empty => intro k hk; simp at hk
  | bootstrap s env _ ih =>
    intro k hk
    unfold Initialize at hk
    simp only at hk
    split at hk
    · exact ih k hk
    · simp only [SigningKeyRepository.Add, List.mem_append, List.mem_singleton] at hk
      rcases hk with hk | hk
      · exact ih k hk
      · subst hk
        exact NewSigningKey_Algorithm _ _ _
  | generate s env _ ih =>
    intro k hk
    simp only [GenerateKey, SigningKeyRepository.Add, List.mem_append, List.mem_singleton] at hk
    rcases hk with hk | hk
    · exact ih k hk
    · subst hk
      exact NewSigningKey_Algorithm _ _ _

/-- On a non-empty store whose keys all carry the algorithm name `RS256`,
`Initialize` changes nothing. -/
theorem Initialize_noop (signingKeys : List SigningKey) (env : KeyGenEnv)
    (hne : signingKeys ≠ []) (halg : ∀ k ∈ signingKeys, k.Algorithm = "RS256") :
    Initialize signingKeys env = signingKeys := by
  have h := halg _ (GetLatestKey_mem signingKeys hne)
  simp [Initialize, h]

/-- C15: `Initialize` is an idempotent bootstrap.  On the empty store it adds
exactly one key, the generated pair under the id of the call; on a store that
the service produced and that holds at least one key it adds nothing and leaves
the store as it is; hence `Initialize` twice in sequence leaves the same store
as `Initialize` once. -/
theorem Initialize_idempotent (signingKeys : List SigningKey) (env env2 : KeyGenEnv)
    (h : StoreGenerated signingKeys) :
    (∃ k, Initialize [] env = [k] ∧ k.KeyId = env.keyId ∧
      k.PrivateKey = KeyText.rsaPrivate env.seed ∧ k.PublicKey = KeyText.rsaPublic env.seed) ∧
    (signingKeys ≠ [] → Initialize signingKeys env = signingKeys) ∧
    Initialize (Initialize signingKeys env) env2 = Initialize signingKeys env := by
  refine ⟨⟨_, rfl, rfl, rfl, rfl⟩, ?_, ?_⟩
  · intro hne
    exact Initialize_noop signingKeys env hne (StoreGenerated_Algorithm signingKeys h)
  · have hgen : StoreGenerated (Initialize signingKeys env) :=
      StoreGenerated.bootstrap signingKeys env h
    have hne : Initialize signingKeys env ≠ [] := by
      cases signingKeys with
      | nil => simp [Initialize, GetLatestKey, SigningKey.zero, SigningKeyRepository.Add]
      | cons k ks =>
        rw [Initialize_noop (k :: ks) env (List.cons_ne_nil _ _)
          (StoreGenerated_Algorithm _ h)]
        exact List.cons_ne_nil _ _
    exact Initialize_noop _ env2 hne (StoreGenerated_Algorithm _ hgen)

/-- C15, a concrete instance: the store after `Initialize` on the empty
collection is left as it is by a second `Initialize`. -/
theorem Initialize_idempotent_witness :
    StoreGenerated storeA ∧ storeA.length = 1 ∧ Initialize storeA keyEnvB = storeA :=
  ⟨StoreGenerated.bootstrap [] keyEnvA StoreGenerated.empty, rfl,
    (Initialize_idempotent [] keyEnvA keyEnvB StoreGenerated.empty).2.2⟩

/-! ## C16 -/

/-- The fold of `GetLatestKey` returns a key at least as new as its start value
and as every key of the list. -/
theorem latest_fold_ge (ks : List SigningKey) (k : SigningKey) :
    k.Created ≤ (ks.foldl (fun best x => if best.Created < x.Created then x else best) k).Created ∧
    ∀ x ∈ ks, x.Created ≤
      (ks.foldl (fun best x => if best.Created < x.Created then x else best) k).Created := by
  induction ks generalizing k with
  | nil => simp
  | cons y ys ih =>
    simp only [List.foldl_cons, List.mem_cons]
    obtain ⟨h1, h2⟩ := ih (if k.Created < y.Created then y else k)
    by_cases hy : k.Created < y.Created
    · simp only [hy, if_true] at h1 h2 ⊢
      refine ⟨by omega, ?_⟩
      intro x hx
      rcases hx with hx | hx
      · subst hx; exact h1
      · exact h2 x hx
    · simp only [hy, if_false] at h1 h2 ⊢
      refine ⟨h1, ?_⟩
      intro x hx
      rcases hx with hx | hx
      · subst hx; omega
      · exact h2 x hx

/-- The latest key is at least as new as every key of the store. -/
theorem GetLatestKey_ge (signingKeys : List SigningKey) :
    ∀ x ∈ signingKeys, x.Created ≤ (GetLatestKey signingKeys).Created := by
  cases signingKeys with
  | nil => intro x hx; simp at hx
  | cons k ks =>
    intro x hx
    simp only [GetLatestKey]
    rcases List.mem_cons.mp hx with h | h
    · subst h; exact (latest_fold_ge ks x).1
    · exact (latest_fold_ge ks k).2 x h

/-- C16, as amended: for every non-empty store `LatestKey` returns a stored key
whose creation timestamp is the greatest of the store.  After `Initialize`
followed by `GenerateKey`, `GetAllKeys` is non-empty and holds one key more
than before `GenerateKey`, the last document being the key that `GenerateKey`
persisted; and when the creation timestamp of that key, the clock reading of
`GenerateKey` kept to the millisecond as the store keeps it, is later than the
timestamp of every key stored before it, `LatestKey` returns that key. -/
theorem LatestKey_greatest_timestamp (signingKeys : List SigningKey) (envI envG : KeyGenEnv)
    (hclock : ∀ k ∈ Initialize signingKeys envI, k.Created < truncateMillisecond envG.now) :
    (∀ store : List SigningKey, store ≠ [] →
      ∃ k, LatestKey store = Except.ok k ∧ k ∈ store ∧ ∀ x ∈ store, x.Created ≤ k.Created) ∧
    (∃ keys, GetAllKeys (GenerateKey (Initialize signingKeys envI) envG) = Except.ok keys ∧
      keys ≠ [] ∧ keys.length = (Initialize signingKeys envI).length + 1) ∧
    LatestKey (GenerateKey (Initialize signingKeys envI) envG) =
      Except.ok { KeyId := envG.keyId, Format := "PKCS#1", Algorithm := "RS256",
                  PrivateKey := KeyText.rsaPrivate envG.seed,
                  PublicKey := KeyText.rsaPublic envG.seed,
                  Created := truncateMillisecond envG.now } ∧
    (GenerateKey (Initialize signingKeys envI) envG).getLast? =
      some { KeyId := envG.keyId, Format := "PKCS#1", Algorithm := "RS256",
             PrivateKey := KeyText.rsaPrivate envG.seed,
             PublicKey := KeyText.rsaPublic envG.seed,
             Created := truncateMillisecond envG.now } := by
  refine ⟨?_, ?_, ?_, ?_⟩
  · intro store hne
    exact ⟨_, rfl, GetLatestKey_mem store hne, GetLatestKey_ge store⟩
  · refine ⟨_, rfl, ?_, ?_⟩
    · simp [GenerateKey, SigningKeyRepository.Add]
    · simp [GenerateKey, SigningKeyRepository.Add]
  · simp only [LatestKey, GenerateKey, SigningKeyRepository.Add, NewSigningKey_Algorithm]
    rw [GetLatestKey_append _ _ hclock]
    simp only [NewSigningKey]
  · simp [GenerateKey, SigningKeyRepository.Add, NewSigningKey]
    decide

/-- C16, a concrete instance: `Initialize` at time 1 s and `GenerateKey` at
time 50 s; `LatestKey` returns the key `kid-b` of `GenerateKey`. -/
theorem LatestKey_greatest_timestamp_witness :
    (∀ k ∈ Initialize [] keyEnvA, k.Created < truncateMillisecond keyEnvB.now) ∧
    LatestKey storeAB =
      Except.ok { KeyId := "kid-b", Format := "PKCS#1", Algorithm := "RS256",
                  PrivateKey := KeyText.rsaPrivate 22, PublicKey := KeyText.rsaPublic 22,
                  Created := 50000000000 } :=
  ⟨by decide, (LatestKey_greatest_timestamp [] keyEnvA keyEnvB (by decide)).2.2.1⟩

/-- C16 as stated fails: after `Initialize` at time 1 s, a `GenerateKey` whose
clock reads 0.5 s, the wall clock having been set back, persists the key
`kid-c` as the last document, and `LatestKey` returns the key `kid-a` of
`Initialize`; and a `GenerateKey` 0.4 ms after `Initialize`, in the same
millisecond, persists the key `kid-d` with the same stored timestamp, and
`LatestKey` returns the key `kid-a` as well. -/
theorem LatestKey_returns_older_key :
    ((GenerateKey (Initialize [] keyEnvA) keyEnvBack).map (fun k => (k.KeyId, k.Created)) =
        [("kid-a", 1000000000), ("kid-c", 500000000)] ∧
      (LatestKey (GenerateKey (Initialize [] keyEnvA) keyEnvBack)).map (fun k => k.KeyId) =
        Except.ok "kid-a") ∧
    ((GenerateKey (Initialize [] keyEnvA) keyEnvSame).map (fun k => (k.KeyId, k.Created)) =
        [("kid-a", 1000000000), ("kid-d", 1000000000)] ∧
      (LatestKey (GenerateKey (Initialize [] keyEnvA) keyEnvSame)).map (fun k => k.KeyId) =
        Except.ok "kid-a") :=
  ⟨⟨by decide, rfl⟩, ⟨by decide, rfl⟩⟩

/-! ## C17 -/

/-- A lifetime between -9223372036 and 9223372036 seconds is the same number
of nanoseconds as a `time.Duration`: the product does not wrap. -/
theorem secondsToDuration_eq_of_range (sec : Int) (h1 : -9223372036 ≤ sec)
    (h2 : sec ≤ 9223372036) : secondsToDuration sec = nanosPerSecond * sec := by
  unfold secondsToDuration wrapInt64 nanosPerSecond
  norm_num
  omega

/-- Truncation to the second commutes with adding whole seconds. -/
theorem truncateSecond_add_seconds (t sec : Int) :
    truncateSecond (t + nanosPerSecond * sec) = truncateSecond t + nanosPerSecond * sec := by
  unfold truncateSecond nanosPerSecond
  omega

/-- C17, as amended: each of the three time claims is made from its own clock
reading, truncated to the second.  When the three readings of a token creation
fall in the same second and the lifetime lies between -9223372036 and
9223372036 seconds, the token of `CreateAccessToken` has `IssuedAt` equal to
`NotBefore` (that second) and `ExpiresAt` equal to `IssuedAt` plus the
`accessTokenExpInSec` given to `NewDefaultTokenizer`; likewise the token of
`CreateRefreshToken` with `refreshTokenExpInSec`. -/
theorem minted_claim_times (name issuer audience : String) (rExp aExp : Int)
    (keys signingKeys : List SigningKey) (env : MintEnv) (email : String) (rbac : List String)
    (hsame : truncateSecond env.nowExpiresAt = truncateSecond env.nowIssuedAt ∧
      truncateSecond env.nowNotBefore = truncateSecond env.nowIssuedAt)
    (haExp : -9223372036 ≤ aExp ∧ aExp ≤ 9223372036)
    (hrExp : -9223372036 ≤ rExp ∧ rExp ≤ 9223372036) :
    (∀ tok, CreateAccessToken (NewDefaultTokenizer name issuer audience rExp aExp keys)
        signingKeys env email rbac = Except.ok tok →
      ∃ h p sig, tok = [Segment.header h, Segment.payload p, Segment.signature sig] ∧
        p.registered.IssuedAt = some (truncateSecond env.nowIssuedAt) ∧
        p.registered.NotBefore = p.registered.IssuedAt ∧
        p.registered.ExpiresAt = some (truncateSecond env.nowIssuedAt + nanosPerSecond * aExp)) ∧
    (∀ tok, CreateRefreshToken (NewDefaultTokenizer name issuer audience rExp aExp keys)
        signingKeys env email = Except.ok tok →
      ∃ h p sig, tok = [Segment.header h, Segment.payload p, Segment.signature sig] ∧
        p.registered.IssuedAt = some (truncateSecond env.nowIssuedAt) ∧
        p.registered.NotBefore = p.registered.IssuedAt ∧
        p.registered.ExpiresAt = some (truncateSecond env.nowIssuedAt + nanosPerSecond * rExp)) := by
  constructor
  · intro tok h
    unfold CreateAccessToken at h
    simp only [LatestKey] at h
    split at h
    · cases h
    · cases h
      refine ⟨_, _, _, rfl, rfl, ?_, ?_⟩
      · simp [AccessTokenClaims.marshal, hsame.2]
      · simp only [AccessTokenClaims.marshal, NewDefaultTokenizer]
        rw [secondsToDuration_eq_of_range aExp haExp.1 haExp.2, truncateSecond_add_seconds,
          hsame.1]
  · intro tok h
    unfold CreateRefreshToken at h
    simp only [LatestKey] at h
    split at h
    · cases h
    · cases h
      refine ⟨_, _, _, rfl, rfl, ?_, ?_⟩
      · simp [RefreshTokenClaims.marshal, hsame.2]
      · simp only [RefreshTokenClaims.marshal, NewDefaultTokenizer]
        rw [secondsToDuration_eq_of_range rExp hrExp.1 hrExp.2, truncateSecond_add_seconds,
          hsame.1]

/-- C17 as amended, a concrete instance: the three readings at time 100 s, the
lifetimes 3600 and 9600 seconds of the tests. -/
theorem minted_claim_times_witness :
    (truncateSecond mintEnv1.nowExpiresAt = truncateSecond mintEnv1.nowIssuedAt ∧
      truncateSecond mintEnv1.nowNotBefore = truncateSecond mintEnv1.nowIssuedAt) ∧
    ∃ h p sig,
      CreateAccessToken tokenizerA storeA mintEnv1 "a@x.com" [] =
        Except.ok [Segment.header h, Segment.payload p, Segment.signature sig] ∧
      p.registered.IssuedAt = some 100000000000 ∧
      p.registered.NotBefore = p.registered.IssuedAt ∧
      p.registered.ExpiresAt = some (100000000000 + nanosPerSecond * 9600) :=
  ⟨by decide,
   match (minted_claim_times "test" "test" "test" 3600 9600 storeA storeA mintEnv1 "a@x.com" []
      (by decide) (by decide) (by decide)).1 _ rfl with
   | ⟨h, p, sig, htok, hiat, hnbf, hexp⟩ => ⟨h, p, sig, congrArg Except.ok htok, hiat, hnbf, hexp⟩⟩

/-- C17 as stated fails: a token creation whose clock readings are 10 ns apart
and straddle the start of second 101 gives `IssuedAt` 100 s and `NotBefore`
101 s. -/
theorem minted_claim_times_differ_across_second :
    ∃ h p sig,
      CreateAccessToken tokenizerA storeA mintEnvEdge "a@x.com" [] =
        Except.ok [Segment.header h, Segment.payload p, Segment.signature sig] ∧
      p.registered.IssuedAt = some 100000000000 ∧
      p.registered.NotBefore = some 101000000000 ∧
      p.registered.IssuedAt ≠ p.registered.NotBefore :=
  ⟨_, _, _, rfl, rfl, rfl, by decide⟩

/-! ## C18 -/

/-- The session lookup does not depend on the client id it is given. -/
theorem TokenRepository_Read_ignores_clientId (sessions : List SessionToken)
    (email clientId clientId2 : String) :
    DefaultTokenRepository.Read sessions email clientId =
      DefaultTokenRepository.Read sessions email clientId2 := rfl

/-- C18, the code at the failing input: `a@x.com` holds acknowledged sessions
under the client ids `phone` and `laptop`; `Revoke` of `phone` succeeds and
removes that session, and the lookup for `a@x.com` and `phone` then returns the
session of `laptop` instead of not-found. -/
theorem Read_after_Revoke_returns_other_session :
    sessionsA.map (fun t => (t.Email, t.ClientId)) =
      [("a@x.com", "phone"), ("a@x.com", "laptop")] ∧
    (Revoke sessionsA "phone" "a@x.com" pairA.AccessToken).2 = none ∧
    (Revoke sessionsA "phone" "a@x.com" pairA.AccessToken).1.map
      (fun t => (t.Email, t.ClientId)) = [("a@x.com", "laptop")] ∧
    ∃ t, DefaultTokenRepository.Read (Revoke sessionsA "phone" "a@x.com" pairA.AccessToken).1
      "a@x.com" "phone" = Except.ok t ∧ t.ClientId = "laptop" :=
  ⟨by decide, rfl, by decide, _, rfl, rfl⟩

/-! ## C19 -/

/-- The decoded document found under an email is the same before and after a
push to the array `socialProvider`. -/
theorem findAccount_pushSocialProvider (accounts : List AccountDocument) (email : String)
    (provider : SocialProvider) (e : String) :
    (findAccount (pushSocialProvider email provider accounts) e).map AccountDocument.decode =
      (findAccount accounts e).map AccountDocument.decode := by
  induction accounts with
  | nil => rfl
  | cons doc docs ih =>
    unfold findAccount at ih ⊢
    cases hde : (doc.email == email) <;> cases hee : (doc.email == e) <;>
      simp only [pushSocialProvider, hde, List.find?_cons, hee, if_true, if_false,
        Bool.false_eq_true, Option.map_some']
    · exact ih
    · rfl

/-- An account read does not see what `LinkSocial` pushed: the push goes to the
array `socialProvider`, the read decodes `socialProviders`. -/
theorem Read_pushSocialProvider (accounts : List AccountDocument) (email : String)
    (provider : SocialProvider) (e : String) :
    Read (pushSocialProvider email provider accounts) e = Read accounts e := by
  have h := findAccount_pushSocialProvider accounts email provider e
  unfold Read
  cases h1 : findAccount (pushSocialProvider email provider accounts) e <;>
    cases h2 : findAccount accounts e <;> simp [h1, h2] at h ⊢
  exact h

/-- C19, the code at the failing input: the stored, verified account `a@x.com`
has no linked provider.  The social `Authenticate` with an assertion of
`google` for `a@x.com` succeeds and links the identity; the account read after
it still has empty `SocialProviders`; and `LinkSocial` applied again with the
same identity stores that identity twice. -/
theorem LinkSocial_not_seen_and_not_idempotent :
    (∃ pair, (DefaultSocialService.Authenticate plainBcrypt mailOk validatorsA tokenizerA
      accountsA storeA "pw-uuid" createEnv1 mintEnv1 mintEnv2 "idtok-a" "google").2.2 =
      Except.ok pair) ∧
    (Read (DefaultSocialService.Authenticate plainBcrypt mailOk validatorsA tokenizerA
      accountsA storeA "pw-uuid" createEnv1 mintEnv1 mintEnv2 "idtok-a" "google").2.1
      "a@x.com").map (fun account => account.SocialProviders.length) = Except.ok 0 ∧
    (findAccount (LinkSocial (DefaultSocialService.Authenticate plainBcrypt mailOk validatorsA
      tokenizerA accountsA storeA "pw-uuid" createEnv1 mintEnv1 mintEnv2 "idtok-a"
      "google").2.1 "a@x.com" { Name := "google", SocialId := "g-1" }).1 "a@x.com").map
      (fun doc => doc.socialProvider) =
      some [{ Name := "google", SocialId := "g-1" }, { Name := "google", SocialId := "g-1" }] :=
  ⟨⟨_, rfl⟩, rfl, by decide⟩

/-! ## Lemmas on the updates of a collection -/

/-- The first document that the filter matches after `updateFirst` is the
updated one, when the update keeps a matching document matching. -/
theorem find_updateFirst {α : Type} (p : α → Bool) (set : α → α) (l : List α)
    (hset : ∀ x, p x = true → p (set x) = true) :
    (updateFirst p set l).find? p = (l.find? p).map set := by
  induction l with
  | nil => rfl
  | cons x xs ih =>
    cases hx : p x
    · simp only [updateFirst, hx, Bool.false_eq_true, if_false, List.find?_cons]
      exact ih
    · simp only [updateFirst, hx, if_true, List.find?_cons, hset x hx, Option.map_some']

/-- An update that keeps the key of the document it changes keeps the keys of
the collection. -/
theorem map_updateFirst {α β : Type} (p : α → Bool) (set : α → α) (key : α → β) (l : List α)
    (hkey : ∀ x, p x = true → key (set x) = key x) :
    (updateFirst p set l).map key = l.map key := by
  induction l with
  | nil => rfl
  | cons x xs ih =>
    cases hx : p x
    · simp only [updateFirst, hx, Bool.false_eq_true, if_false, List.map_cons, ih]
    · simp only [updateFirst, hx, if_true, List.map_cons, hkey x hx]

/-- With at most one document per key, deleting the first document of a key
leaves no document of that key. -/
theorem find_eraseP_key_none {α : Type} (key : α → String) (l : List α) (k : String)
    (hnd : (l.map key).Nodup) :
    (l.eraseP (fun x => key x == k)).find? (fun x => key x == k) = none := by
  induction l with
  | nil => rfl
  | cons x xs ih =>
    simp only [List.map_cons, List.nodup_cons] at hnd
    cases hx : (key x == k)
    · simp only [List.eraseP_cons, hx, cond_false, List.find?_cons]
      exact ih hnd.2
    · simp only [List.eraseP_cons, hx, cond_true]
      rw [List.find?_eq_none]
      intro y hy hye
      have h1 : key x = k := by simpa using hx
      have h2 : key y = k := by simpa using hye
      exact hnd.1 (List.mem_map.mpr ⟨y, hy, by rw [h1, h2]⟩)

/-- A filter matches some document exactly when `FindOne` finds one. -/
theorem any_eq_true_of_find {α : Type} (p : α → Bool) (l : List α) (x : α)
    (h : l.find? p = some x) : l.any p = true := by
  rw [List.any_eq_true]
  exact ⟨x, List.mem_of_find?_eq_some h, List.find?_some h⟩

/-- No document matches a filter under which `FindOne` finds none. -/
theorem any_eq_false_of_find {α : Type} (p : α → Bool) (l : List α)
    (h : l.find? p = none) : l.any p = false := by
  rw [List.find?_eq_none] at h
  cases hany : l.any p
  · rfl
  · rw [List.any_eq_true] at hany
    obtain ⟨x, hx, hpx⟩ := hany
    exact absurd hpx (h x hx)

/-! ## C20 -/

/-- C20 as stated fails: `google` is registered and accepts the assertion
`idtok-first` for `first@x.com`, which has no account, and the sending of the
verification email fails.  The social `Authenticate` stores the account and
returns the error of the sending, not `AccountNotVerifiedError`. -/
theorem social_first_sign_in_returns_mail_error :
    findAccount accountsA "first@x.com" = none ∧
    (DefaultSocialService.Authenticate plainBcrypt mailDown validatorsA tokenizerA accountsA
      storeA "pw-uuid" createEnv1 mintEnv1 mintEnv2 "idtok-first" "google").2.2 =
      Except.error (Error.errorString "smtp: connection refused") ∧
    (findAccount (DefaultSocialService.Authenticate plainBcrypt mailDown validatorsA tokenizerA
      accountsA storeA "pw-uuid" createEnv1 mintEnv1 mintEnv2 "idtok-first" "google").2.1
      "first@x.com").map (fun doc => (doc.isVerified, doc.isEnabled)) = some (false, false) :=
  ⟨by decide, rfl, by decide⟩

/-- C20, as amended: first-time social sign-in does not bypass verification.
When the validator registered under the provider name accepts the assertion
with a non-empty email for which no account is stored, and the random password
is not empty (it is a uuid string), the social `Authenticate` makes the calls
`ValidateToken`, `Read` and `Create` only, so it creates no token and links no
provider.  When bcrypt hashes the random password it stores one new account
for that email, unverified, disabled and with no linked provider, and returns
`AccountNotVerifiedError` for that email when the verification email is sent,
and the error of the sending when it is not.  When bcrypt fails it returns that
error and stores no account.  When no validator is registered under the
provider name, it fails without any call on a validator or on the account
store, which it leaves as it is. -/
theorem social_first_sign_in (bcrypt : Bcrypt) (emailService : EmailService)
    (validators : List (String × Validator)) (validator : Validator)
    (token : DefaultTokenizer) (accounts : List AccountDocument)
    (signingKeys : List SigningKey) (randomPassword : String) (createEnv : CreateEnv)
    (envAccess envRefresh : MintEnv) (idToken provider : String) (social : Social)
    (hreg : validators.lookup provider = some validator)
    (hacc : validator.ValidateToken idToken = Except.ok social)
    (hemail : social.Email ≠ "")
    (hnew : findAccount accounts social.Email = none)
    (hpw : randomPassword ≠ "") :
    (DefaultSocialService.Authenticate bcrypt emailService validators token accounts
      signingKeys randomPassword createEnv envAccess envRefresh idToken provider).1 =
      [SocialCall.ValidateToken provider idToken, SocialCall.Read social.Email,
        SocialCall.Create social.Email randomPassword] ∧
    (∀ hashed : String,
      bcrypt.GenerateFromPassword randomPassword bcryptMinCost createEnv.salt =
        Except.ok hashed →
      (DefaultSocialService.Authenticate bcrypt emailService validators token accounts
        signingKeys randomPassword createEnv envAccess envRefresh idToken provider).2.1 =
        accounts ++ [{ email := social.Email, password := hashed, isVerified := false,
                       verificationToken := createEnv.verificationToken, isEnabled := false,
                       isDeleted := false, socialProviders := [], roles := [],
                       created := truncateMillisecond createEnv.nowCreated,
                       modified := truncateMillisecond createEnv.nowModified,
                       socialProvider := [] }] ∧
      (emailService.SendVerificationEmail social.Email createEnv.verificationToken = none →
        (DefaultSocialService.Authenticate bcrypt emailService validators token accounts
          signingKeys randomPassword createEnv envAccess envRefresh idToken provider).2.2 =
          Except.error (Error.AccountNotVerifiedError social.Email)) ∧
      (∀ err : Error,
        emailService.SendVerificationEmail social.Email createEnv.verificationToken =
          some err →
        (DefaultSocialService.Authenticate bcrypt emailService validators token accounts
          signingKeys randomPassword createEnv envAccess envRefresh idToken provider).2.2 =
          Except.error err)) ∧
    (∀ err : Error,
      bcrypt.GenerateFromPassword randomPassword bcryptMinCost createEnv.salt =
        Except.error err →
      (DefaultSocialService.Authenticate bcrypt emailService validators token accounts
        signingKeys randomPassword createEnv envAccess envRefresh idToken provider).2 =
        (accounts, Except.error err)) ∧
    (∀ (others : List (String × Validator)) (name : String),
      others.lookup name = none →
      DefaultSocialService.Authenticate bcrypt emailService others token accounts signingKeys
        randomPassword createEnv envAccess envRefresh idToken name =
        ([], accounts,
          Except.error (Error.errorString ("no validator found for provider " ++ name)))) := by
  have hany : accounts.any (fun doc => doc.email == social.Email) = false :=
    any_eq_false_of_find _ _ hnew
  have hfind : ∀ doc : AccountDocument, doc.email = social.Email →
      findAccount (accounts ++ [doc]) social.Email = some doc := by
    intro doc hdoc
    unfold findAccount at hnew ⊢
    simp [List.find?_append, hnew, hdoc]
  refine ⟨?_, ?_, ?_, ?_⟩
  · cases hh : bcrypt.GenerateFromPassword randomPassword bcryptMinCost createEnv.salt with
    | error err =>
      simp [DefaultSocialService.Authenticate, hreg, hacc, hemail, Read, hnew,
        DefaultAccountService.Create, MongodbAccountRepository.Create, createErrorMessages,
        hpw, DefaultEncryption.Encrypt, hh]
    | ok hashed =>
      cases hs : emailService.SendVerificationEmail social.Email
        createEnv.verificationToken <;>
      simp [DefaultSocialService.Authenticate, hreg, hacc, hemail, Read, hnew,
        DefaultAccountService.Create, MongodbAccountRepository.Create, createErrorMessages,
        hpw, DefaultEncryption.Encrypt, hh, hany, hfind, AccountDocument.decode, hs]
  · intro hashed hh
    refine ⟨?_, ?_, ?_⟩
    · cases hs : emailService.SendVerificationEmail social.Email
        createEnv.verificationToken <;>
      simp [DefaultSocialService.Authenticate, hreg, hacc, hemail, Read, hnew,
        DefaultAccountService.Create, MongodbAccountRepository.Create, createErrorMessages,
        hpw, DefaultEncryption.Encrypt, hh, hany, hfind, AccountDocument.decode, hs]
    · intro hs
      simp [DefaultSocialService.Authenticate, hreg, hacc, hemail, Read, hnew,
        DefaultAccountService.Create, MongodbAccountRepository.Create, createErrorMessages,
        hpw, DefaultEncryption.Encrypt, hh, hany, hfind, AccountDocument.decode, hs]
    · intro err hs
      simp [DefaultSocialService.Authenticate, hreg, hacc, hemail, Read, hnew,
        DefaultAccountService.Create, MongodbAccountRepository.Create, createErrorMessages,
        hpw, DefaultEncryption.Encrypt, hh, hany, hfind, AccountDocument.decode, hs]
  · intro err hh
    simp [DefaultSocialService.Authenticate, hreg, hacc, hemail, Read, hnew,
      DefaultAccountService.Create, MongodbAccountRepository.Create, createErrorMessages,
      hpw, DefaultEncryption.Encrypt, hh]
  · intro others name hnone
    simp [DefaultSocialService.Authenticate, hnone]

/-- C20, concrete instances: `google` is registered and accepts the assertion
`idtok-first` for `first@x.com`, which has no account; the result is
`AccountNotVerifiedError` when the verification email is sent, and the error
of the sending when it is not. -/
theorem social_first_sign_in_witness :
    findAccount accountsA "first@x.com" = none ∧
    (DefaultSocialService.Authenticate plainBcrypt mailOk validatorsA tokenizerA accountsA
      storeA "pw-uuid" createEnv1 mintEnv1 mintEnv2 "idtok-first" "google").2.2 =
      Except.error (Error.AccountNotVerifiedError "first@x.com") ∧
    (DefaultSocialService.Authenticate plainBcrypt mailDown validatorsA tokenizerA accountsA
      storeA "pw-uuid" createEnv1 mintEnv1 mintEnv2 "idtok-first" "google").2.2 =
      Except.error (Error.errorString "smtp: connection refused") :=
  ⟨by decide,
   ((social_first_sign_in plainBcrypt mailOk validatorsA googleValidator tokenizerA accountsA
      storeA "pw-uuid" createEnv1 mintEnv1 mintEnv2 "idtok-first" "google"
      { ID := "g-2", Email := "first@x.com", Provider := "google" }
      rfl rfl (by decide) (by decide) (by decide)).2.1 "$2a$04$pw-uuid" rfl).2.1 rfl,
   ((social_first_sign_in plainBcrypt mailDown validatorsA googleValidator tokenizerA accountsA
      storeA "pw-uuid" createEnv1 mintEnv1 mintEnv2 "idtok-first" "google"
      { ID := "g-2", Email := "first@x.com", Provider := "google" }
      rfl rfl (by decide) (by decide) (by decide)).2.1 "$2a$04$pw-uuid" rfl).2.2
      (Error.errorString "smtp: connection refused") rfl⟩

/-! ## C21 -/

/-- What `ForgotPassword` does once the token matched and the transaction
started: both repository calls act on the committed contents, so when the
password update went through and the storage call of the deletion fails, the
database returned has the updated accounts and the reset records as they were,
whatever `AbortTransaction` drops. -/
theorem ForgotPassword_outside_transaction (bcrypt : Bcrypt) (db : Database)
    (env : ForgotPasswordEnv) (email newPassword forgotToken : String) (forgot : Forgot)
    (accounts1 : List AccountDocument) (err : Error)
    (hread : MongoDbForgotRepository.Read db.forgots email = Except.ok forgot)
    (htoken : forgot.Token = forgotToken)
    (hsession : env.tx.startSession = none) (hstart : env.tx.startTransaction = none)
    (hupdate : MongodbAccountRepository.UpdatePassword bcrypt db.accounts env.updateFailure
      env.salt env.nowModified email newPassword = (accounts1, none))
    (hdelete : env.deleteFailure = some err) :
    DefaultAccountService.ForgotPassword bcrypt db env email newPassword forgotToken =
      ({ accounts := accounts1, forgots := db.forgots }, some err) := by
  simp [DefaultAccountService.ForgotPassword, hread, htoken, MongoTxManager.WithTransaction,
    hsession, hstart, OpenTransaction.call, hupdate, MongoDbForgotRepository.Delete, hdelete]

/-- C21, the code at the failing input: `a@x.com` has the password hash of
`pw1` and the reset record with the token `R-1`.  In `ForgotPassword` with that
token and the new password `newpw` the password update goes through and the
storage call that deletes the reset record fails.  The call returns the error
of the deletion, the stored password is the hash of `newpw`, and the reset
record is still stored. -/
theorem ForgotPassword_delete_failure_keeps_new_password :
    (findAccount dbA.accounts "a@x.com").map (fun doc => doc.password) = some "$2a$04$pw1" ∧
    MongoDbForgotRepository.Read dbA.forgots "a@x.com" =
      Except.ok { Token := "R-1", Email := "a@x.com", Created := 95000000000 } ∧
    (DefaultAccountService.ForgotPassword plainBcrypt dbA resetEnvDeleteFails "a@x.com" "newpw"
      "R-1").2 = some storageDown ∧
    (findAccount (DefaultAccountService.ForgotPassword plainBcrypt dbA resetEnvDeleteFails
      "a@x.com" "newpw" "R-1").1.accounts "a@x.com").map (fun doc => doc.password) =
      some "$2a$04$newpw" ∧
    (DefaultAccountService.ForgotPassword plainBcrypt dbA resetEnvDeleteFails "a@x.com" "newpw"
      "R-1").1.forgots = dbA.forgots :=
  ⟨by decide, rfl, rfl, by decide, by decide⟩

/-! ## C22 -/

/-- After `Create` of the reset-record store the record found for the email
carries the fresh token. -/
theorem forgot_Create_find (forgots : List Forgot) (env : ForgotEnv) (email : String) :
    (MongoDbForgotRepository.Create forgots env email).find? (fun f => f.Email == email) =
      some { Token := env.token, Email := email,
             Created := truncateMillisecond env.nowCreated } := by
  unfold MongoDbForgotRepository.Create
  cases hany : forgots.any (fun f => f.Email == email)
  · have hnone : forgots.find? (fun f => f.Email == email) = none := by
      rw [List.find?_eq_none]
      intro x hx hpx
      have : forgots.any (fun f => f.Email == email) = true :=
        List.any_eq_true.mpr ⟨x, hx, hpx⟩
      rw [hany] at this
      cases this
    simp [List.find?_append, hnone]
  · rw [List.any_eq_true] at hany
    obtain ⟨x, hx, hpx⟩ := hany
    rw [if_pos rfl, find_updateFirst _ _ _ (fun y _ => by simp)]
    cases hf : forgots.find? (fun f => f.Email == email) with
    | none =>
      rw [List.find?_eq_none] at hf
      exact absurd hpx (hf x hx)
    | some y => rfl

/-- The upsert of `Create` keeps at most one reset record per email. -/
theorem forgot_Create_nodup (forgots : List Forgot) (env : ForgotEnv) (email : String)
    (hone : (forgots.map (fun f => f.Email)).Nodup) :
    ((MongoDbForgotRepository.Create forgots env email).map (fun f => f.Email)).Nodup := by
  unfold MongoDbForgotRepository.Create
  cases hany : forgots.any (fun f => f.Email == email)
  · simp only [Bool.false_eq_true, if_false, List.map_append, List.map_cons, List.map_nil]
    rw [List.nodup_append]
    refine ⟨hone, List.nodup_singleton _, ?_⟩
    intro e he he2
    have he3 : e = email := by simpa using he2
    obtain ⟨x, hx, hxe⟩ := List.mem_map.mp he
    have : forgots.any (fun f => f.Email == email) = true :=
      List.any_eq_true.mpr ⟨x, hx, by simp [hxe, he3]⟩
    rw [hany] at this
    cases this
  · rw [if_pos rfl, map_updateFirst _ _ _ _ (fun y hy => by
      have h : y.Email = email := by simpa using hy
      simp [h])]
    exact hone

/-- The document found for an email after an update of the first document with
that email that keeps the email. -/
theorem findAccount_updateFirst (accounts : List AccountDocument) (email : String)
    (set : AccountDocument → AccountDocument) (hset : ∀ doc, (set doc).email = doc.email) :
    findAccount (updateFirst (fun doc => doc.email == email) set accounts) email =
      (findAccount accounts email).map set := by
  unfold findAccount
  exact find_updateFirst _ _ _ (fun doc hdoc => by simpa [hset doc] using hdoc)

/-- C22 as stated fails: `nobody@x.com` has no account.  `Forgot` stores the
reset record with the token `R-1` all the same; `ForgotPassword` with `R-1`
then fails with `AccountNotFoundError`, and the record with `R-1` is still
stored. -/
theorem ForgotPassword_without_account_keeps_token :
    findAccount accountsA "nobody@x.com" = none ∧
    MongoDbForgotRepository.Read
      (DefaultAccountService.Forgot mailOk [] forgotEnv1 "nobody@x.com").1 "nobody@x.com" =
      Except.ok { Token := "R-1", Email := "nobody@x.com", Created := 95000000000 } ∧
    (DefaultAccountService.ForgotPassword plainBcrypt
      { accounts := accountsA
        forgots := (DefaultAccountService.Forgot mailOk [] forgotEnv1 "nobody@x.com").1 }
      resetEnvOk "nobody@x.com" "newpw" "R-1").2 =
      some (Error.AccountNotFoundError "nobody@x.com") ∧
    MongoDbForgotRepository.Read
      (DefaultAccountService.ForgotPassword plainBcrypt
        { accounts := accountsA
          forgots := (DefaultAccountService.Forgot mailOk [] forgotEnv1 "nobody@x.com").1 }
        resetEnvOk "nobody@x.com" "newpw" "R-1").1.forgots "nobody@x.com" =
      Except.ok { Token := "R-1", Email := "nobody@x.com", Created := 95000000000 } :=
  ⟨by decide, rfl, rfl, rfl⟩

/-- C22, as amended: with at most one reset record per email and storage and
session calls that succeed, `Forgot` stores the record with the fresh token
`R` and hands `R` to the email collaborator, whether the email has an account
or not.  When the email has an account and bcrypt hashes the new password,
`ForgotPassword` with `R` succeeds, stores the hash of the new password and
leaves no reset record for the email, and every later `ForgotPassword` with
`R` fails with `AccountNotFoundError` for the email and changes nothing.  When
the email has no account and bcrypt hashes the new password, `ForgotPassword`
with `R` fails with `AccountNotFoundError` for the email and changes nothing,
so the record with `R` stays.  When bcrypt refuses the new password,
`ForgotPassword` with `R` fails with the error of bcrypt and changes nothing.
`ForgotPassword` with a token other than `R` fails and changes neither the
accounts nor the reset records. -/
theorem reset_token_single_use (bcrypt : Bcrypt) (emailService : EmailService)
    (db : Database) (fenv : ForgotEnv) (env : ForgotPasswordEnv) (email newPassword : String)
    (hone : (db.forgots.map (fun f => f.Email)).Nodup)
    (hupdate : env.updateFailure = none) (hdelete : env.deleteFailure = none)
    (hsession : env.tx.startSession = none) (hstart : env.tx.startTransaction = none)
    (hcommit : env.tx.commitTransaction = none) :
    MongoDbForgotRepository.Read (DefaultAccountService.Forgot emailService db.forgots fenv
      email).1 email =
      Except.ok { Token := fenv.token, Email := email,
                  Created := truncateMillisecond fenv.nowCreated } ∧
    (DefaultAccountService.Forgot emailService db.forgots fenv email).2.1 =
      [Mail.forgotPassword email fenv.token] ∧
    (∀ (doc : AccountDocument) (hashed : String),
      findAccount db.accounts email = some doc →
      bcrypt.GenerateFromPassword newPassword bcryptMinCost env.salt = Except.ok hashed →
      (DefaultAccountService.ForgotPassword bcrypt
        { db with forgots := (DefaultAccountService.Forgot emailService db.forgots fenv email).1 }
        env email newPassword fenv.token).2 = none ∧
      findAccount (DefaultAccountService.ForgotPassword bcrypt
        { db with forgots := (DefaultAccountService.Forgot emailService db.forgots fenv email).1 }
        env email newPassword fenv.token).1.accounts email =
        some { doc with password := hashed,
                        modified := truncateMillisecond env.nowModified } ∧
      (DefaultAccountService.ForgotPassword bcrypt
        { db with forgots := (DefaultAccountService.Forgot emailService db.forgots fenv email).1 }
        env email newPassword fenv.token).1.forgots.find? (fun f => f.Email == email) = none ∧
      (∀ (env2 : ForgotPasswordEnv) (password2 : String),
        DefaultAccountService.ForgotPassword bcrypt
          (DefaultAccountService.ForgotPassword bcrypt
            { db with
              forgots := (DefaultAccountService.Forgot emailService db.forgots fenv email).1 }
            env email newPassword fenv.token).1 env2 email password2 fenv.token =
          ((DefaultAccountService.ForgotPassword bcrypt
            { db with
              forgots := (DefaultAccountService.Forgot emailService db.forgots fenv email).1 }
            env email newPassword fenv.token).1, some (Error.AccountNotFoundError email)))) ∧
    (∀ hashed : String,
      findAccount db.accounts email = none →
      bcrypt.GenerateFromPassword newPassword bcryptMinCost env.salt = Except.ok hashed →
      DefaultAccountService.ForgotPassword bcrypt
        { db with forgots := (DefaultAccountService.Forgot emailService db.forgots fenv email).1 }
        env email newPassword fenv.token =
        ({ db with
           forgots := (DefaultAccountService.Forgot emailService db.forgots fenv email).1 },
         some (Error.AccountNotFoundError email))) ∧
    (∀ err : Error,
      bcrypt.GenerateFromPassword newPassword bcryptMinCost env.salt = Except.error err →
      DefaultAccountService.ForgotPassword bcrypt
        { db with forgots := (DefaultAccountService.Forgot emailService db.forgots fenv email).1 }
        env email newPassword fenv.token =
        ({ db with
           forgots := (DefaultAccountService.Forgot emailService db.forgots fenv email).1 },
         some err)) ∧
    (∀ (env2 : ForgotPasswordEnv) (password2 token2 : String), token2 ≠ fenv.token →
      DefaultAccountService.ForgotPassword bcrypt
        { db with forgots := (DefaultAccountService.Forgot emailService db.forgots fenv email).1 }
        env2 email password2 token2 =
        ({ db with
           forgots := (DefaultAccountService.Forgot emailService db.forgots fenv email).1 },
         some (Error.errorString "cannot change password"))) := by
  have hfind := forgot_Create_find db.forgots fenv email
  have hnd := forgot_Create_nodup db.forgots fenv email hone
  have hforgot : (DefaultAccountService.Forgot emailService db.forgots fenv email).1 =
      MongoDbForgotRepository.Create db.forgots fenv email := by
    simp [DefaultAccountService.Forgot, MongoDbForgotRepository.Read, hfind]
  have hmail : (DefaultAccountService.Forgot emailService db.forgots fenv email).2.1 =
      [Mail.forgotPassword email fenv.token] := by
    simp [DefaultAccountService.Forgot, MongoDbForgotRepository.Read, hfind]
  have hgone := find_eraseP_key_none (fun f : Forgot => f.Email)
    (MongoDbForgotRepository.Create db.forgots fenv email) email hnd
  refine ⟨?_, hmail, ?_, ?_, ?_, ?_⟩
  · rw [hforgot]
    simp [MongoDbForgotRepository.Read, hfind]
  · intro doc hashed hdoc hhash
    have hany : db.accounts.any (fun doc => doc.email == email) = true :=
      any_eq_true_of_find _ _ _ hdoc
    have hcall : DefaultAccountService.ForgotPassword bcrypt
        { db with
          forgots := (DefaultAccountService.Forgot emailService db.forgots fenv email).1 }
        env email newPassword fenv.token =
        ({ accounts := updateFirst (fun doc => doc.email == email)
             (fun doc => { doc with password := hashed,
                                    modified := truncateMillisecond env.nowModified })
             db.accounts
           forgots := (MongoDbForgotRepository.Create db.forgots fenv email).eraseP
             (fun f => f.Email == email) }, none) := by
      rw [hforgot]
      simp [DefaultAccountService.ForgotPassword, MongoDbForgotRepository.Read, hfind,
        MongoTxManager.WithTransaction, hsession, hstart, hcommit, OpenTransaction.call,
        OpenTransaction.view, MongodbAccountRepository.UpdatePassword,
        DefaultEncryption.Encrypt, hhash, hupdate, hany, MongoDbForgotRepository.Delete,
        hdelete]
    rw [hcall]
    refine ⟨rfl, ?_, hgone, ?_⟩
    · have hset := findAccount_updateFirst db.accounts email
        (fun doc => { doc with password := hashed,
                               modified := truncateMillisecond env.nowModified })
        (fun _ => rfl)
      simp only []
      rw [hset, hdoc]
      rfl
    · intro env2 password2
      simp [DefaultAccountService.ForgotPassword, MongoDbForgotRepository.Read, hgone]
  · intro hashed hnone hhash
    have hany : db.accounts.any (fun doc => doc.email == email) = false :=
      any_eq_false_of_find _ _ hnone
    rw [hforgot]
    simp [DefaultAccountService.ForgotPassword, MongoDbForgotRepository.Read, hfind,
      MongoTxManager.WithTransaction, hsession, hstart, OpenTransaction.call,
      MongodbAccountRepository.UpdatePassword, DefaultEncryption.Encrypt, hhash, hupdate,
      hany]
  · intro err hhash
    rw [hforgot]
    simp [DefaultAccountService.ForgotPassword, MongoDbForgotRepository.Read, hfind,
      MongoTxManager.WithTransaction, hsession, hstart, OpenTransaction.call,
      MongodbAccountRepository.UpdatePassword, DefaultEncryption.Encrypt, hhash]
  · intro env2 password2 token2 hne
    rw [hforgot]
    have hne2 : ¬ fenv.token = token2 := fun h => hne h.symm
    simp [DefaultAccountService.ForgotPassword, MongoDbForgotRepository.Read, hfind, hne2]

/-- C22, concrete instances: `a@x.com` is stored with the password hash of
`pw1`; `Forgot` draws the token `R-1`, `ForgotPassword` with `R-1` succeeds, and
the repeat call returns `AccountNotFoundError` for `a@x.com`.  For
`nobody@x.com`, which has no account, `ForgotPassword` with `R-1` returns
`AccountNotFoundError` and leaves the database as it was. -/
theorem reset_token_single_use_witness :
    ((DefaultAccountService.ForgotPassword plainBcrypt
        { accounts := accountsA
          forgots := (DefaultAccountService.Forgot mailOk [] forgotEnv1 "a@x.com").1 }
        resetEnvOk "a@x.com" "newpw" "R-1").2 = none ∧
      (DefaultAccountService.ForgotPassword plainBcrypt
        (DefaultAccountService.ForgotPassword plainBcrypt
          { accounts := accountsA
            forgots := (DefaultAccountService.Forgot mailOk [] forgotEnv1 "a@x.com").1 }
          resetEnvOk "a@x.com" "newpw" "R-1").1 resetEnvOk "a@x.com" "newpw" "R-1").2 =
        some (Error.AccountNotFoundError "a@x.com")) ∧
    DefaultAccountService.ForgotPassword plainBcrypt
      { accounts := accountsA
        forgots := (DefaultAccountService.Forgot mailOk [] forgotEnv1 "nobody@x.com").1 }
      resetEnvOk "nobody@x.com" "newpw" "R-1" =
      ({ accounts := accountsA
         forgots := (DefaultAccountService.Forgot mailOk [] forgotEnv1 "nobody@x.com").1 },
       some (Error.AccountNotFoundError "nobody@x.com")) :=
  ⟨match (reset_token_single_use plainBcrypt mailOk { accounts := accountsA, forgots := [] }
      forgotEnv1 resetEnvOk "a@x.com" "newpw" (by decide) rfl rfl rfl rfl rfl).2.2.1
      healthyDoc "$2a$04$newpw" (by decide) rfl with
    | ⟨hok, _, _, hrepeat⟩ => ⟨hok, congrArg (fun r => r.2) (hrepeat resetEnvOk "newpw")⟩,
   (reset_token_single_use plainBcrypt mailOk { accounts := accountsA, forgots := [] }
      forgotEnv1 resetEnvOk "nobody@x.com" "newpw" (by decide) rfl rfl rfl rfl rfl).2.2.2.1
      "$2a$04$newpw" (by decide) rfl⟩

/-! ## C23 -/

/-- For a stored account, `Verify` of the service succeeds exactly when the
code is the stored verification token, and then it is the update of the
repository. -/
theorem Verify_of_found (accounts : List AccountDocument) (now : Int)
    (email code : String) (doc : AccountDocument)
    (hdoc : findAccount accounts email = some doc) :
    DefaultAccountService.Verify accounts now email code =
      if doc.verificationToken = code then
        (updateFirst (fun doc => doc.email == email)
          (fun doc => { doc with verificationToken := "", isVerified := true,
                                 isEnabled := true,
                                 modified := truncateMillisecond now }) accounts, none)
      else (accounts, some (Error.VerificationError "cannot verify account")) := by
  have hany : accounts.any (fun doc => doc.email == email) = true :=
    any_eq_true_of_find _ _ _ hdoc
  by_cases h : doc.verificationToken = code
  · simp [DefaultAccountService.Verify, Read, hdoc, AccountDocument.decode, h,
      MongodbAccountRepository.Verify, hany]
  · simp [DefaultAccountService.Verify, Read, hdoc, AccountDocument.decode, h]

/-- The document found for the email after the update of `Verify`. -/
theorem findAccount_after_Verify (accounts : List AccountDocument) (now : Int)
    (email : String) (doc : AccountDocument)
    (hdoc : findAccount accounts email = some doc) :
    findAccount (updateFirst (fun doc => doc.email == email)
      (fun doc => { doc with verificationToken := "", isVerified := true, isEnabled := true,
                             modified := truncateMillisecond now }) accounts) email =
      some { doc with verificationToken := "", isVerified := true, isEnabled := true,
                      modified := truncateMillisecond now } := by
  have hset := findAccount_updateFirst accounts email
    (fun doc => { doc with verificationToken := "", isVerified := true, isEnabled := true,
                           modified := truncateMillisecond now })
    (fun _ => rfl)
  rw [hset, hdoc]
  rfl

/-- C23: for a stored account whose verification token is `T`, a non-empty
string as `uuid.NewUUID` makes it at creation, `Verify` with `T` succeeds and
leaves the account verified, enabled and with the empty token; a second
`Verify` with the same `T`, at any later moment, fails with `VerificationError`
and changes nothing. -/
theorem Verify_succeeds_once (accounts : List AccountDocument) (now now2 : Int)
    (email T : String) (doc : AccountDocument)
    (hdoc : findAccount accounts email = some doc)
    (hT : doc.verificationToken = T) (hne : T ≠ "") :
    (DefaultAccountService.Verify accounts now email T).2 = none ∧
    findAccount (DefaultAccountService.Verify accounts now email T).1 email =
      some { doc with verificationToken := "", isVerified := true, isEnabled := true,
                      modified := truncateMillisecond now } ∧
    DefaultAccountService.Verify (DefaultAccountService.Verify accounts now email T).1 now2
      email T =
      ((DefaultAccountService.Verify accounts now email T).1,
        some (Error.VerificationError "cannot verify account")) := by
  have h1 := Verify_of_found accounts now email T doc hdoc
  rw [if_pos hT] at h1
  have h2 := findAccount_after_Verify accounts now email doc hdoc
  rw [h1]
  refine ⟨rfl, h2, ?_⟩
  have h3 := Verify_of_found _ now2 email T _ h2
  rw [if_neg (fun h : "" = T => hne h.symm)] at h3
  exact h3

/-- C23, a concrete instance: `first@x.com` is created with the verification
token `vt-first`; `Verify` with it succeeds and the repeat fails. -/
theorem Verify_succeeds_once_witness :
    (findAccount (DefaultAccountService.Create plainBcrypt mailOk accountsA createEnv1
      "first@x.com" "pw-first").1 "first@x.com").map
      (fun doc => (doc.verificationToken, doc.isVerified, doc.isEnabled)) =
      some ("vt-first", false, false) ∧
    (DefaultAccountService.Verify (DefaultAccountService.Create plainBcrypt mailOk accountsA
      createEnv1 "first@x.com" "pw-first").1 91000000000 "first@x.com" "vt-first").2 = none ∧
    (DefaultAccountService.Verify (DefaultAccountService.Verify
      (DefaultAccountService.Create plainBcrypt mailOk accountsA createEnv1 "first@x.com"
        "pw-first").1 91000000000 "first@x.com" "vt-first").1 92000000000 "first@x.com"
      "vt-first").2 = some (Error.VerificationError "cannot verify account") :=
  match Verify_succeeds_once (DefaultAccountService.Create plainBcrypt mailOk accountsA
      createEnv1 "first@x.com" "pw-first").1 91000000000 92000000000 "first@x.com" "vt-first"
      { email := "first@x.com", password := "$2a$04$pw-first", isVerified := false,
        verificationToken := "vt-first", isEnabled := false, isDeleted := false,
        socialProviders := [], roles := [], created := 90000000000, modified := 90000000000 }
      (by decide) rfl (by decide) with
  | ⟨hok, _, hrepeat⟩ => ⟨by decide, hok, congrArg (fun r => r.2) hrepeat⟩

/-! ## C24 -/

/-- After `Create` of the one-time-code store the record found for the email
is the new one. -/
theorem logon_Create_find (logonCodes : List LogonCode) (email code : String)
    (expiresAt nowCreated : Int) :
    (DefaultLogonCodeRepository.Create logonCodes email code expiresAt nowCreated).find?
      (fun c => c.Email == email) =
      some { Email := email, Code := code, Expires := truncateMillisecond expiresAt,
             Created := truncateMillisecond nowCreated } := by
  unfold DefaultLogonCodeRepository.Create
  cases hany : logonCodes.any (fun c => c.Email == email)
  · have hnone : logonCodes.find? (fun c => c.Email == email) = none := by
      rw [List.find?_eq_none]
      intro x hx hpx
      have : logonCodes.any (fun c => c.Email == email) = true :=
        List.any_eq_true.mpr ⟨x, hx, hpx⟩
      rw [hany] at this
      cases this
    simp [List.find?_append, hnone]
  · rw [List.any_eq_true] at hany
    obtain ⟨x, hx, hpx⟩ := hany
    have hu := find_updateFirst (fun c : LogonCode => c.Email == email)
      (fun c => { c with Code := code, Expires := truncateMillisecond expiresAt,
                         Created := truncateMillisecond nowCreated })
      logonCodes (fun _ hy => hy)
    rw [if_pos rfl, hu]
    cases hf : logonCodes.find? (fun c => c.Email == email) with
    | none =>
      rw [List.find?_eq_none] at hf
      exact absurd hpx (hf x hx)
    | some y =>
      have hy : y.Email = email := by simpa using List.find?_some hf
      simp [hy]

/-- The upsert of `Create` keeps at most one code record per email. -/
theorem logon_Create_nodup (logonCodes : List LogonCode) (email code : String)
    (expiresAt nowCreated : Int) (hone : (logonCodes.map (fun c => c.Email)).Nodup) :
    ((DefaultLogonCodeRepository.Create logonCodes email code expiresAt nowCreated).map
      (fun c => c.Email)).Nodup := by
  unfold DefaultLogonCodeRepository.Create
  cases hany : logonCodes.any (fun c => c.Email == email)
  · simp only [Bool.false_eq_true, if_false, List.map_append, List.map_cons, List.map_nil]
    rw [List.nodup_append]
    refine ⟨hone, List.nodup_singleton _, ?_⟩
    intro e he he2
    have he3 : e = email := by simpa using he2
    obtain ⟨x, hx, hxe⟩ := List.mem_map.mp he
    have : logonCodes.any (fun c => c.Email == email) = true :=
      List.any_eq_true.mpr ⟨x, hx, by simp [hxe, he3]⟩
    rw [hany] at this
    cases this
  · have hu := map_updateFirst (fun c : LogonCode => c.Email == email)
      (fun c => { c with Code := code, Expires := truncateMillisecond expiresAt,
                         Created := truncateMillisecond nowCreated })
      (fun c => c.Email) logonCodes (fun _ _ => rfl)
    rw [if_pos rfl, hu]
    exact hone

/-- With at most one document per key, the documents of a key are the one
that `FindOne` finds. -/
theorem filter_key_eq_singleton {α : Type} (key : α → String) (l : List α) (k : String)
    (x : α) (hnd : (l.map key).Nodup) (hf : l.find? (fun y => key y == k) = some x) :
    l.filter (fun y => key y == k) = [x] := by
  induction l with
  | nil => simp at hf
  | cons a as ih =>
    simp only [List.map_cons, List.nodup_cons] at hnd
    cases ha : (key a == k)
    · simp only [List.find?_cons, ha] at hf
      simp only [List.filter_cons, ha, Bool.false_eq_true, if_false]
      exact ih hnd.2 hf
    · simp only [List.find?_cons, ha, Option.some.injEq] at hf
      subst hf
      simp only [List.filter_cons, ha, if_true, List.cons.injEq, true_and]
      rw [List.filter_eq_nil_iff]
      intro y hy hye
      have h1 : key a = k := by simpa using ha
      have h2 : key y = k := by simpa using hye
      exact hnd.1 (List.mem_map.mpr ⟨y, hy, by rw [h1, h2]⟩)

/-- Adding the ten minutes of `expires` commutes with the truncation to the
millisecond. -/
theorem truncateMillisecond_add_expires (t : Int) :
    truncateMillisecond (t + expires) = truncateMillisecond t + expires := by
  unfold truncateMillisecond expires nanosPerMillisecond nanosPerSecond
  omega

/-- Every `Request` keeps at most one code record per email. -/
theorem Request_nodup (bcrypt : Bcrypt) (emailService : EmailService)
    (accounts : List AccountDocument) (logonCodes : List LogonCode) (env : RequestEnv)
    (email : String) (hone : (logonCodes.map (fun c => c.Email)).Nodup) :
    ((DefaultLogonCodeService.Request bcrypt emailService accounts logonCodes env email).1.map
      (fun c => c.Email)).Nodup := by
  unfold DefaultLogonCodeService.Request
  cases hread : Read accounts email with
  | error err => exact hone
  | ok account =>
    cases hcode : GetUniqueKey codeSize env.source with
    | error err => exact hone
    | ok code =>
      cases hhash : bcrypt.GenerateFromPassword code bcryptDefaultCost env.salt with
      | error err =>
        simp only [hhash]
        exact hone
      | ok hashed =>
        simp only [hhash]
        exact logon_Create_nodup _ _ _ _ _ hone

/-- C24: with a bcrypt whose hash of a password verifies that password and is
not the password, (1) the contents of the code store after any sequence of
`Request` calls hold at most one record per email; (2) when `Request` succeeds
on a store with at most one record per email, one code was handed to the email
collaborator for the email, the store holds exactly one record for the email,
the new one, whose `Code` is the bcrypt hash of that code (it verifies the code
and is not the code) and whose `Expires` is the time of the request plus the
ten minutes of `expires`, at the millisecond precision of the store; (3)
`Request` for an email without account fails with `AccountNotFoundError`,
leaves the store as it is and makes no call on the email collaborator. -/
theorem Request_keeps_one_hashed_code (bcrypt : Bcrypt) (emailService : EmailService)
    (accounts : List AccountDocument) (logonCodes : List LogonCode) (env : RequestEnv)
    (email : String)
    (hverify : ∀ (password hash : String) (cost salt : Nat),
      bcrypt.GenerateFromPassword password cost salt = Except.ok hash →
      bcrypt.CompareHashAndPassword hash password = none)
    (hdiffer : ∀ (password hash : String) (cost salt : Nat),
      bcrypt.GenerateFromPassword password cost salt = Except.ok hash → hash ≠ password) :
    (∀ l : List LogonCode, CodesRequested l → (l.map (fun c => c.Email)).Nodup) ∧
    ((logonCodes.map (fun c => c.Email)).Nodup →
      (DefaultLogonCodeService.Request bcrypt emailService accounts logonCodes env
        email).2.2 = none →
      ∃ code hashed,
        (DefaultLogonCodeService.Request bcrypt emailService accounts logonCodes env
          email).2.1 = [Mail.magicLink email code] ∧
        (DefaultLogonCodeService.Request bcrypt emailService accounts logonCodes env
          email).1.filter (fun c => c.Email == email) =
          [{ Email := email, Code := hashed,
             Expires := truncateMillisecond env.now + expires,
             Created := truncateMillisecond env.nowCreated }] ∧
        expires = 10 * 60 * 1000000000 ∧
        DefaultEncryption.Verify bcrypt hashed code = Except.ok true ∧
        hashed ≠ code) ∧
    (findAccount accounts email = none →
      DefaultLogonCodeService.Request bcrypt emailService accounts logonCodes env email =
        (logonCodes, [], some (Error.AccountNotFoundError email))) := by
  refine ⟨?_, ?_, ?_⟩
  · intro l hl
    induction hl with
    | empty => exact List.nodup_nil
    | request b e a l0 en em _ ih => exact Request_nodup b e a l0 en em ih
  · intro hone hok
    have hnd := Request_nodup bcrypt emailService accounts logonCodes env email hone
    unfold DefaultLogonCodeService.Request at hok hnd ⊢
    cases hread : Read accounts email with
    | error err => simp [hread] at hok
    | ok account =>
      cases hcode : GetUniqueKey codeSize env.source with
      | error err => simp [hread, hcode] at hok
      | ok code =>
        cases hhash : bcrypt.GenerateFromPassword code bcryptDefaultCost env.salt with
        | error err => simp [hread, hcode, hhash] at hok
        | ok hashed =>
          simp only [hread, hcode, hhash] at hnd ⊢
          refine ⟨code, hashed, rfl, ?_, by decide, ?_, hdiffer _ _ _ _ hhash⟩
          · have hfind := logon_Create_find logonCodes email hashed (env.now + expires)
              env.nowCreated
            rw [truncateMillisecond_add_expires] at hfind
            exact filter_key_eq_singleton (fun c : LogonCode => c.Email) _ email _ hnd hfind
          · simp [DefaultEncryption.Verify, hverify _ _ _ _ hhash]
  · intro hnone
    simp [DefaultLogonCodeService.Request, Read, hnone]

/-- C24, a concrete instance: `a@x.com` has an account and an older code
record; `Request` at time 100 s succeeds, hands the code `418529` to the email
collaborator and leaves one record for `a@x.com`, with the hash of that code
and the expiry 700 s. -/
theorem Request_keeps_one_hashed_code_witness :
    (DefaultLogonCodeService.Request plainBcrypt mailOk accountsA [expiredCode] requestEnv1
      "a@x.com").2.2 = none ∧
    (DefaultLogonCodeService.Request plainBcrypt mailOk accountsA [expiredCode] requestEnv1
      "a@x.com").2.1 = [Mail.magicLink "a@x.com" "418529"] ∧
    (DefaultLogonCodeService.Request plainBcrypt mailOk accountsA [expiredCode] requestEnv1
      "a@x.com").1 =
      [{ Email := "a@x.com", Code := "$2a$04$418529", Expires := 700000000000,
         Created := 100000000000 }] ∧
    ∃ code hashed,
      (DefaultLogonCodeService.Request plainBcrypt mailOk accountsA [expiredCode] requestEnv1
        "a@x.com").2.1 = [Mail.magicLink "a@x.com" code] ∧
      (DefaultLogonCodeService.Request plainBcrypt mailOk accountsA [expiredCode] requestEnv1
        "a@x.com").1.filter (fun c => c.Email == "a@x.com") =
        [{ Email := "a@x.com", Code := hashed,
           Expires := truncateMillisecond requestEnv1.now + expires,
           Created := truncateMillisecond requestEnv1.nowCreated }] ∧
      expires = 10 * 60 * 1000000000 ∧
      DefaultEncryption.Verify plainBcrypt hashed code = Except.ok true ∧
      hashed ≠ code :=
  ⟨rfl, rfl, by decide,
   (Request_keeps_one_hashed_code plainBcrypt mailOk accountsA [expiredCode] requestEnv1
      "a@x.com"
      (fun password hash _ _ h => by
        simp only [plainBcrypt, Except.ok.injEq] at h
        simp [plainBcrypt, h])
      (fun password hash _ _ h => by
        simp only [plainBcrypt, Except.ok.injEq] at h
        intro heq
        have hlen := congrArg String.length heq
        rw [← h, String.length_append] at hlen
        have h7 : "$2a$04$".length = 7 := by decide
        omega)).2.1 (by decide) rfl⟩

/-! ## C25 -/

/-- Every value that `rand.Int` returns for the bound `len(charSet)` is an
index of `charSet`, and the byte there is a decimal digit. -/
theorem charSet_index_in_bounds (draw : Nat) :
    ∃ c, charSet.toList[randInt charSet.length draw]? = some c ∧ c.isDigit = true := by
  have hlen : charSet.length = 10 := by decide
  have hlt : randInt charSet.length draw < 10 := by
    unfold randInt
    rw [hlen]
    exact Nat.mod_lt _ (by decide)
  have hall : ∀ k, k < 10 → (charSet.toList[k]?).map Char.isDigit = some true := by decide
  have h := hall _ hlt
  cases hc : charSet.toList[randInt charSet.length draw]? with
  | none => rw [hc] at h; cases h
  | some c =>
    rw [hc] at h
    exact ⟨c, rfl, by simpa using h⟩

/-- The bytes that the loop of `GetUniqueKey` returns: as many as it had to
fill, each a decimal digit. -/
theorem getUniqueKeyFrom_ok (source : Nat → Except Error Nat) (remaining i : Nat)
    (cs : List Char) (h : getUniqueKeyFrom source i remaining = Except.ok cs) :
    cs.length = remaining ∧ ∀ c ∈ cs, c.isDigit = true := by
  induction remaining generalizing i cs with
  | zero =>
    simp only [getUniqueKeyFrom, Except.ok.injEq] at h
    subst h
    exact ⟨rfl, by simp⟩
  | succ n ih =>
    simp only [getUniqueKeyFrom] at h
    cases hs : source i with
    | error err => simp [hs] at h
    | ok draw =>
      obtain ⟨c, hc, hd⟩ := charSet_index_in_bounds draw
      cases hr : getUniqueKeyFrom source (i + 1) n with
      | error err => simp only [hs, hc, hr, reduceCtorEq] at h
      | ok rest =>
        simp only [hs, hc, hr, Except.ok.injEq] at h
        subst h
        obtain ⟨hl, hall⟩ := ih (i + 1) rest hr
        refine ⟨by simp [hl], ?_⟩
        intro x hx
        rcases List.mem_cons.mp hx with hx | hx
        · rw [hx]; exact hd
        · exact hall x hx

/-- The loop of `GetUniqueKey` returns its bytes when the random source
delivers in every round. -/
theorem getUniqueKeyFrom_total (source : Nat → Except Error Nat) (remaining i : Nat)
    (hsource : ∀ j, i ≤ j → j < i + remaining → ∃ draw, source j = Except.ok draw) :
    ∃ cs, getUniqueKeyFrom source i remaining = Except.ok cs := by
  induction remaining generalizing i with
  | zero => exact ⟨[], rfl⟩
  | succ n ih =>
    obtain ⟨draw, hs⟩ := hsource i (Nat.le_refl i) (by omega)
    obtain ⟨c, hc, _⟩ := charSet_index_in_bounds draw
    obtain ⟨rest, hr⟩ := ih (i + 1) (fun j h1 h2 => hsource j (by omega) (by omega))
    exact ⟨c :: rest, by simp only [getUniqueKeyFrom, hs, hc, hr]⟩

/-- C25: for every size and every outcome of the random source, the index that
`GetUniqueKey` uses into `charSet` is within bounds; when `GetUniqueKey`
succeeds the string has exactly `size` characters, each a decimal digit; it
succeeds when the random source delivers in every round; and every code that
`Request` hands to the email collaborator has 6 characters, each a decimal
digit. -/
theorem GetUniqueKey_digits (size : Nat) (source : Nat → Except Error Nat) :
    (∀ draw : Nat, randInt charSet.length draw < charSet.length ∧
      ∃ c, charSet.toList[randInt charSet.length draw]? = some c ∧ c.isDigit = true) ∧
    (∀ s : String, GetUniqueKey size source = Except.ok s →
      s.length = size ∧ ∀ c ∈ s.toList, c.isDigit = true) ∧
    ((∀ i, i < size → ∃ draw, source i = Except.ok draw) →
      ∃ s, GetUniqueKey size source = Except.ok s) ∧
    (∀ (bcrypt : Bcrypt) (emailService : EmailService) (accounts : List AccountDocument)
      (logonCodes : List LogonCode) (env : RequestEnv) (email address code : String),
      Mail.magicLink address code ∈
        (DefaultLogonCodeService.Request bcrypt emailService accounts logonCodes env
          email).2.1 →
      code.length = 6 ∧ ∀ c ∈ code.toList, c.isDigit = true) := by
  have hkey : ∀ (n : Nat) (src : Nat → Except Error Nat) (s : String),
      GetUniqueKey n src = Except.ok s →
      s.length = n ∧ ∀ c ∈ s.toList, c.isDigit = true := by
    intro n src s h
    unfold GetUniqueKey at h
    cases hr : getUniqueKeyFrom src 0 n with
    | error err => simp [hr] at h
    | ok cs =>
      simp only [hr, Except.ok.injEq] at h
      subst h
      exact getUniqueKeyFrom_ok src n 0 cs hr
  refine ⟨?_, hkey size source, ?_, ?_⟩
  · intro draw
    refine ⟨?_, charSet_index_in_bounds draw⟩
    unfold randInt
    exact Nat.mod_lt _ (by decide)
  · intro hsource
    obtain ⟨cs, hcs⟩ := getUniqueKeyFrom_total source size 0
      (fun j _ h2 => hsource j (by omega))
    exact ⟨String.mk cs, by simp only [GetUniqueKey, hcs]⟩
  · intro bcrypt emailService accounts logonCodes env email address code hmem
    unfold DefaultLogonCodeService.Request at hmem
    cases hread : Read accounts email with
    | error err => simp [hread] at hmem
    | ok account =>
      cases hcode : GetUniqueKey codeSize env.source with
      | error err => simp [hread, hcode] at hmem
      | ok generated =>
        cases hhash : bcrypt.GenerateFromPassword generated bcryptDefaultCost env.salt with
        | error err => simp [hread, hcode, hhash] at hmem
        | ok hashed =>
          simp only [hread, hcode, hhash, List.mem_singleton, Mail.magicLink.injEq] at hmem
          rw [hmem.2]
          exact hkey codeSize env.source generated hcode

/-- C25, a concrete instance: the random source delivers in the six rounds of
a `Request`, and the code is `418529`. -/
theorem GetUniqueKey_digits_witness :
    GetUniqueKey codeSize requestEnv1.source = Except.ok "418529" ∧
    ("418529".length = codeSize ∧ ∀ c ∈ "418529".toList, c.isDigit = true) :=
  ⟨rfl, (GetUniqueKey_digits codeSize requestEnv1.source).2.1 "418529" rfl⟩

/-! ## C26 -/

/-- C26 as stated fails: with an empty email and an empty password both checks
add their message, and `Create` of the repository and of the service return
the error `email is required,password is required`, which is neither of the
two single messages. -/
theorem Create_both_empty_joins_messages :
    (MongodbAccountRepository.Create plainBcrypt accountsA createEnv1 "" "").2 =
      some (Error.errorString "email is required,password is required") ∧
    (DefaultAccountService.Create plainBcrypt mailOk accountsA createEnv1 "" "").2 =
      some (Error.errorString "email is required,password is required") ∧
    (MongodbAccountRepository.Create plainBcrypt accountsA createEnv1 "" "").2 ≠
      some (Error.errorString "email is required") ∧
    (MongodbAccountRepository.Create plainBcrypt accountsA createEnv1 "" "").2 ≠
      some (Error.errorString "password is required") :=
  ⟨rfl, rfl, by decide, by decide⟩

/-- C26, as amended: `Create` of the repository and of the service fail with
`email is required` for an empty email and a non-empty password, with
`password is required` for a non-empty email and an empty password, and with
`email is required,password is required` when both are empty, and store no
account in the three cases; with a non-empty email and a non-empty password
that bcrypt hashes, they fail with `AccountDuplicateError` carrying the email
and leave the collection as it is when the email has an account, and otherwise
the repository stores the new account and succeeds, and the service returns
what the sending of the verification email returns. -/
theorem Create_validates_and_rejects_duplicates (bcrypt : Bcrypt)
    (emailService : EmailService) (accounts : List AccountDocument) (env : CreateEnv)
    (email password : String) :
    (email = "" → password ≠ "" →
      MongodbAccountRepository.Create bcrypt accounts env email password =
        (accounts, some (Error.errorString "email is required")) ∧
      DefaultAccountService.Create bcrypt emailService accounts env email password =
        (accounts, some (Error.errorString "email is required"))) ∧
    (email ≠ "" → password = "" →
      MongodbAccountRepository.Create bcrypt accounts env email password =
        (accounts, some (Error.errorString "password is required")) ∧
      DefaultAccountService.Create bcrypt emailService accounts env email password =
        (accounts, some (Error.errorString "password is required"))) ∧
    (email = "" → password = "" →
      MongodbAccountRepository.Create bcrypt accounts env email password =
        (accounts, some (Error.errorString "email is required,password is required")) ∧
      DefaultAccountService.Create bcrypt emailService accounts env email password =
        (accounts, some (Error.errorString "email is required,password is required"))) ∧
    (∀ (doc : AccountDocument) (hashed : String), email ≠ "" → password ≠ "" →
      bcrypt.GenerateFromPassword password bcryptMinCost env.salt = Except.ok hashed →
      findAccount accounts email = some doc →
      MongodbAccountRepository.Create bcrypt accounts env email password =
        (accounts, some (Error.AccountDuplicateError email)) ∧
      DefaultAccountService.Create bcrypt emailService accounts env email password =
        (accounts, some (Error.AccountDuplicateError email))) ∧
    (∀ hashed : String, email ≠ "" → password ≠ "" →
      bcrypt.GenerateFromPassword password bcryptMinCost env.salt = Except.ok hashed →
      findAccount accounts email = none →
      MongodbAccountRepository.Create bcrypt accounts env email password =
        (accounts ++ [{ email := email, password := hashed, isVerified := false,
                        verificationToken := env.verificationToken, isEnabled := false,
                        isDeleted := false, socialProviders := [], roles := [],
                        created := truncateMillisecond env.nowCreated,
                        modified := truncateMillisecond env.nowModified,
                        socialProvider := [] }], none) ∧
      DefaultAccountService.Create bcrypt emailService accounts env email password =
        (accounts ++ [{ email := email, password := hashed, isVerified := false,
                        verificationToken := env.verificationToken, isEnabled := false,
                        isDeleted := false, socialProviders := [], roles := [],
                        created := truncateMillisecond env.nowCreated,
                        modified := truncateMillisecond env.nowModified,
                        socialProvider := [] }],
         emailService.SendVerificationEmail email env.verificationToken)) := by
  refine ⟨?_, ?_, ?_, ?_, ?_⟩
  · intro he hp
    subst he
    have h : MongodbAccountRepository.Create bcrypt accounts env "" password =
        (accounts, some (Error.errorString "email is required")) := by
      simp [MongodbAccountRepository.Create, createErrorMessages, hp]
      decide
    exact ⟨h, by simp only [DefaultAccountService.Create, h]⟩
  · intro he hp
    subst hp
    have h : MongodbAccountRepository.Create bcrypt accounts env email "" =
        (accounts, some (Error.errorString "password is required")) := by
      simp [MongodbAccountRepository.Create, createErrorMessages, he]
      decide
    exact ⟨h, by simp only [DefaultAccountService.Create, h]⟩
  · intro he hp
    subst he hp
    have h : MongodbAccountRepository.Create bcrypt accounts env "" "" =
        (accounts, some (Error.errorString "email is required,password is required")) := by
      simp [MongodbAccountRepository.Create, createErrorMessages]
      decide
    exact ⟨h, by simp only [DefaultAccountService.Create, h]⟩
  · intro doc hashed he hp hhash hdoc
    have hany : accounts.any (fun doc => doc.email == email) = true :=
      any_eq_true_of_find _ _ _ hdoc
    have h : MongodbAccountRepository.Create bcrypt accounts env email password =
        (accounts, some (Error.AccountDuplicateError email)) := by
      simp [MongodbAccountRepository.Create, createErrorMessages, he, hp,
        DefaultEncryption.Encrypt, hhash, hany]
    exact ⟨h, by simp only [DefaultAccountService.Create, h]⟩
  · intro hashed he hp hhash hnew
    have hany : accounts.any (fun doc => doc.email == email) = false :=
      any_eq_false_of_find _ _ hnew
    have h : MongodbAccountRepository.Create bcrypt accounts env email password =
        (accounts ++ [{ email := email, password := hashed, isVerified := false,
                        verificationToken := env.verificationToken, isEnabled := false,
                        isDeleted := false, socialProviders := [], roles := [],
                        created := truncateMillisecond env.nowCreated,
                        modified := truncateMillisecond env.nowModified,
                        socialProvider := [] }], none) := by
      simp [MongodbAccountRepository.Create, createErrorMessages, he, hp,
        DefaultEncryption.Encrypt, hhash, hany]
    have hfind : ∀ doc : AccountDocument, doc.email = email →
        findAccount (accounts ++ [doc]) email = some doc := by
      intro doc hdoc
      unfold findAccount at hnew ⊢
      simp [List.find?_append, hnew, hdoc]
    refine ⟨h, ?_⟩
    simp [DefaultAccountService.Create, h, Read, hfind, AccountDocument.decode]

/-- C26, concrete instances: the three refusals of the validation, the
duplicate `a@x.com`, and the fresh `first@x.com`. -/
theorem Create_validates_and_rejects_duplicates_witness :
    (MongodbAccountRepository.Create plainBcrypt accountsA createEnv1 "" "password").2 =
      some (Error.errorString "email is required") ∧
    (MongodbAccountRepository.Create plainBcrypt accountsA createEnv1 "test" "").2 =
      some (Error.errorString "password is required") ∧
    DefaultAccountService.Create plainBcrypt mailOk accountsA createEnv1 "a@x.com" "pw2" =
      (accountsA, some (Error.AccountDuplicateError "a@x.com")) ∧
    (DefaultAccountService.Create plainBcrypt mailOk accountsA createEnv1 "first@x.com"
      "pw-first").2 = none :=
  ⟨congrArg (fun r => r.2)
     ((Create_validates_and_rejects_duplicates plainBcrypt mailOk accountsA createEnv1 ""
        "password").1 rfl (by decide)).1,
   rfl,
   ((Create_validates_and_rejects_duplicates plainBcrypt mailOk accountsA createEnv1 "a@x.com"
      "pw2").2.2.2.1 healthyDoc "$2a$04$pw2" (by decide) (by decide) rfl (by decide)).2,
   rfl⟩

/-! ## C27 -/

/-- C27: validation does not look at the `use` header.  On a tokenizer made
over a store in the state `KeyStoreOk`, with both lifetimes between 1 and
9223372036 seconds and at every time at which the token is fresh, the token
that `CreateRefreshToken` makes for a subject, whose header says `refresh`, is
accepted by `ValidateAccessToken` for that subject, with claims that carry the
subject and no roles; the token that `CreateAccessToken` makes, whose header
says `access`, is accepted by `ValidateRefreshToken`; and `Renew` with that
access token in the place of the refresh token returns a new token pair when
the subject has an account. -/
theorem use_header_not_checked (name issuer audience : String) (rExp aExp : Int)
    (signingKeys : List SigningKey) (env envAccess envRefresh : MintEnv) (now : Int)
    (subject : String) (rbac : List String) (accounts : List AccountDocument)
    (doc : AccountDocument)
    (hstore : KeyStoreOk signingKeys)
    (haExp : 1 ≤ aExp ∧ aExp ≤ 9223372036) (hrExp : 1 ≤ rExp ∧ rExp ≤ 9223372036)
    (hafter : env.nowNotBefore ≤ now)
    (hsoonA : now ≤ env.nowExpiresAt + nanosPerSecond * (aExp - 1))
    (hsoonR : now ≤ env.nowExpiresAt + nanosPerSecond * (rExp - 1))
    (hdoc : findAccount accounts subject = some doc) :
    (∃ tok h rest claims,
      CreateRefreshToken (NewDefaultTokenizer name issuer audience rExp aExp signingKeys)
        signingKeys env subject = Except.ok tok ∧
      tok = Segment.header h :: rest ∧ h.use = some "refresh" ∧
      ValidateAccessToken (NewDefaultTokenizer name issuer audience rExp aExp signingKeys)
        now subject tok = Except.ok claims ∧
      claims.Subject = subject ∧ claims.Roles = []) ∧
    (∃ tok h rest claims pair,
      CreateAccessToken (NewDefaultTokenizer name issuer audience rExp aExp signingKeys)
        signingKeys env subject rbac = Except.ok tok ∧
      tok = Segment.header h :: rest ∧ h.use = some "access" ∧
      ValidateRefreshToken (NewDefaultTokenizer name issuer audience rExp aExp signingKeys)
        now subject tok = Except.ok claims ∧
      claims.Subject = subject ∧
      (Renew (NewDefaultTokenizer name issuer audience rExp aExp signingKeys) accounts
        signingKeys now envAccess envRefresh tok subject).2 = Except.ok pair) := by
  obtain ⟨hne, hgen, hnd⟩ := hstore
  have hmem := GetLatestKey_mem signingKeys hne
  obtain ⟨n, hpriv, hpub⟩ := isGeneratedPair_iff _ (hgen _ hmem)
  have hkey := keyAt_of_mem name issuer audience rExp aExp signingKeys _ hmem hnd
  have hload : loadPrivateKey (GetLatestKey signingKeys).PrivateKey = Except.ok n := by
    rw [hpriv]
    rfl
  constructor
  · have hparse := ParseWithClaims_SignedString
      (NewDefaultTokenizer name issuer audience rExp aExp signingKeys) now subject "refresh"
      (GetLatestKey signingKeys)
      (RefreshTokenClaims.marshal
        { ID := env.id
          ExpiresAt := some (truncateSecond (env.nowExpiresAt + secondsToDuration rExp))
          IssuedAt := some (truncateSecond env.nowIssuedAt)
          NotBefore := some (truncateSecond env.nowNotBefore)
          Issuer := issuer
          Subject := subject
          Audience := [audience] }) n hkey hpub rfl
      (validateClaims_fresh _ env.nowExpiresAt env.nowNotBefore now rExp hrExp.1 hrExp.2
        hafter hsoonR rfl rfl)
    exact ⟨_, _, _, _, CreateRefreshToken_eq _ signingKeys env subject n hpriv, rfl, rfl,
      ValidateAccessToken_of_parse _ now subject _ _ hparse, rfl, rfl⟩
  · have hparse := ParseWithClaims_SignedString
      (NewDefaultTokenizer name issuer audience rExp aExp signingKeys) now subject "access"
      (GetLatestKey signingKeys)
      (AccessTokenClaims.marshal
        { Roles := rbac
          ID := env.id
          ExpiresAt := some (truncateSecond (env.nowExpiresAt + secondsToDuration aExp))
          IssuedAt := some (truncateSecond env.nowIssuedAt)
          NotBefore := some (truncateSecond env.nowNotBefore)
          Issuer := issuer
          Subject := subject
          Audience := [audience] }) n hkey hpub rfl
      (validateClaims_fresh _ env.nowExpiresAt env.nowNotBefore now aExp haExp.1 haExp.2
        hafter hsoonA rfl rfl)
    have hvalid := ValidateRefreshToken_of_parse _ now subject _ _ hparse
    obtain ⟨pair, hpair⟩ := Renew_ok_of_valid_token
      (NewDefaultTokenizer name issuer audience rExp aExp signingKeys) accounts signingKeys now
      envAccess envRefresh _ subject _ doc n hvalid hdoc hload
    exact ⟨_, _, _, _, pair, CreateAccessToken_eq _ signingKeys env subject rbac n hpriv, rfl,
      rfl, hvalid, rfl, hpair⟩

/-- C27, a concrete instance: the tokenizer of the tests over the initialized
store; `Renew` at time 100 s with the access token of `a@x.com` made at that
time returns a token pair. -/
theorem use_header_not_checked_witness :
    KeyStoreOk storeA ∧
    ∃ tok h rest claims pair,
      CreateAccessToken tokenizerA storeA mintEnv1 "a@x.com" ["admin"] = Except.ok tok ∧
      tok = Segment.header h :: rest ∧ h.use = some "access" ∧
      ValidateRefreshToken tokenizerA 100000000000 "a@x.com" tok = Except.ok claims ∧
      claims.Subject = "a@x.com" ∧
      (Renew tokenizerA accountsA storeA 100000000000 mintEnv1 mintEnv2 tok "a@x.com").2 =
        Except.ok pair :=
  ⟨by decide,
   (use_header_not_checked "test" "test" "test" 3600 9600 storeA mintEnv1 mintEnv1 mintEnv2
      100000000000 "a@x.com" ["admin"] accountsA healthyDoc (by decide) (by decide)
      (by decide) (by decide) (by decide) (by decide) (by decide)).2⟩

/-! ## C28 -/

/-- C28: with a code record whose hash accepts the code and a latest signing
key whose private key loads, the one-time-code `Authenticate` returns the
access token and the refresh token made for the email whenever an account is
stored for the email, whatever its flags `isDeleted`, `isVerified` and
`isEnabled`; it fails, with `AccountNotFoundError`, when no account is stored
for the email. -/
theorem logon_Authenticate_ignores_lifecycle (bcrypt : Bcrypt) (tokens : DefaultTokenizer)
    (logonCodes : List LogonCode) (accounts : List AccountDocument)
    (signingKeys : List SigningKey) (envAccess envRefresh : MintEnv)
    (deleteFailure : Option Error) (email code : String) (c : LogonCode) (n : Nat)
    (hc : logonCodes.find? (fun c => c.Email == email) = some c)
    (hv : bcrypt.CompareHashAndPassword c.Code code = none)
    (hkey : loadPrivateKey (GetLatestKey signingKeys).PrivateKey = Except.ok n) :
    (∀ doc : AccountDocument, findAccount accounts email = some doc →
      ∃ pair, (DefaultLogonCodeService.Authenticate bcrypt tokens logonCodes accounts
          signingKeys envAccess envRefresh deleteFailure email code).2 = Except.ok pair ∧
        CreateAccessToken tokens signingKeys envAccess email doc.roles =
          Except.ok pair.AccessToken ∧
        CreateRefreshToken tokens signingKeys envRefresh email =
          Except.ok pair.RefreshToken) ∧
    (findAccount accounts email = none →
      (DefaultLogonCodeService.Authenticate bcrypt tokens logonCodes accounts signingKeys
        envAccess envRefresh deleteFailure email code).2 =
        Except.error (Error.AccountNotFoundError email)) := by
  constructor
  · intro doc hdoc
    obtain ⟨ta, hta⟩ := CreateAccessToken_ok tokens signingKeys envAccess email
      doc.decode.Roles n hkey
    obtain ⟨tr, htr⟩ := CreateRefreshToken_ok tokens signingKeys envRefresh email n hkey
    have hroles : doc.decode.Roles = doc.roles := rfl
    refine ⟨{ AccessToken := ta, RefreshToken := tr }, ?_, ?_, htr⟩
    · simp [DefaultLogonCodeService.Authenticate, DefaultLogonCodeRepository.Read, hc,
        DefaultEncryption.Verify, hv, Read, hdoc, hta, htr]
    · rw [← hroles]
      exact hta
  · intro hnone
    simp [DefaultLogonCodeService.Authenticate, DefaultLogonCodeRepository.Read, hc,
      DefaultEncryption.Verify, hv, Read, hnone]

/-- C28, concrete instances: the deleted, the unverified and the disabled
account of `accountsA` each get a token pair for a stored code record and the
matching code `123456`. -/
theorem logon_Authenticate_ignores_lifecycle_witness :
    (accountHealth deletedDoc.decode = some (Error.AccountDeletedError "deleted@x.com") ∧
      ∃ pair, (DefaultLogonCodeService.Authenticate plainBcrypt tokenizerA
        [{ validCode with Email := "deleted@x.com" }] accountsA storeA mintEnv1 mintEnv2 none
        "deleted@x.com" "123456").2 = Except.ok pair) ∧
    (accountHealth unverifiedDoc.decode = some (Error.AccountNotVerifiedError "new@x.com") ∧
      ∃ pair, (DefaultLogonCodeService.Authenticate plainBcrypt tokenizerA
        [{ validCode with Email := "new@x.com" }] accountsA storeA mintEnv1 mintEnv2 none
        "new@x.com" "123456").2 = Except.ok pair) ∧
    (accountHealth disabledDoc.decode = some (Error.AccountDisabledError "off@x.com") ∧
      ∃ pair, (DefaultLogonCodeService.Authenticate plainBcrypt tokenizerA
        [{ validCode with Email := "off@x.com" }] accountsA storeA mintEnv1 mintEnv2 none
        "off@x.com" "123456").2 = Except.ok pair) :=
  ⟨⟨rfl,
    match (logon_Authenticate_ignores_lifecycle plainBcrypt tokenizerA
      [{ validCode with Email := "deleted@x.com" }] accountsA storeA mintEnv1 mintEnv2 none
      "deleted@x.com" "123456" { validCode with Email := "deleted@x.com" } 11 rfl rfl rfl).1
      deletedDoc (by decide) with
    | ⟨pair, h, _⟩ => ⟨pair, h⟩⟩,
   ⟨rfl, _, rfl⟩, ⟨rfl, _, rfl⟩⟩

/-! ## C29 -/

/-- C29: for a stored account, `Verify` succeeds exactly when the code equals
the stored verification token as a string; a successful `Verify` leaves the
account with the empty token, verified and enabled; so for an account whose
token is the empty string, as a verification left it, `Verify` with the empty
code succeeds and sets `isVerified` and `isEnabled` again, whatever the flags
were; and after any successful `Verify` the call with the empty code succeeds
at every later moment. -/
theorem Verify_with_empty_code (accounts : List AccountDocument) (now : Int)
    (email code : String) (doc : AccountDocument)
    (hdoc : findAccount accounts email = some doc) :
    ((DefaultAccountService.Verify accounts now email code).2 = none ↔
      doc.verificationToken = code) ∧
    ((DefaultAccountService.Verify accounts now email code).2 = none →
      findAccount (DefaultAccountService.Verify accounts now email code).1 email =
        some { doc with verificationToken := "", isVerified := true, isEnabled := true,
                        modified := truncateMillisecond now }) ∧
    (doc.verificationToken = "" →
      (DefaultAccountService.Verify accounts now email "").2 = none ∧
      findAccount (DefaultAccountService.Verify accounts now email "").1 email =
        some { doc with verificationToken := "", isVerified := true, isEnabled := true,
                        modified := truncateMillisecond now }) ∧
    ((DefaultAccountService.Verify accounts now email code).2 = none →
      ∀ now2 : Int, (DefaultAccountService.Verify
        (DefaultAccountService.Verify accounts now email code).1 now2 email "").2 = none) := by
  have h1 := Verify_of_found accounts now email code doc hdoc
  have h2 := findAccount_after_Verify accounts now email doc hdoc
  have hiff : (DefaultAccountService.Verify accounts now email code).2 = none ↔
      doc.verificationToken = code := by
    rw [h1]
    by_cases h : doc.verificationToken = code
    · simp [h]
    · simp [h]
  refine ⟨hiff, ?_, ?_, ?_⟩
  · intro hok
    rw [h1, if_pos (hiff.mp hok)]
    exact h2
  · intro hempty
    have h3 := Verify_of_found accounts now email "" doc hdoc
    rw [if_pos hempty] at h3
    rw [h3]
    exact ⟨rfl, h2⟩
  · intro hok now2
    rw [h1, if_pos (hiff.mp hok)]
    have h3 := Verify_of_found _ now2 email "" _ h2
    rw [if_pos rfl] at h3
    rw [h3]

/-- C29, a concrete instance: `off@x.com` was verified and then disabled;
`Verify` with the empty code succeeds and the account is enabled again. -/
theorem Verify_with_empty_code_witness :
    (findAccount accountsA "off@x.com").map
      (fun doc => (doc.verificationToken, doc.isVerified, doc.isEnabled)) =
      some ("", true, false) ∧
    (DefaultAccountService.Verify accountsA 100000000000 "off@x.com" "").2 = none ∧
    (findAccount (DefaultAccountService.Verify accountsA 100000000000 "off@x.com" "").1
      "off@x.com").map (fun doc => (doc.verificationToken, doc.isVerified, doc.isEnabled)) =
      some ("", true, true) :=
  match (Verify_with_empty_code accountsA 100000000000 "off@x.com" "" disabledDoc
      (by decide)).2.2.1 rfl with
  | ⟨hok, hfound⟩ => ⟨by decide, hok, by rw [hfound]; rfl⟩

/-! ## C30 -/

/-- A key function call that returns a key was made for a token with the
expected subject. -/
theorem keyFunc_ok_subject (d : DefaultTokenizer) (email : String) (token : Token) (key : Nat)
    (h : keyFunc d email token = Except.ok key) :
    token.Claims.registered.Subject = email := by
  by_contra hsub
  cases hrsa : token.Method.isSigningMethodRSA
  · simp [keyFunc, hrsa] at h
  · rw [keyFunc_subject_mismatch d email token hrsa hsub] at h
    cases h

/-- The claims that `ParseWithClaims` returns under the tokenizer's key
function carry the expected subject. -/
theorem ParseWithClaims_subject (d : DefaultTokenizer) (now : Int) (email : String)
    (tok : TokenString) (p : Payload)
    (h : ParseWithClaims tok (keyFunc d email) now = Except.ok p) :
    p.registered.Subject = email := by
  unfold ParseWithClaims at h
  split at h
  · split at h
    · cases h
    · split at h
      · split at h
        · cases h
        · rename_i key hkey
          have hsub := keyFunc_ok_subject d email _ key hkey
          split at h
          · split at h
            · cases h
            · simp only [Except.ok.injEq] at h
              rw [← h]
              exact hsub
          · cases h
      · cases h
  · cases h

/-- The claims that `ValidateAccessToken` returns carry the expected subject. -/
theorem ValidateAccessToken_subject (d : DefaultTokenizer) (now : Int) (email : String)
    (tok : TokenString) (claims : AccessTokenClaims)
    (h : ValidateAccessToken d now email tok = Except.ok claims) :
    claims.Subject = email := by
  unfold ValidateAccessToken at h
  cases hp : ParseWithClaims tok (keyFunc d email) now with
  | error err => simp [hp] at h
  | ok p =>
    simp only [hp, Except.ok.injEq] at h
    rw [← h]
    exact ParseWithClaims_subject d now email tok p hp

/-- C30: every successful `UpdateEmail` of the service was made with an access
token whose subject is the email argument, so the rename is from that email to
itself: the emails of the collection are the same after the call, the account
of the email keeps its email and its other fields, except that `isVerified` is
false, the verification token is the fresh one and `modified` is the time of
the update, and the one call made on the email collaborator hands that fresh
token to that email. -/
theorem UpdateEmail_keeps_email (emailService : EmailService) (tokenizer : DefaultTokenizer)
    (accounts : List AccountDocument) (now : Int) (env : UpdateEmailEnv) (email : String)
    (accessToken : TokenString)
    (hok : (DefaultAccountService.UpdateEmail emailService tokenizer accounts now env email
      accessToken).2.2 = none) :
    (∃ claims, ValidateAccessToken tokenizer now email accessToken = Except.ok claims ∧
      claims.Subject = email) ∧
    (DefaultAccountService.UpdateEmail emailService tokenizer accounts now env email
      accessToken).1.map (fun doc => doc.email) = accounts.map (fun doc => doc.email) ∧
    (∃ doc, findAccount accounts email = some doc ∧
      findAccount (DefaultAccountService.UpdateEmail emailService tokenizer accounts now env
        email accessToken).1 email =
        some { doc with verificationToken := env.verificationToken, isVerified := false,
                        modified := truncateMillisecond env.nowModified }) ∧
    (DefaultAccountService.UpdateEmail emailService tokenizer accounts now env email
      accessToken).2.1 = [Mail.verification email env.verificationToken] ∧
    emailService.SendVerificationEmail email env.verificationToken = none := by
  unfold DefaultAccountService.UpdateEmail at hok ⊢
  cases hv : ValidateAccessToken tokenizer now email accessToken with
  | error err => simp [hv] at hok
  | ok claims =>
    have hsub := ValidateAccessToken_subject tokenizer now email accessToken claims hv
    simp only [hv, hsub] at hok ⊢
    cases hdoc : findAccount accounts email with
    | none =>
      have hany := any_eq_false_of_find _ _ hdoc
      simp [MongodbAccountRepository.UpdateEmail, hany] at hok
    | some doc =>
      have hany : accounts.any (fun doc => doc.email == email) = true :=
        any_eq_true_of_find _ _ _ hdoc
      have hmail : doc.email = email := by
        have := List.find?_some hdoc
        simpa using this
      have hrepo : MongodbAccountRepository.UpdateEmail accounts env email email =
          (updateFirst (fun doc => doc.email == email)
            (fun doc => { doc with email := email,
                                   verificationToken := env.verificationToken,
                                   isVerified := false,
                                   modified := truncateMillisecond env.nowModified }) accounts,
           Except.ok { Email := email, Token := env.verificationToken }) := by
        simp [MongodbAccountRepository.UpdateEmail, hany]
      rw [hrepo] at hok ⊢
      have hmap := map_updateFirst (fun doc : AccountDocument => doc.email == email)
        (fun doc => { doc with email := email, verificationToken := env.verificationToken,
                               isVerified := false,
                               modified := truncateMillisecond env.nowModified })
        (fun doc => doc.email) accounts
        (fun x hx => by
          have h : x.email = email := by simpa using hx
          simp [h])
      have hfind := find_updateFirst (fun doc : AccountDocument => doc.email == email)
        (fun doc => { doc with email := email, verificationToken := env.verificationToken,
                               isVerified := false,
                               modified := truncateMillisecond env.nowModified })
        accounts (fun x _ => by simp)
      refine ⟨⟨claims, rfl, hsub⟩, hmap, ⟨doc, rfl, ?_⟩, rfl, hok⟩
      unfold findAccount at hdoc ⊢
      simp only []
      rw [hfind, hdoc, ← hmail]
      rfl

/-- C30, a concrete instance: `UpdateEmail` for `a@x.com` with an access token
of `a@x.com` succeeds, the emails of the collection are the same, and the
account is unverified with the token `vt-2`. -/
theorem UpdateEmail_keeps_email_witness :
    (DefaultAccountService.UpdateEmail mailOk tokenizerA accountsA 100000000000 updateEmailEnv1
      "a@x.com" pairA.AccessToken).2.2 = none ∧
    (DefaultAccountService.UpdateEmail mailOk tokenizerA accountsA 100000000000 updateEmailEnv1
      "a@x.com" pairA.AccessToken).1.map (fun doc => doc.email) =
      ["a@x.com", "deleted@x.com", "new@x.com", "off@x.com"] ∧
    (DefaultAccountService.UpdateEmail mailOk tokenizerA accountsA 100000000000 updateEmailEnv1
      "a@x.com" pairA.AccessToken).2.1 = [Mail.verification "a@x.com" "vt-2"] :=
  match UpdateEmail_keeps_email mailOk tokenizerA accountsA 100000000000 updateEmailEnv1
    "a@x.com" pairA.AccessToken rfl with
  | ⟨_, hmap, _, hmail, _⟩ => ⟨rfl, hmap.trans (by decide), hmail⟩

end Bulwark
